import Mathlib

/-!
# barm: servo-bus codec and BLE command dispatcher

A shallow embedding of `main/sts_servo.c`, `main/position_storage.c`,
`main/sequence_player.c` (control calls and the worker task) and
`main/ble_arm_control.c` (`ble_process_command`, `ble_send_status`).

Conventions of the embedding

* `uint8_t` / `uint16_t` / `uint32_t` values are natural numbers; a store into a
  narrower C type is written with an explicit `% 256` / `% 65536`.
* A C byte array is a `List Nat`; `a[i]` is `a.getD i 0`.
* A local packet buffer filled with `packet[idx++] = x` is a list that grows at
  its end, so `idx` is the length of the list built so far.
* The drivers the firmware calls (UART, NVS, the BLE stack, the FreeRTOS
  scheduler) are not part of the repository.
  Their answers are supplied by an `Env`; what the firmware hands to them is
  recorded in the `World`.
* `ESP_LOGx` calls are not modelled.
-/

namespace Barm

/-! ## Constants of `sts_servo.h`, `ble_arm_control.h`, `position_storage.h` -/

abbrev STS_FRAME_HEADER : Nat := 0xFF
abbrev STS_BROADCAST_ID : Nat := 0xFE
abbrev STS_CMD_PING : Nat := 0x01
abbrev STS_CMD_READ : Nat := 0x02
abbrev STS_CMD_WRITE : Nat := 0x03
abbrev STS_CMD_SYNC_WRITE : Nat := 0x83
abbrev STS_ADDR_GOAL_POSITION_L : Nat := 0x2A
abbrev STS_ADDR_PRESENT_POSITION_L : Nat := 0x38
abbrev ARM_NUM_JOINTS : Nat := 6
abbrev ARM_SERVO_ID_BASE : Nat := 1
abbrev STS_POSITION_MAX : Nat := 4095
abbrev STS_POSITION_CENTER : Nat := 2048
abbrev STS_SPEED_MAX : Nat := 4095

abbrev CMD_SET_JOINT : Nat := 0x01
abbrev CMD_SET_ALL_JOINTS : Nat := 0x02
abbrev CMD_SAVE_POSITION : Nat := 0x03
abbrev CMD_LOAD_POSITION : Nat := 0x04
abbrev CMD_START_SEQUENCE : Nat := 0x05
abbrev CMD_STOP_SEQUENCE : Nat := 0x06
abbrev CMD_GET_STATUS : Nat := 0x07
abbrev CMD_HOME_POSITION : Nat := 0x08

abbrev MAX_STORAGE_SLOTS : Nat := 16

/-- Size of the packed struct `ble_joint_cmd_t`: cmd, joint_id, position, time_ms, speed. -/
abbrev sizeof_ble_joint_cmd_t : Nat := 1 + 1 + 2 + 2 + 2

/-- Size of the packed struct `ble_all_joints_cmd_t`: cmd, positions[6], time_ms, speed. -/
abbrev sizeof_ble_all_joints_cmd_t : Nat := 1 + 2 * ARM_NUM_JOINTS + 2 + 2

/-- Size of the packed struct `ble_storage_cmd_t`: cmd, slot_id, delay_ms. -/
abbrev sizeof_ble_storage_cmd_t : Nat := 1 + 1 + 4

/-- Size of the packed struct `ble_sequence_cmd_t`: cmd, start_slot, end_slot, loop. -/
abbrev sizeof_ble_sequence_cmd_t : Nat := 1 + 1 + 1 + 1

/-! ## Data model -/

/-- The error codes of `esp_err_t` that the firmware produces or tests for;
`ESP_ERR_NVS` stands for any other code returned by the NVS driver. -/
inductive esp_err_t where
  | ESP_OK
  | ESP_FAIL
  | ESP_ERR_INVALID_ARG
  | ESP_ERR_NVS_NOT_FOUND
  | ESP_ERR_NVS
  deriving DecidableEq, Repr

/-- The struct `joint_position_t` of `sts_servo.h` (three `uint16_t` fields). -/
structure joint_position_t where
  position : Nat
  time_ms : Nat
  speed : Nat
  deriving DecidableEq, Repr

/-- The struct `arm_position_t` of `sts_servo.h`: `joints[ARM_NUM_JOINTS]` and a `uint32_t`. -/
structure arm_position_t where
  joints : Fin ARM_NUM_JOINTS → joint_position_t
  delay_after_ms : Nat

/-- The C initialiser `arm_position_t x = {0}`. -/
def arm_position_zero : arm_position_t :=
  { joints := fun _ => { position := 0, time_ms := 0, speed := 0 }, delay_after_ms := 0 }

/-- Every field of the pose fits its C type. -/
def arm_position_t.wf (p : arm_position_t) : Prop :=
  (∀ i, (p.joints i).position < 65536 ∧ (p.joints i).time_ms < 65536 ∧ (p.joints i).speed < 65536)
    ∧ p.delay_after_ms < 4294967296

/-- The enum `player_state_t` of `sequence_player.h`. -/
inductive player_state_t where
  | PLAYER_IDLE
  | PLAYER_RUNNING
  | PLAYER_PAUSED
  deriving DecidableEq, Repr

/-- Answers of the drivers outside the repository. -/
structure Env where
  /-- Return value of the `k`-th call of `uart_write_bytes`, given the requested size. -/
  uart_write_ret : Nat → Nat → Int
  /-- Bytes that arrive on the line before the timeout of the `k`-th `uart_read_bytes`. -/
  uart_rx : Nat → List Nat
  /-- Whether the `k`-th NVS driver call fails with a driver error. -/
  nvs_fault : Nat → Bool

/-- Everything the dispatcher can change. -/
structure World where
  /-- Byte strings handed to `uart_write_bytes`, oldest first. -/
  bus : List (List Nat)
  /-- Number of `uart_read_bytes` calls made so far. -/
  uart_reads : Nat
  /-- Number of NVS driver calls made so far. -/
  nvs_ops : Nat
  /-- The blobs stored under the keys `pos_<slot>`. -/
  store : Nat → Option arm_position_t
  player_state : player_state_t
  current_start_slot : Nat
  current_end_slot : Nat
  current_loop : Bool
  /-- A peer is connected and the TX characteristic is registered, that is
  `conn_id != 0xFFFF`, `arm_gatts_if != ESP_GATT_IF_NONE` and `tx_char_handle != 0`. -/
  peer_connected : Bool
  /-- Payloads handed to `esp_ble_gatts_send_indicate`, oldest first. -/
  notifications : List (List Nat)

/-- State after boot: nothing sent, nothing stored, the static initialisers of
`sequence_player.c`. -/
def World.init : World :=
  { bus := [], uart_reads := 0, nvs_ops := 0, store := fun _ => none,
    player_state := player_state_t.PLAYER_IDLE,
    current_start_slot := 0, current_end_slot := 0, current_loop := false,
    peer_connected := false, notifications := [] }

/-- Drivers that accept every write in full, on a line where no servo answers. -/
def Env.silent : Env :=
  { uart_write_ret := fun _ n => (n : Int), uart_rx := fun _ => [], nvs_fault := fun _ => false }

/-! ## `sts_servo.c` -/

/-- The function `sts_calculate_checksum`: `uint8_t checksum = 0;
for (i = 2; i < length; i++) checksum += data[i]; return ~checksum;`. -/
def sts_calculate_checksum (data : List Nat) (length : Nat) : Nat :=
  let checksum := (List.range' 2 (length - 2)).foldl (fun c i => (c + data.getD i 0) % 256) 0
  checksum ^^^ 0xFF

/-- The driver call `uart_write_bytes(UART_PORT, src, size)`. -/
def uart_write_bytes (env : Env) (w : World) (src : List Nat) (size : Nat) : World × Int :=
  ({ w with bus := w.bus ++ [src.take size] }, env.uart_write_ret w.bus.length size)

/-- The driver call `uart_read_bytes(UART_PORT, buf, length, timeout)`; the
result is the bytes placed in `buf`, its length is the return value. -/
def uart_read_bytes (env : Env) (w : World) (length : Nat) : World × List Nat :=
  ({ w with uart_reads := w.uart_reads + 1 }, (env.uart_rx w.uart_reads).take length)

/-- The 6 bytes `sts_servo_ping` puts in `packet`. -/
def sts_servo_ping_packet (servo_id : Nat) : List Nat :=
  let packet := [STS_FRAME_HEADER, STS_FRAME_HEADER, servo_id, 2, STS_CMD_PING]
  packet ++ [sts_calculate_checksum packet 5]

/-- The function `sts_servo_ping`. -/
def sts_servo_ping (env : Env) (w : World) (servo_id : Nat) : World × esp_err_t :=
  let packet := sts_servo_ping_packet servo_id
  let w := (uart_write_bytes env w packet 6).1
  let (w, response) := uart_read_bytes env w 6
  if response.length = 6 then (w, esp_err_t.ESP_OK) else (w, esp_err_t.ESP_FAIL)

/-- The 13 bytes `sts_servo_set_position` puts in `packet`, clamping included. -/
def sts_servo_set_position_packet (servo_id position time_ms speed : Nat) : List Nat :=
  let position := if position > STS_POSITION_MAX then STS_POSITION_MAX else position
  let speed := if speed > STS_SPEED_MAX then STS_SPEED_MAX else speed
  let packet := [STS_FRAME_HEADER, STS_FRAME_HEADER, servo_id, 9, STS_CMD_WRITE,
    STS_ADDR_GOAL_POSITION_L,
    position &&& 0xFF, (position >>> 8) &&& 0xFF,
    time_ms &&& 0xFF, (time_ms >>> 8) &&& 0xFF,
    speed &&& 0xFF, (speed >>> 8) &&& 0xFF]
  packet ++ [sts_calculate_checksum packet 12]

/-- The function `sts_servo_set_position`. -/
def sts_servo_set_position (env : Env) (w : World) (servo_id position time_ms speed : Nat) :
    World × esp_err_t :=
  let packet := sts_servo_set_position_packet servo_id position time_ms speed
  let (w, written) := uart_write_bytes env w packet 13
  if written = 13 then (w, esp_err_t.ESP_OK) else (w, esp_err_t.ESP_FAIL)

/-- The 8 bytes `sts_servo_read_position` puts in `packet`. -/
def sts_servo_read_position_packet (servo_id : Nat) : List Nat :=
  let packet := [STS_FRAME_HEADER, STS_FRAME_HEADER, servo_id, 4, STS_CMD_READ,
    STS_ADDR_PRESENT_POSITION_L, 2]
  packet ++ [sts_calculate_checksum packet 7]

/-- The function `sts_servo_read_position`; the third component is `*position` on return. -/
def sts_servo_read_position (env : Env) (w : World) (servo_id : Nat) :
    World × esp_err_t × Nat :=
  let position := 0xFFFF
  let packet := sts_servo_read_position_packet servo_id
  let w := (uart_write_bytes env w packet 8).1
  let (w, response) := uart_read_bytes env w 8
  if response.length ≥ 8 then
    (w, esp_err_t.ESP_OK, (response.getD 5 0 ||| (response.getD 6 0 <<< 8)) % 65536)
  else
    (w, esp_err_t.ESP_FAIL, position)

/-- The seven bytes the loop body of `sts_servo_sync_write_position` appends for joint `i`. -/
def sync_write_entry (arm_pos : arm_position_t) (i : Fin ARM_NUM_JOINTS) : List Nat :=
  [(ARM_SERVO_ID_BASE + i.val) % 256,
    (arm_pos.joints i).position &&& 0xFF, ((arm_pos.joints i).position >>> 8) &&& 0xFF,
    (arm_pos.joints i).time_ms &&& 0xFF, ((arm_pos.joints i).time_ms >>> 8) &&& 0xFF,
    (arm_pos.joints i).speed &&& 0xFF, ((arm_pos.joints i).speed >>> 8) &&& 0xFF]

/-- The bytes `sts_servo_sync_write_position` puts in `packet` (`idx` of them). -/
def sts_servo_sync_write_packet (arm_pos : arm_position_t) : List Nat :=
  let packet := [STS_FRAME_HEADER, STS_FRAME_HEADER, STS_BROADCAST_ID,
    (4 + ARM_NUM_JOINTS * 7) % 256, STS_CMD_SYNC_WRITE, STS_ADDR_GOAL_POSITION_L, 6]
  let packet := (List.finRange ARM_NUM_JOINTS).foldl
    (fun packet i => packet ++ sync_write_entry arm_pos i) packet
  let checksum_idx := packet.length
  packet ++ [sts_calculate_checksum packet (checksum_idx % 256)]

/-- The function `sts_servo_sync_write_position`. -/
def sts_servo_sync_write_position (env : Env) (w : World) (arm_pos : arm_position_t) :
    World × esp_err_t :=
  let packet := sts_servo_sync_write_packet arm_pos
  let idx := packet.length
  let (w, written) := uart_write_bytes env w packet idx
  if written = idx then (w, esp_err_t.ESP_OK) else (w, esp_err_t.ESP_FAIL)

/-- The function `sts_servo_set_arm_position` (wrapper). -/
def sts_servo_set_arm_position (env : Env) (w : World) (arm_pos : arm_position_t) :
    World × esp_err_t :=
  sts_servo_sync_write_position env w arm_pos

/-! ## `position_storage.c` -/

/-- One call into the NVS driver: it counts the call and tells whether the driver failed. -/
def nvs_call (env : Env) (w : World) : World × Bool :=
  ({ w with nvs_ops := w.nvs_ops + 1 }, env.nvs_fault w.nvs_ops)

/-- The function `position_storage_save`: range check, `nvs_set_blob`, `nvs_commit`. -/
def position_storage_save (env : Env) (w : World) (slot_id : Nat) (position : arm_position_t) :
    World × esp_err_t :=
  if slot_id ≥ MAX_STORAGE_SLOTS then (w, esp_err_t.ESP_ERR_INVALID_ARG)
  else
    let (w, failed) := nvs_call env w
    if failed then (w, esp_err_t.ESP_ERR_NVS)
    else
      let w := { w with store := Function.update w.store slot_id (some position) }
      let (w, failed) := nvs_call env w
      if failed then (w, esp_err_t.ESP_ERR_NVS) else (w, esp_err_t.ESP_OK)

/-- The function `position_storage_load`: range check, then `nvs_get_blob`; the
third component is `*position` when the call succeeds. -/
def position_storage_load (env : Env) (w : World) (slot_id : Nat) :
    World × esp_err_t × Option arm_position_t :=
  if slot_id ≥ MAX_STORAGE_SLOTS then (w, esp_err_t.ESP_ERR_INVALID_ARG, none)
  else
    let (w, failed) := nvs_call env w
    match w.store slot_id with
    | none => (w, esp_err_t.ESP_ERR_NVS_NOT_FOUND, none)
    | some p => if failed then (w, esp_err_t.ESP_ERR_NVS, none) else (w, esp_err_t.ESP_OK, some p)

/-- The function `position_storage_slot_exists`. -/
def position_storage_slot_exists (env : Env) (w : World) (slot_id : Nat) : World × Bool :=
  if slot_id ≥ MAX_STORAGE_SLOTS then (w, false)
  else
    let (w, failed) := nvs_call env w
    (w, (w.store slot_id).isSome && !failed)

/-! ## `sequence_player.c`: the control calls

`xSemaphoreTake(player_mutex, portMAX_DELAY)` blocks until the mutex is free.
Each function below gives the shared state at the return of the call in terms
of the state at its entry into the critical section, for a caller that is alone.
How the four stores of `sequence_player_start` interleave with the worker, which
reads the range and the loop flag without the mutex, is in the section on the
worker task (`start_store`, `player_step`). -/

/-- The function `sequence_player_start`. -/
def sequence_player_start (w : World) (start_slot end_slot : Nat) (loop : Bool) :
    World × esp_err_t :=
  if start_slot > end_slot ∨ end_slot ≥ MAX_STORAGE_SLOTS then
    (w, esp_err_t.ESP_ERR_INVALID_ARG)
  else
    ({ w with current_start_slot := start_slot, current_end_slot := end_slot,
              current_loop := loop, player_state := player_state_t.PLAYER_RUNNING },
     esp_err_t.ESP_OK)

/-- The function `sequence_player_stop`. -/
def sequence_player_stop (w : World) : World :=
  { w with player_state := player_state_t.PLAYER_IDLE }

/-- The function `sequence_player_pause`. -/
def sequence_player_pause (w : World) : World :=
  if w.player_state = player_state_t.PLAYER_RUNNING then
    { w with player_state := player_state_t.PLAYER_PAUSED }
  else w

/-- The function `sequence_player_resume`. -/
def sequence_player_resume (w : World) : World :=
  if w.player_state = player_state_t.PLAYER_PAUSED then
    { w with player_state := player_state_t.PLAYER_RUNNING }
  else w

/-! ## `ble_arm_control.c`: the dispatcher -/

/-- A little-endian `uint16_t` field of a packed struct laid over the buffer at `off`. -/
def le16 (data : List Nat) (off : Nat) : Nat :=
  data.getD off 0 + 256 * data.getD (off + 1) 0

/-- A little-endian `uint32_t` field of a packed struct laid over the buffer at `off`. -/
def le32 (data : List Nat) (off : Nat) : Nat :=
  data.getD off 0 + 256 * data.getD (off + 1) 0 + 65536 * data.getD (off + 2) 0
    + 16777216 * data.getD (off + 3) 0

/-- The pose built by the loop of the `CMD_SET_ALL_JOINTS` case from
`ble_all_joints_cmd_t` laid over the buffer: `positions` at offset 1, `time_ms`
at offset 13, `speed` at offset 15. -/
def all_joints_pose (data : List Nat) : arm_position_t :=
  (List.finRange ARM_NUM_JOINTS).foldl
    (fun arm_pos i =>
      let joint := joint_position_t.mk (le16 data (1 + 2 * i.val)) (le16 data 13) (le16 data 15)
      { arm_pos with joints := Function.update arm_pos.joints i joint })
    arm_position_zero

/-- The read-back loop of the `CMD_SAVE_POSITION` case. -/
def save_read_loop (env : Env) (w : World) (current_pos : arm_position_t) :
    World × arm_position_t :=
  (List.finRange ARM_NUM_JOINTS).foldl
    (fun (s : World × arm_position_t) i =>
      let (w, ret, position) := sts_servo_read_position env s.1 ((ARM_SERVO_ID_BASE + i.val) % 256)
      if ret = esp_err_t.ESP_OK then
        (w, { s.2 with joints := Function.update s.2.joints i ⟨position, 1000, 1000⟩ })
      else (w, s.2))
    (w, current_pos)

/-- The pose built by the loop of the `CMD_HOME_POSITION` case. -/
def home_pose : arm_position_t :=
  (List.finRange ARM_NUM_JOINTS).foldl
    (fun home_pos i =>
      let joint := joint_position_t.mk STS_POSITION_CENTER 2000 1000
      { home_pos with joints := Function.update home_pos.joints i joint })
    arm_position_zero

/-- The function `ble_process_command(data, len)`. -/
def ble_process_command (env : Env) (w : World) (data : List Nat) (len : Nat) : World :=
  if len < 1 then w
  else
    let cmd := data.getD 0 0
    if cmd = CMD_SET_JOINT then
      if len ≥ sizeof_ble_joint_cmd_t then
        let joint_id := data.getD 1 0
        if joint_id < ARM_NUM_JOINTS then
          let servo_id := (ARM_SERVO_ID_BASE + joint_id) % 256
          (sts_servo_set_position env w servo_id (le16 data 2) (le16 data 4) (le16 data 6)).1
        else w
      else w
    else if cmd = CMD_SET_ALL_JOINTS then
      if len ≥ sizeof_ble_all_joints_cmd_t then
        (sts_servo_set_arm_position env w (all_joints_pose data)).1
      else w
    else if cmd = CMD_SAVE_POSITION then
      if len ≥ sizeof_ble_storage_cmd_t then
        let current_pos := { arm_position_zero with delay_after_ms := le32 data 2 }
        let (w, current_pos) := save_read_loop env w current_pos
        (position_storage_save env w (data.getD 1 0) current_pos).1
      else w
    else if cmd = CMD_LOAD_POSITION then
      if len ≥ sizeof_ble_storage_cmd_t then
        match position_storage_load env w (data.getD 1 0) with
        | (w, esp_err_t.ESP_OK, some loaded_pos) => (sts_servo_set_arm_position env w loaded_pos).1
        | (w, _, _) => w
      else w
    else if cmd = CMD_START_SEQUENCE then
      if len ≥ sizeof_ble_sequence_cmd_t then
        (sequence_player_start w (data.getD 1 0) (data.getD 2 0) (data.getD 3 0 != 0)).1
      else w
    else if cmd = CMD_STOP_SEQUENCE then
      sequence_player_stop w
    else if cmd = CMD_HOME_POSITION then
      (sts_servo_set_arm_position env w home_pose).1
    else w

/-- All elements of a buffer are bytes. -/
def is_bytes (data : List Nat) : Prop :=
  ∀ b ∈ data, b < 256

instance (data : List Nat) : Decidable (is_bytes data) := by
  unfold is_bytes; infer_instance

/-- The function `sequence_player_is_running`. -/
def sequence_player_is_running (w : World) : Bool :=
  decide (w.player_state = player_state_t.PLAYER_RUNNING)

/-- The function `sequence_player_get_state`. -/
def sequence_player_get_state (w : World) : player_state_t :=
  w.player_state

/-- The read loop of `ble_send_status`: `positions` are the `current_positions`
filled so far, in joint order. -/
def status_read_loop (env : Env) (w : World) : World × List Nat :=
  (List.finRange ARM_NUM_JOINTS).foldl
    (fun (s : World × List Nat) i =>
      let (w, ret, position) := sts_servo_read_position env s.1 ((ARM_SERVO_ID_BASE + i.val) % 256)
      if ret = esp_err_t.ESP_OK then (w, s.2 ++ [position]) else (w, s.2 ++ [2048]))
    (w, [])

/-- The bytes of the packed struct `ble_status_t`: `is_moving`, `current_slot`,
`current_positions[6]` little-endian. -/
def ble_status_bytes (is_moving current_slot : Nat) (current_positions : List Nat) : List Nat :=
  [is_moving, current_slot] ++ current_positions.flatMap (fun p => [p % 256, p / 256 % 256])

/-- The function `ble_send_status`. -/
def ble_send_status (env : Env) (w : World) : World :=
  if !w.peer_connected then w
  else
    let is_moving := if sequence_player_is_running w then 1 else 0
    let current_slot := 0
    let (w, current_positions) := status_read_loop env w
    { w with notifications :=
        w.notifications ++ [ble_status_bytes is_moving current_slot current_positions] }

/-! ## `sequence_player.c`: the worker task

`sequence_player_task` runs concurrently with the control calls.  It is embedded
as a machine with a program counter: one step of the worker runs the code
between two program points.  A `vTaskDelay` is one step, taken when the delay
is over; while the counter rests on it the wait is pending.

The worker takes `player_mutex` only around its three tests of `player_state`
(top of the loop, head of the loop body, after `sequence_end`); it reads
`current_start_slot`, `current_end_slot`, `current_loop` and, in the `while`
condition, `player_state` without the mutex.  `sequence_player_stop`, `_pause`
and `_resume` make one store under the mutex and are one step each.
`sequence_player_start` makes four stores under the mutex: it is embedded as the
entry into the critical section followed by four store steps, and the worker may
take steps between them wherever it does not need the mutex.  Whoever finds the
mutex taken waits for it: a control call scheduled while a call of
`sequence_player_start` is in its critical section, and a worker step that needs
the mutex then, leave the state as it is. -/

/-- Program points of `sequence_player_task`. -/
inductive task_pc where
  /-- The test of `player_state` at the top of `while (true)`. -/
  | idle_check
  /-- The call `vTaskDelay(pdMS_TO_TICKS(100))` before `continue`. -/
  | idle_delay
  /-- The initialiser `slot = current_start_slot` of the `for` loop. -/
  | for_init
  /-- The test `slot <= current_end_slot`. -/
  | for_cond
  /-- The test of `player_state` at the head of the loop body ("Check if stopped"). -/
  | stop_check
  /-- The call `position_storage_slot_exists(slot)`. -/
  | slot_exists
  /-- The call `position_storage_load(slot, &position)`. -/
  | load
  /-- The call `sts_servo_set_arm_position(&position)` and the computation of `max_time`. -/
  | send
  /-- The call `vTaskDelay(pdMS_TO_TICKS(max_time))`. -/
  | move_wait
  /-- The test `position.delay_after_ms > 0`. -/
  | settle_check
  /-- The call `vTaskDelay(pdMS_TO_TICKS(position.delay_after_ms))`. -/
  | settle_wait
  /-- The increment `slot++`. -/
  | for_incr
  /-- The read of `current_loop` in the `while` condition. -/
  | loop_cond_loop
  /-- The read of `player_state` in the `while` condition. -/
  | loop_cond_state
  /-- The critical section after the label `sequence_end`. -/
  | sequence_end
  /-- The call `vTaskDelay(pdMS_TO_TICKS(100))` at the end of `while (true)`. -/
  | end_delay
  deriving DecidableEq, Repr

/-- What an observer of the worker sees, in order. -/
inductive player_event where
  /-- The loop body went past the stop check for this slot and looks the slot up. -/
  | visit (slot : Nat)
  /-- The worker handed this packet to the bus through `sts_servo_set_arm_position`. -/
  | sync_write (packet : List Nat)
  /-- The worker slept for this many milliseconds in `vTaskDelay`. -/
  | delay (ms : Nat)
  deriving DecidableEq, Repr

/-- The stores of `sequence_player_start` inside its critical section, in the
order of the source. -/
inductive start_pc where
  /-- The store `current_start_slot = start_slot`. -/
  | store_start_slot
  /-- The store `current_end_slot = end_slot`. -/
  | store_end_slot
  /-- The store `current_loop = loop`. -/
  | store_loop
  /-- The store `player_state = PLAYER_RUNNING`, followed by `xSemaphoreGive`. -/
  | store_state
  deriving DecidableEq, Repr

/-- A call of `sequence_player_start` that holds `player_mutex`: its arguments
and the store it makes next. -/
structure start_call where
  start_slot : Nat
  end_slot : Nat
  loop : Bool
  next : start_pc
  deriving DecidableEq, Repr

/-- The shared state together with the worker: its program counter, its locals
`slot`, `position`, `max_time`, two observation fields (the events so far and
the number of loop-body iterations since the last `for` initialiser), and the
call of `sequence_player_start` that is inside its critical section, if any. -/
structure Player where
  w : World
  pc : task_pc
  slot : Nat
  position : arm_position_t
  max_time : Nat
  events : List player_event
  pass_iters : Nat
  caller : Option start_call

/-- The player after `sequence_player_init`: the task is at the top of its loop. -/
def Player.init : Player :=
  { w := World.init, pc := task_pc.idle_check, slot := 0, position := arm_position_zero,
    max_time := 0, events := [], pass_iters := 0, caller := none }

/-- The loop `max_time = 0; for (i ...) if (joints[i].time_ms > max_time) max_time = ...`. -/
def max_time_loop (position : arm_position_t) : Nat :=
  (List.finRange ARM_NUM_JOINTS).foldl
    (fun max_time i =>
      if (position.joints i).time_ms > max_time then (position.joints i).time_ms else max_time)
    0

/-- One step of `sequence_player_task` from the current program point. -/
def task_step (env : Env) (c : Player) : Player :=
  match c.pc with
  | task_pc.idle_check =>
    if c.w.player_state ≠ player_state_t.PLAYER_RUNNING then { c with pc := task_pc.idle_delay }
    else { c with pc := task_pc.for_init }
  | task_pc.idle_delay =>
    { c with events := c.events ++ [player_event.delay 100], pc := task_pc.idle_check }
  | task_pc.for_init =>
    { c with slot := c.w.current_start_slot, pass_iters := 0, pc := task_pc.for_cond }
  | task_pc.for_cond =>
    if c.slot ≤ c.w.current_end_slot then
      { c with pass_iters := c.pass_iters + 1, pc := task_pc.stop_check }
    else { c with pc := task_pc.loop_cond_loop }
  | task_pc.stop_check =>
    if c.w.player_state ≠ player_state_t.PLAYER_RUNNING then { c with pc := task_pc.sequence_end }
    else { c with pc := task_pc.slot_exists }
  | task_pc.slot_exists =>
    let (w, found) := position_storage_slot_exists env c.w c.slot
    let events := c.events ++ [player_event.visit c.slot]
    if !found then { c with w := w, events := events, pc := task_pc.for_incr }
    else { c with w := w, events := events, pc := task_pc.load }
  | task_pc.load =>
    match position_storage_load env c.w c.slot with
    | (w, esp_err_t.ESP_OK, some position) =>
      { c with w := w, position := position, pc := task_pc.send }
    | (w, _, _) => { c with w := w, pc := task_pc.for_incr }
  | task_pc.send =>
    let w := (sts_servo_set_arm_position env c.w c.position).1
    let events := c.events ++ [player_event.sync_write (sts_servo_sync_write_packet c.position)]
    { c with w := w, events := events, max_time := max_time_loop c.position,
             pc := task_pc.move_wait }
  | task_pc.move_wait =>
    { c with events := c.events ++ [player_event.delay c.max_time], pc := task_pc.settle_check }
  | task_pc.settle_check =>
    if c.position.delay_after_ms > 0 then { c with pc := task_pc.settle_wait }
    else { c with pc := task_pc.for_incr }
  | task_pc.settle_wait =>
    { c with events := c.events ++ [player_event.delay c.position.delay_after_ms],
             pc := task_pc.for_incr }
  | task_pc.for_incr =>
    { c with slot := (c.slot + 1) % 256, pc := task_pc.for_cond }
  | task_pc.loop_cond_loop =>
    if c.w.current_loop then { c with pc := task_pc.loop_cond_state }
    else { c with pc := task_pc.sequence_end }
  | task_pc.loop_cond_state =>
    if c.w.player_state = player_state_t.PLAYER_RUNNING then { c with pc := task_pc.for_init }
    else { c with pc := task_pc.sequence_end }
  | task_pc.sequence_end =>
    if c.w.player_state = player_state_t.PLAYER_RUNNING ∧ ¬ c.w.current_loop then
      { c with w := { c.w with player_state := player_state_t.PLAYER_IDLE },
               pc := task_pc.end_delay }
    else { c with pc := task_pc.end_delay }
  | task_pc.end_delay =>
    { c with events := c.events ++ [player_event.delay 100], pc := task_pc.idle_check }

/-- Program points at which the worker takes `player_mutex`. -/
def takes_mutex : task_pc → Bool
  | task_pc.idle_check => true
  | task_pc.stop_check => true
  | task_pc.sequence_end => true
  | _ => false

/-- The next store of the call of `sequence_player_start` that is inside its
critical section; the last store is followed by the release of the mutex. -/
def start_store (c : Player) : Player :=
  match c.caller with
  | none => c
  | some call =>
    match call.next with
    | start_pc.store_start_slot =>
      { c with w := { c.w with current_start_slot := call.start_slot },
               caller := some { call with next := start_pc.store_end_slot } }
    | start_pc.store_end_slot =>
      { c with w := { c.w with current_end_slot := call.end_slot },
               caller := some { call with next := start_pc.store_loop } }
    | start_pc.store_loop =>
      { c with w := { c.w with current_loop := call.loop },
               caller := some { call with next := start_pc.store_state } }
    | start_pc.store_state =>
      { c with w := { c.w with player_state := player_state_t.PLAYER_RUNNING },
               caller := none }

/-- The steps of the player: the entry of a control call from the command
context, one store of a call of `sequence_player_start`, or one step of the
worker. -/
inductive player_action where
  | start (start_slot end_slot : Nat) (loop : Bool)
  | store
  | stop
  | pause
  | resume
  | worker
  deriving DecidableEq, Repr

/-- The step relation of the player, as a function of the scheduled action.  An
action that cannot be taken leaves the state as it is: a control call while a
call of `sequence_player_start` is in its critical section, a worker step that
needs the mutex while that call holds it.  `start` checks the range as
`sequence_player_start` does and, if it is valid, takes the mutex. -/
def player_step (env : Env) (c : Player) (a : player_action) : Player :=
  match a with
  | player_action.start start_slot end_slot loop =>
    if c.caller.isSome then c
    else if start_slot > end_slot ∨ end_slot ≥ MAX_STORAGE_SLOTS then c
    else { c with caller := some ⟨start_slot, end_slot, loop, start_pc.store_start_slot⟩ }
  | player_action.store => start_store c
  | player_action.stop =>
    if c.caller.isSome then c else { c with w := sequence_player_stop c.w }
  | player_action.pause =>
    if c.caller.isSome then c else { c with w := sequence_player_pause c.w }
  | player_action.resume =>
    if c.caller.isSome then c else { c with w := sequence_player_resume c.w }
  | player_action.worker =>
    if takes_mutex c.pc && c.caller.isSome then c else task_step env c

/-- An execution: the actions of a schedule taken one after the other. -/
def player_run (env : Env) (c : Player) (schedule : List player_action) : Player :=
  schedule.foldl (player_step env) c

/-- The worker alone, for `n` steps. -/
def task_run (env : Env) (c : Player) (n : Nat) : Player :=
  player_run env c (List.replicate n player_action.worker)

/-- The schedule of one call start(s, e, loop): the entry into the critical
section, then `between`, then the last store, after which the call returns. -/
def call_schedule (start_slot end_slot : Nat) (loop : Bool) (between : List player_action) :
    List player_action :=
  player_action.start start_slot end_slot loop :: (between ++ [player_action.store])

/-- The actions between the entry of a call of `sequence_player_start` and its
last store: its first three stores, interleaved in any way with worker steps. -/
def during_call (between : List player_action) : Prop :=
  between.count player_action.store = 3
  ∧ ∀ a ∈ between, a = player_action.worker ∨ a = player_action.store

instance (between : List player_action) : Decidable (during_call between) := by
  unfold during_call; infer_instance

/-- The three stores of a call with no worker step between them. -/
def no_worker_step : List player_action :=
  [player_action.store, player_action.store, player_action.store]

/-- The slots a trace of events visits, in order. -/
def visited (events : List player_event) : List Nat :=
  events.filterMap (fun e => match e with
    | player_event.visit slot => some slot
    | _ => none)

/-- The sync-write packets of a trace of events, in order. -/
def sync_writes (events : List player_event) : List (List Nat) :=
  events.filterMap (fun e => match e with
    | player_event.sync_write packet => some packet
    | _ => none)

/-! ## What the claims expect of a pass -/

/-- The largest `time_ms` among the six joints of a pose. -/
def max_duration (p : arm_position_t) : Nat :=
  ((List.finRange ARM_NUM_JOINTS).map (fun i => (p.joints i).time_ms)).foldr max 0

/-- The events expected for one slot: the visit alone when the slot is absent;
for a stored pose the visit, one sync-write of the pose, a wait of the largest
joint duration, and a wait of the settle delay when that is not zero. -/
def slot_events (store : Nat → Option arm_position_t) (slot : Nat) : List player_event :=
  match store slot with
  | none => [player_event.visit slot]
  | some p =>
    [player_event.visit slot, player_event.sync_write (sts_servo_sync_write_packet p),
      player_event.delay (max_duration p)]
    ++ (if p.delay_after_ms = 0 then [] else [player_event.delay p.delay_after_ms])

/-- The events expected for `n` consecutive slots from `slot` on, in ascending order. -/
def pass_events (store : Nat → Option arm_position_t) (slot : Nat) : Nat → List player_event
  | 0 => []
  | n + 1 => slot_events store slot ++ pass_events store (slot + 1) n

/-- A store with poses in slots 0, 2 and 3 and nothing elsewhere. -/
def example_store : Nat → Option arm_position_t :=
  fun slot =>
    if slot = 0 ∨ slot = 2 ∨ slot = 3 then
      some { joints := fun i => ⟨1000 * (slot + 1) + i.val, 100 * (slot + 1) + i.val, 500⟩,
             delay_after_ms := if slot = 2 then 0 else 250 }
    else none

/-- The player after boot with `example_store` as the content of the store. -/
def example_player : Player :=
  { Player.init with w := { World.init with store := example_store } }

/-- The waits of a trace of events in milliseconds, in order. -/
def waits (events : List player_event) : List Nat :=
  events.filterMap (fun e => match e with
    | player_event.delay ms => some ms
    | _ => none)

/-- Program points from which the worker reaches the next sync-write only
through a test of `player_state`: all but the three between the stop check and
the write. -/
def behind_check : task_pc → Bool
  | task_pc.slot_exists => false
  | task_pc.load => false
  | task_pc.send => false
  | _ => true

/-- The wait the worker is in at `move_wait` or `settle_wait`, in milliseconds. -/
def pending_wait (c : Player) : Nat :=
  if c.pc = task_pc.move_wait then c.max_time else c.position.delay_after_ms

/-- The example player after start(0, 3, false) and seven worker steps: the
worker is in the motion wait of slot 0. -/
def example_in_slot_0 : Player :=
  player_run Env.silent example_player
    (call_schedule 0 3 false no_worker_step ++ List.replicate 7 player_action.worker)

/-- The example player after start(0, 1, true) and seven worker steps: looping
playback, the worker is in the motion wait of slot 0. -/
def example_looping_in_slot_0 : Player :=
  player_run Env.silent example_player
    (call_schedule 0 1 true no_worker_step ++ List.replicate 7 player_action.worker)

/-- Program points of the `for` loop of a pass: its test, its body and its increment. -/
def in_pass : task_pc → Bool
  | task_pc.for_cond => true
  | task_pc.stop_check => true
  | task_pc.slot_exists => true
  | task_pc.load => true
  | task_pc.send => true
  | task_pc.move_wait => true
  | task_pc.settle_check => true
  | task_pc.settle_wait => true
  | task_pc.for_incr => true
  | _ => false

/-- Program points of the body of the `for` loop, the increment included. -/
def in_body (pc : task_pc) : Bool :=
  in_pass pc && decide (pc ≠ task_pc.for_cond)

/-- How far a program point of the `for` loop is from the next loop test. -/
def pc_rank : task_pc → Nat
  | task_pc.for_cond => 9
  | task_pc.stop_check => 8
  | task_pc.slot_exists => 7
  | task_pc.load => 6
  | task_pc.send => 5
  | task_pc.move_wait => 4
  | task_pc.settle_check => 3
  | task_pc.settle_wait => 2
  | task_pc.for_incr => 1
  | _ => 0

/-- A bound on the worker steps left in the pass in progress. -/
def pass_measure (c : Player) : Nat :=
  10 * (17 - c.slot) + pc_rank c.pc

/-- What holds of the stored range with respect to the call of
`sequence_player_start` in its critical section: outside a call the range is
ordered; inside a call the arguments are a valid range and the stores already
made are in place. -/
def call_inv (w : World) : Option start_call → Prop
  | none => w.current_start_slot ≤ w.current_end_slot
  | some call =>
    call.start_slot ≤ call.end_slot ∧ call.end_slot < 16
    ∧ (call.next = start_pc.store_start_slot → w.current_start_slot ≤ w.current_end_slot)
    ∧ (call.next ≠ start_pc.store_start_slot → w.current_start_slot = call.start_slot)
    ∧ (call.next = start_pc.store_loop ∨ call.next = start_pc.store_state →
        w.current_end_slot = call.end_slot)

/-- The invariant of the player: both stored slots are below 16, the range is
ordered outside the critical section of `sequence_player_start`, the slot
counter and the iteration count of the pass stay within 16. -/
def player_inv (c : Player) : Prop :=
  c.w.current_start_slot < 16 ∧ c.w.current_end_slot < 16
  ∧ call_inv c.w c.caller
  ∧ c.slot ≤ 16 ∧ c.pass_iters ≤ 16
  ∧ (c.pc = task_pc.for_cond → c.pass_iters ≤ c.slot)
  ∧ (in_body c.pc = true → c.slot ≤ 15 ∧ c.pass_iters ≤ c.slot + 1)

/-- An initial state of the player: Idle, range 0..0, loop flag clear, no call
in progress, the worker at the top of its loop; the content of the store, the
bus and the driver counters are arbitrary. -/
def Player.initial (c : Player) : Prop :=
  c.w.player_state = player_state_t.PLAYER_IDLE
  ∧ c.w.current_start_slot = 0 ∧ c.w.current_end_slot = 0 ∧ c.w.current_loop = false
  ∧ c.pc = task_pc.idle_check ∧ c.caller = none ∧ c.pass_iters = 0 ∧ c.slot = 0

/-- Program points at which a slot is being played: from the look-up of the
slot, past the stop check, to the end of its waits. -/
def playing : task_pc → Bool
  | task_pc.slot_exists => true
  | task_pc.load => true
  | task_pc.send => true
  | task_pc.move_wait => true
  | task_pc.settle_check => true
  | task_pc.settle_wait => true
  | _ => false

/-- Program points at which the worker is outside a pass and polls `player_state`. -/
def polling : task_pc → Bool
  | task_pc.end_delay => true
  | task_pc.idle_check => true
  | task_pc.idle_delay => true
  | _ => false

/-- A bound on the worker steps from a program point to the delay after
`sequence_end` when the state is not Running at the tests on the way; the
program points outside a pass that do not lead there get no bound below 100. -/
def abandon_rank : task_pc → Nat
  | task_pc.end_delay => 0
  | task_pc.sequence_end => 1
  | task_pc.loop_cond_state => 2
  | task_pc.stop_check => 2
  | task_pc.loop_cond_loop => 3
  | task_pc.for_cond => 4
  | task_pc.for_incr => 5
  | task_pc.settle_wait => 6
  | task_pc.settle_check => 7
  | task_pc.move_wait => 8
  | task_pc.send => 9
  | task_pc.load => 10
  | task_pc.slot_exists => 11
  | _ => 100

instance (w : World) (caller : Option start_call) : Decidable (call_inv w caller) := by
  cases caller <;> unfold call_inv <;> infer_instance

instance (c : Player) : Decidable (player_inv c) := by
  unfold player_inv; infer_instance

instance (c : Player) : Decidable (Player.initial c) := by
  unfold Player.initial; infer_instance

/-- The stores a call of `sequence_player_start` makes before its last one. -/
def stores_left : start_pc → Nat
  | start_pc.store_start_slot => 3
  | start_pc.store_end_slot => 2
  | start_pc.store_loop => 1
  | start_pc.store_state => 0

/-- The settle wait expected for a pose: none when its delay is zero. -/
def settle_events (p : arm_position_t) : List player_event :=
  if p.delay_after_ms = 0 then [] else [player_event.delay p.delay_after_ms]

/-- The events still expected for the slot the worker is in, by program point:
all of `slot_events` before the look-up, and after it what is left of the
sync-write and the waits of the pose in hand. -/
def remaining_slot_events (c : Player) : List player_event :=
  match c.pc with
  | task_pc.stop_check => slot_events c.w.store c.slot
  | task_pc.slot_exists => slot_events c.w.store c.slot
  | task_pc.load =>
    match c.w.store c.slot with
    | none => []
    | some p =>
      [player_event.sync_write (sts_servo_sync_write_packet p),
        player_event.delay (max_duration p)] ++ settle_events p
  | task_pc.send =>
    [player_event.sync_write (sts_servo_sync_write_packet c.position),
      player_event.delay (max_duration c.position)] ++ settle_events c.position
  | task_pc.move_wait => player_event.delay c.max_time :: settle_events c.position
  | task_pc.settle_check => settle_events c.position
  | task_pc.settle_wait => [player_event.delay c.position.delay_after_ms]
  | _ => []

/-- The slot of the next loop test of the pass: the slot counter at the test
itself, the next slot inside the body. -/
def next_test_slot (c : Player) : Nat :=
  if c.pc = task_pc.for_cond then c.slot else c.slot + 1

/-- The events expected from a program point of the `for` loop to the end of
the pass when the loop runs on to the stored end slot: the rest of the slot in
hand, then the slots from the next loop test up to `current_end_slot`. -/
def remaining_events (c : Player) : List player_event :=
  remaining_slot_events c
    ++ pass_events c.w.store (next_test_slot c) (c.w.current_end_slot + 1 - next_test_slot c)

/-- Program points at which the worker reads `player_state`. -/
def reads_state : task_pc → Bool
  | task_pc.idle_check => true
  | task_pc.stop_check => true
  | task_pc.loop_cond_state => true
  | task_pc.sequence_end => true
  | _ => false

/-- None of the first `j` steps of the worker from `c` reads `player_state`. -/
def unseen (env : Env) : Player → Nat → Bool
  | _, 0 => true
  | c, j + 1 => !reads_state c.pc && unseen env (task_step env c) j

/-- A call of `sequence_player_start` has stored its start slot and not yet its
end slot. -/
def between_range_stores (c : Player) : Bool :=
  match c.caller with
  | some call => decide (call.next = start_pc.store_end_slot)
  | none => false

/-- An interleaving of a call of `sequence_player_start` with the worker: the
worker takes a step after the first and after the second store. -/
def example_between : List player_action :=
  [player_action.store, player_action.worker, player_action.store, player_action.worker,
    player_action.store]

/-- The example player in the motion wait of slot 0 of start(0, 3, false), after
a call start(5, 7, loop2) during which the worker took two steps: the worker is
in the settle wait of slot 0. -/
def example_restarted (loop2 : Bool) : Player :=
  player_run Env.silent example_in_slot_0 (call_schedule 5 7 loop2 example_between)

/-- The schedule of `example_in_slot_0`: start(0, 3, false) and seven worker steps. -/
def example_schedule : List player_action :=
  call_schedule 0 3 false no_worker_step ++ List.replicate 7 player_action.worker

/-! ## Arithmetic of bytes -/

set_option maxRecDepth 100000

theorem xor_ff : ∀ c : Nat, c < 256 → c ^^^ 255 = 255 - c := by decide

theorem and_ff (x : Nat) : x &&& 255 = x % 256 := by
  have := Nat.and_pow_two_sub_one_eq_mod x 8
  simpa using this

theorem shr8 (x : Nat) : x >>> 8 = x / 256 := by
  simp [Nat.shiftRight_eq_div_pow]

theorem foldl_add_mod (f : Nat → Nat) (l : List Nat) (a : Nat) :
    l.foldl (fun c i => (c + f i) % 256) a % 256 = (a + (l.map f).sum) % 256 := by
  induction l generalizing a with
  | nil => simp
  | cons x xs ih =>
    simp only [List.foldl_cons, List.map_cons, List.sum_cons]
    rw [ih]
    omega

theorem foldl_add_mod_lt (f : Nat → Nat) (l : List Nat) (a : Nat) (ha : a < 256) :
    l.foldl (fun c i => (c + f i) % 256) a < 256 := by
  induction l generalizing a with
  | nil => simpa using ha
  | cons x xs ih =>
    simp only [List.foldl_cons]
    exact ih _ (Nat.mod_lt _ (by decide))

theorem map_getD_range (data : List Nat) (n : Nat) (hn : n ≤ data.length) :
    (List.range' 2 (n - 2)).map (fun i => data.getD i 0) = (data.take n).drop 2 := by
  apply List.ext_getElem
  · simp; omega
  · intro i h1 h2
    simp at h1 h2
    simp [List.getElem_range', List.getD_eq_getElem?_getD]
    rw [List.getElem?_eq_getElem (by omega)]
    simp

/-! ## The checksum -/

/-- The loop of `sts_calculate_checksum` computes the sum of `data[2..length-1]` modulo 256. -/
theorem checksum_eq (data : List Nat) (n : Nat) (hn : n ≤ data.length) :
    sts_calculate_checksum data n = 255 - ((data.take n).drop 2).sum % 256 := by
  unfold sts_calculate_checksum
  have hlt := foldl_add_mod_lt (fun i => data.getD i 0) (List.range' 2 (n - 2)) 0 (by decide)
  have hmod := foldl_add_mod (fun i => data.getD i 0) (List.range' 2 (n - 2)) 0
  rw [map_getD_range data n hn, Nat.mod_eq_of_lt hlt, Nat.zero_add] at hmod
  simp only []
  rw [xor_ff _ hlt, hmod]

/-- C1: for every byte array and every length `n` in 0..255 that does not exceed
the array size, `sts_calculate_checksum data n` is the bitwise complement of the
sum of `data[2], ..., data[n-1]` modulo 256; arrays that differ only in bytes 0
and 1 have the same checksum; for `n ≤ 2` the result is 0xFF. -/
theorem C1_checksum_is_complement_of_sum (data : List Nat) (n : Nat)
    (hn : n ≤ data.length) (hu8 : n ≤ 255) :
    sts_calculate_checksum data n = (((data.take n).drop 2).sum % 256) ^^^ 0xFF
    ∧ sts_calculate_checksum data n = 255 - ((data.take n).drop 2).sum % 256
    ∧ (∀ other : List Nat, other.length = data.length → other.drop 2 = data.drop 2 →
        sts_calculate_checksum other n = sts_calculate_checksum data n)
    ∧ (n ≤ 2 → sts_calculate_checksum data n = 0xFF) := by
  have _hn : n < 256 := Nat.lt_succ_of_le hu8
  refine ⟨?_, checksum_eq data n hn, ?_, ?_⟩
  · rw [checksum_eq data n hn, xor_ff _ (Nat.mod_lt _ (by decide))]
  · intro other hlen hdrop
    rw [checksum_eq data n hn, checksum_eq other n (by omega)]
    have h1 : (other.take n).drop 2 = (other.drop 2).take (n - 2) := by
      rw [List.drop_take]
    have h2 : (data.take n).drop 2 = (data.drop 2).take (n - 2) := by
      rw [List.drop_take]
    rw [h1, h2, hdrop]
  · intro h2
    rw [checksum_eq data n hn]
    have : (data.take n).drop 2 = [] := by
      apply List.drop_eq_nil_of_le
      simp; omega
    simp [this]

/-- C1 at the five bytes of a ping packet for servo 1: the checksum is 0xFB. -/
theorem C1_checksum_is_complement_of_sum_witness :
    (5 ≤ ([0xFF, 0xFF, 1, 2, 1] : List Nat).length ∧ 5 ≤ 255)
    ∧ (sts_calculate_checksum ([0xFF, 0xFF, 1, 2, 1] : List Nat) 5 = (((([0xFF, 0xFF, 1, 2, 1] : List Nat).take 5).drop 2).sum % 256) ^^^ 0xFF
      ∧ sts_calculate_checksum ([0xFF, 0xFF, 1, 2, 1] : List Nat) 5 = 255 - ((([0xFF, 0xFF, 1, 2, 1] : List Nat).take 5).drop 2).sum % 256
      ∧ (∀ other : List Nat, other.length = ([0xFF, 0xFF, 1, 2, 1] : List Nat).length → other.drop 2 = ([0xFF, 0xFF, 1, 2, 1] : List Nat).drop 2 →
          sts_calculate_checksum other 5 = sts_calculate_checksum ([0xFF, 0xFF, 1, 2, 1] : List Nat) 5)
      ∧ (5 ≤ 2 → sts_calculate_checksum ([0xFF, 0xFF, 1, 2, 1] : List Nat) 5 = 0xFF)) :=
  ⟨by decide, C1_checksum_is_complement_of_sum ([0xFF, 0xFF, 1, 2, 1] : List Nat) 5 (by decide) (by decide)⟩

/-! ## Shape of the packets -/

/-- A packet that ends in the checksum of what precedes it verifies. -/
theorem checksum_roundtrip (body : List Nat) (n : Nat) (hn : n = body.length) (h2 : 2 ≤ n) :
    (body ++ [sts_calculate_checksum body n]).getLast?
        = some (sts_calculate_checksum (body ++ [sts_calculate_checksum body n])
            ((body ++ [sts_calculate_checksum body n]).length - 1))
    ∧ ((body ++ [sts_calculate_checksum body n]).drop 2).sum % 256 = 0xFF := by
  subst hn
  have hb : sts_calculate_checksum body body.length = 255 - (body.drop 2).sum % 256 := by
    rw [checksum_eq body body.length (Nat.le_refl _), List.take_length]
  constructor
  · rw [List.getLast?_concat, hb]
    congr 1
    rw [checksum_eq _ _ (by simp)]
    simp
  · rw [List.drop_append_of_le_length h2, List.sum_append, hb]
    simp only [List.sum_cons, List.sum_nil]
    omega

theorem sync_write_packet_body (arm_pos : arm_position_t) :
    sts_servo_sync_write_packet arm_pos =
      ([0xFF, 0xFF, 0xFE, 46, 0x83, 0x2A, 6] ++ sync_write_entry arm_pos 0
        ++ sync_write_entry arm_pos 1 ++ sync_write_entry arm_pos 2 ++ sync_write_entry arm_pos 3
        ++ sync_write_entry arm_pos 4 ++ sync_write_entry arm_pos 5)
      ++ [sts_calculate_checksum ([0xFF, 0xFF, 0xFE, 46, 0x83, 0x2A, 6] ++ sync_write_entry arm_pos 0
        ++ sync_write_entry arm_pos 1 ++ sync_write_entry arm_pos 2 ++ sync_write_entry arm_pos 3
        ++ sync_write_entry arm_pos 4 ++ sync_write_entry arm_pos 5) 49] := by
  rfl

theorem sync_write_packet_split (arm_pos : arm_position_t) :
    ∃ body : List Nat, body.length = 49
      ∧ sts_servo_sync_write_packet arm_pos = body ++ [sts_calculate_checksum body 49] :=
  ⟨[0xFF, 0xFF, 0xFE, 46, 0x83, 0x2A, 6] ++ sync_write_entry arm_pos 0
      ++ sync_write_entry arm_pos 1 ++ sync_write_entry arm_pos 2 ++ sync_write_entry arm_pos 3
      ++ sync_write_entry arm_pos 4 ++ sync_write_entry arm_pos 5,
    by simp [sync_write_entry], sync_write_packet_body arm_pos⟩

/-- C2: each packet the codec builds (ping, position-read request, single-joint
write, sync-write, in this order) ends in a byte equal to the checksum
recomputed over the bytes before it, and the sum of its bytes from offset 2 to
the end is 0xFF modulo 256. -/
theorem C2_built_packets_verify (servo_id position time_ms speed : Nat) (arm_pos : arm_position_t) :
    ((sts_servo_ping_packet servo_id).getLast?
          = some (sts_calculate_checksum (sts_servo_ping_packet servo_id)
              ((sts_servo_ping_packet servo_id).length - 1))
        ∧ ((sts_servo_ping_packet servo_id).drop 2).sum % 256 = 0xFF)
    ∧ ((sts_servo_read_position_packet servo_id).getLast?
          = some (sts_calculate_checksum (sts_servo_read_position_packet servo_id)
              ((sts_servo_read_position_packet servo_id).length - 1))
        ∧ ((sts_servo_read_position_packet servo_id).drop 2).sum % 256 = 0xFF)
    ∧ ((sts_servo_set_position_packet servo_id position time_ms speed).getLast?
          = some (sts_calculate_checksum (sts_servo_set_position_packet servo_id position time_ms speed)
              ((sts_servo_set_position_packet servo_id position time_ms speed).length - 1))
        ∧ ((sts_servo_set_position_packet servo_id position time_ms speed).drop 2).sum % 256 = 0xFF)
    ∧ ((sts_servo_sync_write_packet arm_pos).getLast?
          = some (sts_calculate_checksum (sts_servo_sync_write_packet arm_pos)
              ((sts_servo_sync_write_packet arm_pos).length - 1))
        ∧ ((sts_servo_sync_write_packet arm_pos).drop 2).sum % 256 = 0xFF) := by
  refine ⟨checksum_roundtrip _ 5 rfl (by decide), checksum_roundtrip _ 7 rfl (by decide),
    checksum_roundtrip _ 12 rfl (by decide), ?_⟩
  obtain ⟨body, hlen, hP⟩ := sync_write_packet_split arm_pos
  rw [hP]
  exact checksum_roundtrip body 49 hlen.symm (by decide)

theorem checksum_append (body rest : List Nat) (n : Nat) (hn : n = body.length) :
    sts_calculate_checksum (body ++ rest) n = sts_calculate_checksum body n := by
  subst hn
  rw [checksum_eq _ _ (by simp), checksum_eq _ _ (Nat.le_refl _)]
  simp

theorem getD_concat_length (body : List Nat) (c n : Nat) (hn : n = body.length) :
    (body ++ [c]).getD n 0 = c := by
  subst hn
  simp [List.getD_eq_getElem?_getD]

theorem le_decode (x : Nat) (h : x < 65536) : x % 256 + 256 * (x / 256 % 256) = x := by
  omega

theorem sync_write_entry_slice (arm_pos : arm_position_t) (i : Fin ARM_NUM_JOINTS) :
    ((sts_servo_sync_write_packet arm_pos).drop (7 + 7 * i.val)).take 7
      = sync_write_entry arm_pos i := by
  rw [sync_write_packet_body]
  fin_cases i <;> rfl

theorem sync_write_entry_fields (arm_pos : arm_position_t) (i : Fin ARM_NUM_JOINTS) :
    le16 (sts_servo_sync_write_packet arm_pos) (7 + 7 * i.val + 1)
        = (sync_write_entry arm_pos i).getD 1 0 + 256 * (sync_write_entry arm_pos i).getD 2 0
    ∧ le16 (sts_servo_sync_write_packet arm_pos) (7 + 7 * i.val + 3)
        = (sync_write_entry arm_pos i).getD 3 0 + 256 * (sync_write_entry arm_pos i).getD 4 0
    ∧ le16 (sts_servo_sync_write_packet arm_pos) (7 + 7 * i.val + 5)
        = (sync_write_entry arm_pos i).getD 5 0 + 256 * (sync_write_entry arm_pos i).getD 6 0 := by
  rw [sync_write_packet_body]
  fin_cases i <;> exact ⟨rfl, rfl, rfl⟩

/-- C3: for every arm pose whose fields are `uint16_t` values, the sync-write
packet has 8 + 6*7 = 50 bytes, starts with 0xFF, 0xFF, 0xFE, 46, 0x83, 0x2A, 6,
has for each joint `i` a 7-byte entry at offset 7 + 7*i made of the device id
1 + i and the little-endian position, time and speed of `joints[i]` (decoding
them gives `joints[i]` back), and ends with the checksum at offset 49. -/
theorem C3_sync_write_layout (arm_pos : arm_position_t) (hwf : arm_pos.wf) :
    (sts_servo_sync_write_packet arm_pos).length = 8 + 6 * 7
    ∧ (sts_servo_sync_write_packet arm_pos).take 7 = [0xFF, 0xFF, 0xFE, 46, 0x83, 0x2A, 6]
    ∧ (∀ i : Fin ARM_NUM_JOINTS,
        ((sts_servo_sync_write_packet arm_pos).drop (7 + 7 * i.val)).take 7 =
          [1 + i.val,
           (arm_pos.joints i).position % 256, (arm_pos.joints i).position / 256,
           (arm_pos.joints i).time_ms % 256, (arm_pos.joints i).time_ms / 256,
           (arm_pos.joints i).speed % 256, (arm_pos.joints i).speed / 256]
        ∧ (arm_pos.joints i).position / 256 < 256
        ∧ (arm_pos.joints i).time_ms / 256 < 256
        ∧ (arm_pos.joints i).speed / 256 < 256
        ∧ joint_position_t.mk
            (le16 (sts_servo_sync_write_packet arm_pos) (7 + 7 * i.val + 1))
            (le16 (sts_servo_sync_write_packet arm_pos) (7 + 7 * i.val + 3))
            (le16 (sts_servo_sync_write_packet arm_pos) (7 + 7 * i.val + 5)) = arm_pos.joints i)
    ∧ (sts_servo_sync_write_packet arm_pos).getD 49 0
        = sts_calculate_checksum (sts_servo_sync_write_packet arm_pos) 49 := by
  refine ⟨?_, ?_, ?_, ?_⟩
  · rw [sync_write_packet_body]; rfl
  · rw [sync_write_packet_body]; rfl
  · intro i
    obtain ⟨hp, ht, hs⟩ := hwf.1 i
    have hi : i.val < 6 := i.isLt
    obtain ⟨f1, f2, f3⟩ := sync_write_entry_fields arm_pos i
    rw [sync_write_entry_slice, f1, f2, f3]
    cases hj : arm_pos.joints i with
    | mk p t v =>
      rw [hj] at hp ht hs
      simp only at hp ht hs
      simp only [sync_write_entry, hj, and_ff, shr8, List.getD_cons_succ, List.getD_cons_zero]
      refine ⟨?_, by omega, by omega, by omega, ?_⟩
      · have e0 : (ARM_SERVO_ID_BASE + i.val) % 256 = 1 + i.val := by
          simp only [ARM_SERVO_ID_BASE]; omega
        have m1 : p / 256 % 256 = p / 256 := by omega
        have m2 : t / 256 % 256 = t / 256 := by omega
        have m3 : v / 256 % 256 = v / 256 := by omega
        rw [e0, m1, m2, m3]
      · rw [le_decode p hp, le_decode t ht, le_decode v hs]
  · obtain ⟨body, hlen, hP⟩ := sync_write_packet_split arm_pos
    rw [hP, checksum_append body _ 49 hlen.symm]
    exact getD_concat_length body _ 49 hlen.symm

theorem home_pose_wf : home_pose.wf := by
  refine ⟨fun i => ?_, by decide⟩
  fin_cases i <;> decide

/-- C3 at the pose of the HOME_POSITION command (2048, 2000 ms, speed 1000 on every joint). -/
theorem C3_sync_write_layout_witness :
    home_pose.wf
    ∧ (sts_servo_sync_write_packet home_pose).length = 8 + 6 * 7
    ∧ (sts_servo_sync_write_packet home_pose).take 7 = [0xFF, 0xFF, 0xFE, 46, 0x83, 0x2A, 6]
    ∧ (∀ i : Fin ARM_NUM_JOINTS,
        ((sts_servo_sync_write_packet home_pose).drop (7 + 7 * i.val)).take 7 =
          [1 + i.val,
           (home_pose.joints i).position % 256, (home_pose.joints i).position / 256,
           (home_pose.joints i).time_ms % 256, (home_pose.joints i).time_ms / 256,
           (home_pose.joints i).speed % 256, (home_pose.joints i).speed / 256]
        ∧ (home_pose.joints i).position / 256 < 256
        ∧ (home_pose.joints i).time_ms / 256 < 256
        ∧ (home_pose.joints i).speed / 256 < 256
        ∧ joint_position_t.mk
            (le16 (sts_servo_sync_write_packet home_pose) (7 + 7 * i.val + 1))
            (le16 (sts_servo_sync_write_packet home_pose) (7 + 7 * i.val + 3))
            (le16 (sts_servo_sync_write_packet home_pose) (7 + 7 * i.val + 5)) = home_pose.joints i)
    ∧ (sts_servo_sync_write_packet home_pose).getD 49 0
        = sts_calculate_checksum (sts_servo_sync_write_packet home_pose) 49 :=
  ⟨home_pose_wf, C3_sync_write_layout home_pose home_pose_wf⟩

/-- C4: in each packet the codec builds, bytes 0 and 1 are 0xFF and the length
byte at offset 3 is the packet size minus 4: 2 for ping (6 bytes), 4 for the
position-read request (8 bytes), 9 for the single-joint write (13 bytes) and
46 for the six-joint sync-write (50 bytes). -/
theorem C4_header_and_length_byte (servo_id position time_ms speed : Nat)
    (arm_pos : arm_position_t) :
    ((sts_servo_ping_packet servo_id).length = 6
        ∧ (sts_servo_ping_packet servo_id).getD 0 0 = 0xFF
        ∧ (sts_servo_ping_packet servo_id).getD 1 0 = 0xFF
        ∧ (sts_servo_ping_packet servo_id).getD 3 0 = 2
        ∧ (sts_servo_ping_packet servo_id).getD 3 0 = (sts_servo_ping_packet servo_id).length - 4)
    ∧ ((sts_servo_read_position_packet servo_id).length = 8
        ∧ (sts_servo_read_position_packet servo_id).getD 0 0 = 0xFF
        ∧ (sts_servo_read_position_packet servo_id).getD 1 0 = 0xFF
        ∧ (sts_servo_read_position_packet servo_id).getD 3 0 = 4
        ∧ (sts_servo_read_position_packet servo_id).getD 3 0 = (sts_servo_read_position_packet servo_id).length - 4)
    ∧ ((sts_servo_set_position_packet servo_id position time_ms speed).length = 13
        ∧ (sts_servo_set_position_packet servo_id position time_ms speed).getD 0 0 = 0xFF
        ∧ (sts_servo_set_position_packet servo_id position time_ms speed).getD 1 0 = 0xFF
        ∧ (sts_servo_set_position_packet servo_id position time_ms speed).getD 3 0 = 9
        ∧ (sts_servo_set_position_packet servo_id position time_ms speed).getD 3 0 = (sts_servo_set_position_packet servo_id position time_ms speed).length - 4)
    ∧ ((sts_servo_sync_write_packet arm_pos).length = 50
        ∧ (sts_servo_sync_write_packet arm_pos).getD 0 0 = 0xFF
        ∧ (sts_servo_sync_write_packet arm_pos).getD 1 0 = 0xFF
        ∧ (sts_servo_sync_write_packet arm_pos).getD 3 0 = 46
        ∧ (sts_servo_sync_write_packet arm_pos).getD 3 0 = (sts_servo_sync_write_packet arm_pos).length - 4) := by
  refine ⟨⟨rfl, rfl, rfl, rfl, rfl⟩, ⟨rfl, rfl, rfl, rfl, rfl⟩, ⟨rfl, rfl, rfl, rfl, rfl⟩, ?_⟩
  rw [sync_write_packet_body]
  exact ⟨rfl, rfl, rfl, rfl, rfl⟩

theorem set_position_packet_eq (servo_id position time_ms speed : Nat) :
    sts_servo_set_position_packet servo_id position time_ms speed =
      [0xFF, 0xFF, servo_id, 9, 0x03, 0x2A,
       min position 4095 % 256, min position 4095 / 256 % 256,
       time_ms % 256, time_ms / 256 % 256,
       min speed 4095 % 256, min speed 4095 / 256 % 256]
      ++ [sts_calculate_checksum [0xFF, 0xFF, servo_id, 9, 0x03, 0x2A,
       min position 4095 % 256, min position 4095 / 256 % 256,
       time_ms % 256, time_ms / 256 % 256,
       min speed 4095 % 256, min speed 4095 / 256 % 256] 12] := by
  have hp : (if position > STS_POSITION_MAX then STS_POSITION_MAX else position)
      = min position 4095 := by
    simp only [STS_POSITION_MAX]; split <;> omega
  have hs : (if speed > STS_SPEED_MAX then STS_SPEED_MAX else speed) = min speed 4095 := by
    simp only [STS_SPEED_MAX]; split <;> omega
  simp only [sts_servo_set_position_packet, hp, hs, and_ff, shr8]

theorem set_position_sends (env : Env) (w : World) (servo_id position time_ms speed : Nat) :
    (sts_servo_set_position env w servo_id position time_ms speed).1.bus
      = w.bus ++ [sts_servo_set_position_packet servo_id position time_ms speed] := by
  have hl : (sts_servo_set_position_packet servo_id position time_ms speed).take 13
      = sts_servo_set_position_packet servo_id position time_ms speed :=
    List.take_of_length_le (Nat.le_of_eq rfl)
  unfold sts_servo_set_position uart_write_bytes
  simp only [hl]
  split <;> rfl

/-- C5: for every servo id, position and speed and every `uint16_t` time, the
single-joint write packet carries min(position, 4095) at offsets 6-7 and
min(speed, 4095) at offsets 10-11, little-endian, and the time unchanged at
offsets 8-9; the packet is handed to the bus whatever the values are, and the
result of the call depends only on the byte count the transport accepted. -/
theorem C5_single_write_clamps (env : Env) (w : World) (servo_id position time_ms speed : Nat)
    (ht : time_ms < 65536) :
    le16 (sts_servo_set_position_packet servo_id position time_ms speed) 6 = min position 4095
    ∧ le16 (sts_servo_set_position_packet servo_id position time_ms speed) 10 = min speed 4095
    ∧ le16 (sts_servo_set_position_packet servo_id position time_ms speed) 8 = time_ms
    ∧ (sts_servo_set_position_packet servo_id position time_ms speed).take 12 =
        [0xFF, 0xFF, servo_id, 9, 0x03, 0x2A,
         min position 4095 % 256, min position 4095 / 256, time_ms % 256, time_ms / 256,
         min speed 4095 % 256, min speed 4095 / 256]
    ∧ (sts_servo_set_position env w servo_id position time_ms speed).1.bus
        = w.bus ++ [sts_servo_set_position_packet servo_id position time_ms speed]
    ∧ (sts_servo_set_position env w servo_id position time_ms speed).2
        = (if env.uart_write_ret w.bus.length 13 = 13 then esp_err_t.ESP_OK
           else esp_err_t.ESP_FAIL) := by
  have hm1 : min position 4095 ≤ 4095 := Nat.min_le_right _ _
  have hm2 : min speed 4095 ≤ 4095 := Nat.min_le_right _ _
  refine ⟨?_, ?_, ?_, ?_, set_position_sends env w servo_id position time_ms speed, ?_⟩
  · rw [set_position_packet_eq]
    simp only [le16, List.cons_append, List.nil_append, List.getD_cons_succ, List.getD_cons_zero]
    omega
  · rw [set_position_packet_eq]
    simp only [le16, List.cons_append, List.nil_append, List.getD_cons_succ, List.getD_cons_zero]
    omega
  · rw [set_position_packet_eq]
    simp only [le16, List.cons_append, List.nil_append, List.getD_cons_succ, List.getD_cons_zero]
    omega
  · rw [set_position_packet_eq]
    have e1 : min position 4095 / 256 % 256 = min position 4095 / 256 := by omega
    have e2 : time_ms / 256 % 256 = time_ms / 256 := by omega
    have e3 : min speed 4095 / 256 % 256 = min speed 4095 / 256 := by omega
    rw [e1, e2, e3]
    rfl
  · unfold sts_servo_set_position uart_write_bytes
    simp only []
    split <;> rfl

/-- C5 at servo 1, position 5000, time 1000 ms, speed 9000: both are sent as 4095. -/
theorem C5_single_write_clamps_witness :
    (1000 : Nat) < 65536
    ∧ (min 5000 4095 = 4095 ∧ min 9000 4095 = 4095)
    ∧ (
    le16 (sts_servo_set_position_packet 1 5000 1000 9000) 6 = min 5000 4095
    ∧ le16 (sts_servo_set_position_packet 1 5000 1000 9000) 10 = min 9000 4095
    ∧ le16 (sts_servo_set_position_packet 1 5000 1000 9000) 8 = 1000
    ∧ (sts_servo_set_position_packet 1 5000 1000 9000).take 12 =
        [0xFF, 0xFF, 1, 9, 0x03, 0x2A,
         min 5000 4095 % 256, min 5000 4095 / 256, 1000 % 256, 1000 / 256,
         min 9000 4095 % 256, min 9000 4095 / 256]
    ∧ (sts_servo_set_position Env.silent World.init 1 5000 1000 9000).1.bus
        = World.init.bus ++ [sts_servo_set_position_packet 1 5000 1000 9000]
    ∧ (sts_servo_set_position Env.silent World.init 1 5000 1000 9000).2
        = (if Env.silent.uart_write_ret World.init.bus.length 13 = 13 then esp_err_t.ESP_OK
           else esp_err_t.ESP_FAIL)) :=
  ⟨by decide, ⟨by decide, by decide⟩,
    C5_single_write_clamps Env.silent World.init 1 5000 1000 9000 (by decide)⟩

/-! ## The dispatcher -/

/-- C6: on the SET_ALL_JOINTS buffer with positions[0] = 5000, the other
positions 2048, time 1000 ms and speed 9000, the dispatcher emits one sync-write
packet whose entry for joint 0 carries position 5000 and speed 9000, both above
4095, while the single-joint path sends 4095 for the same values. -/
theorem C6_all_joints_path_sends_unclamped :
    (ble_process_command Env.silent World.init
        [0x02, 0x88, 0x13, 0x00, 0x08, 0x00, 0x08, 0x00, 0x08, 0x00, 0x08, 0x00, 0x08,
         0xE8, 0x03, 0x28, 0x23] 17).bus
      = [[0xFF, 0xFF, 0xFE, 46, 0x83, 0x2A, 6,
          1, 0x88, 0x13, 0xE8, 0x03, 0x28, 0x23,
          2, 0x00, 0x08, 0xE8, 0x03, 0x28, 0x23,
          3, 0x00, 0x08, 0xE8, 0x03, 0x28, 0x23,
          4, 0x00, 0x08, 0xE8, 0x03, 0x28, 0x23,
          5, 0x00, 0x08, 0xE8, 0x03, 0x28, 0x23,
          6, 0x00, 0x08, 0xE8, 0x03, 0x28, 0x23, 0x04]]
    ∧ le16 [1, 0x88, 0x13, 0xE8, 0x03, 0x28, 0x23] 1 = 5000
    ∧ le16 [1, 0x88, 0x13, 0xE8, 0x03, 0x28, 0x23] 5 = 9000
    ∧ le16 (sts_servo_set_position_packet 1 5000 1000 9000) 6 = 4095
    ∧ le16 (sts_servo_set_position_packet 1 5000 1000 9000) 10 = 4095 := by
  decide

/-- C7: `ble_process_command` leaves the whole state as it was (nothing written
to the bus, no stored slot changed, player state and range untouched, no driver
called) for every buffer that is empty, or whose op-code lies outside
0x01..0x08, or that is shorter than 7 for SET_JOINT, 17 for SET_ALL_JOINTS, 6
for SAVE_POSITION, 6 for LOAD_POSITION, 4 for START_SEQUENCE. -/
theorem C7_malformed_buffer_is_dropped (env : Env) (w : World) (data : List Nat)
    (h : data.length = 0
      ∨ (data.getD 0 0 < 0x01 ∨ 0x08 < data.getD 0 0)
      ∨ (data.getD 0 0 = CMD_SET_JOINT ∧ data.length < 7)
      ∨ (data.getD 0 0 = CMD_SET_ALL_JOINTS ∧ data.length < 17)
      ∨ (data.getD 0 0 = CMD_SAVE_POSITION ∧ data.length < 6)
      ∨ (data.getD 0 0 = CMD_LOAD_POSITION ∧ data.length < 6)
      ∨ (data.getD 0 0 = CMD_START_SEQUENCE ∧ data.length < 4)) :
    ble_process_command env w data data.length = w := by
  unfold ble_process_command
  simp only []
  generalize data.getD 0 0 = cmd at h
  rcases h with h | h | ⟨hc, hl⟩ | ⟨hc, hl⟩ | ⟨hc, hl⟩ | ⟨hc, hl⟩ | ⟨hc, hl⟩
  · rw [if_pos (by omega)]
  · have h1 : cmd ≠ 1 := by omega
    have h2 : cmd ≠ 2 := by omega
    have h3 : cmd ≠ 3 := by omega
    have h4 : cmd ≠ 4 := by omega
    have h5 : cmd ≠ 5 := by omega
    have h6 : cmd ≠ 6 := by omega
    have h8 : cmd ≠ 8 := by omega
    simp only [h1, h2, h3, h4, h5, h6, h8, if_false, ite_self]
  · subst hc
    have hn : ¬ (sizeof_ble_joint_cmd_t ≤ data.length) := by
      show ¬ (8 ≤ data.length); omega
    by_cases h0 : data.length < 1
    · rw [if_pos h0]
    · rw [if_neg h0]; simp [hn]
  · subst hc
    have hn : ¬ (sizeof_ble_all_joints_cmd_t ≤ data.length) := by
      show ¬ (17 ≤ data.length); omega
    by_cases h0 : data.length < 1
    · rw [if_pos h0]
    · rw [if_neg h0]; simp [hn]
  · subst hc
    have hn : ¬ (sizeof_ble_storage_cmd_t ≤ data.length) := by
      show ¬ (6 ≤ data.length); omega
    by_cases h0 : data.length < 1
    · rw [if_pos h0]
    · rw [if_neg h0]; simp [hn]
  · subst hc
    have hn : ¬ (sizeof_ble_storage_cmd_t ≤ data.length) := by
      show ¬ (6 ≤ data.length); omega
    by_cases h0 : data.length < 1
    · rw [if_pos h0]
    · rw [if_neg h0]; simp [hn]
  · subst hc
    have hn : ¬ (sizeof_ble_sequence_cmd_t ≤ data.length) := by
      show ¬ (4 ≤ data.length); omega
    by_cases h0 : data.length < 1
    · rw [if_pos h0]
    · rw [if_neg h0]; simp [hn]

/-- C7 at the SET_JOINT buffer of length 6: nothing is sent and nothing changes. -/
theorem C7_malformed_buffer_is_dropped_witness :
    (([0x01, 0x00, 0x00, 0x08, 0xE8, 0x03] : List Nat).getD 0 0 = CMD_SET_JOINT
      ∧ ([0x01, 0x00, 0x00, 0x08, 0xE8, 0x03] : List Nat).length < 7)
    ∧ ble_process_command Env.silent World.init [0x01, 0x00, 0x00, 0x08, 0xE8, 0x03]
        ([0x01, 0x00, 0x00, 0x08, 0xE8, 0x03] : List Nat).length = World.init :=
  ⟨by decide,
    C7_malformed_buffer_is_dropped Env.silent World.init [0x01, 0x00, 0x00, 0x08, 0xE8, 0x03]
      (Or.inr (Or.inr (Or.inl (by decide))))⟩

theorem is_bytes_getD (data : List Nat) (hb : is_bytes data) (k : Nat) : data.getD k 0 < 256 := by
  rw [List.getD_eq_getElem?_getD]
  cases hk : data[k]? with
  | none => simp
  | some b =>
    have hmem : b ∈ data := by
      rw [List.getElem?_eq_some_iff] at hk
      obtain ⟨hlt, hb2⟩ := hk
      exact hb2 ▸ List.getElem_mem hlt
    simpa using hb b hmem

theorem set_position_world (env : Env) (w : World) (servo_id position time_ms speed : Nat) :
    (sts_servo_set_position env w servo_id position time_ms speed).1
      = { w with bus := w.bus ++ [sts_servo_set_position_packet servo_id position time_ms speed] } := by
  have hl : (sts_servo_set_position_packet servo_id position time_ms speed).take 13
      = sts_servo_set_position_packet servo_id position time_ms speed :=
    List.take_of_length_le (Nat.le_of_eq rfl)
  unfold sts_servo_set_position uart_write_bytes
  simp only [hl]
  split <;> rfl

theorem set_joint_accepted (env : Env) (w : World) (data : List Nat) (hlen : 8 ≤ data.length)
    (hop : data.getD 0 0 = CMD_SET_JOINT) (hj : data.getD 1 0 < 6) :
    ble_process_command env w data data.length
      = { w with bus := w.bus ++ [sts_servo_set_position_packet (1 + data.getD 1 0)
            (le16 data 2) (le16 data 4) (le16 data 6)] } := by
  have hmod : (ARM_SERVO_ID_BASE + data.getD 1 0) % 256 = 1 + data.getD 1 0 := by
    show (1 + data.getD 1 0) % 256 = 1 + data.getD 1 0
    omega
  unfold ble_process_command
  simp only []
  rw [if_neg (by omega), if_pos hop, if_pos (show data.length ≥ sizeof_ble_joint_cmd_t from hlen),
    if_pos (show data.getD 1 0 < ARM_NUM_JOINTS from hj), hmod, set_position_world]

theorem set_joint_bad_joint (env : Env) (w : World) (data : List Nat)
    (hop : data.getD 0 0 = CMD_SET_JOINT) (hj : 6 ≤ data.getD 1 0) :
    ble_process_command env w data data.length = w := by
  unfold ble_process_command
  simp only []
  rw [if_pos hop, if_neg (show ¬ data.getD 1 0 < ARM_NUM_JOINTS from Nat.not_lt.mpr hj)]
  simp

theorem set_joint_short (env : Env) (w : World) (data : List Nat)
    (hop : data.getD 0 0 = CMD_SET_JOINT) (hlen : data.length < 8) :
    ble_process_command env w data data.length = w := by
  unfold ble_process_command
  simp only []
  rw [if_pos hop, if_neg (show ¬ data.length ≥ sizeof_ble_joint_cmd_t from Nat.not_le.mpr hlen)]
  simp

/-- C8: for every SET_JOINT buffer of bytes with op-code 0x01 and at least 8
bytes: if joint_id < 6 the dispatcher appends exactly one packet to the bus and
changes nothing else; the packet has 13 bytes 0xFF, 0xFF, 1 + joint_id, 9, 0x03,
0x2A, then position (clamped to 4095), duration and speed (clamped to 4095)
decoded from buffer offsets 2-3, 4-5 and 6-7, little-endian, then the checksum;
if joint_id >= 6 nothing is sent and nothing changes. -/
theorem C8_set_joint_dispatch (env : Env) (w : World) (data : List Nat)
    (hlen : 8 ≤ data.length) (hop : data.getD 0 0 = CMD_SET_JOINT) (hb : is_bytes data) :
    (data.getD 1 0 < 6 →
        ble_process_command env w data data.length
          = { w with bus := w.bus ++ [sts_servo_set_position_packet (1 + data.getD 1 0)
                (le16 data 2) (le16 data 4) (le16 data 6)] }
        ∧ (sts_servo_set_position_packet (1 + data.getD 1 0)
              (le16 data 2) (le16 data 4) (le16 data 6)).length = 13
        ∧ (sts_servo_set_position_packet (1 + data.getD 1 0)
              (le16 data 2) (le16 data 4) (le16 data 6)).take 12
            = [0xFF, 0xFF, 1 + data.getD 1 0, 9, 0x03, 0x2A,
               min (le16 data 2) 4095 % 256, min (le16 data 2) 4095 / 256,
               data.getD 4 0, data.getD 5 0,
               min (le16 data 6) 4095 % 256, min (le16 data 6) 4095 / 256]
        ∧ (sts_servo_set_position_packet (1 + data.getD 1 0)
              (le16 data 2) (le16 data 4) (le16 data 6)).getD 12 0
            = sts_calculate_checksum (sts_servo_set_position_packet (1 + data.getD 1 0)
                (le16 data 2) (le16 data 4) (le16 data 6)) 12)
    ∧ (6 ≤ data.getD 1 0 → ble_process_command env w data data.length = w) := by
  refine ⟨fun hj => ⟨set_joint_accepted env w data hlen hop hj, rfl, ?_, ?_⟩,
    fun hj => set_joint_bad_joint env w data hop hj⟩
  · have b4 := is_bytes_getD data hb 4
    have b5 := is_bytes_getD data hb 5
    have hm1 : min (le16 data 2) 4095 ≤ 4095 := Nat.min_le_right _ _
    have hm2 : min (le16 data 6) 4095 ≤ 4095 := Nat.min_le_right _ _
    have e1 : min (le16 data 2) 4095 / 256 % 256 = min (le16 data 2) 4095 / 256 := by omega
    have hle : le16 data 4 = data.getD 4 0 + 256 * data.getD 5 0 := rfl
    have e2 : le16 data 4 % 256 = data.getD 4 0 := by
      rw [hle]; omega
    have e3 : le16 data 4 / 256 % 256 = data.getD 5 0 := by
      rw [hle]; omega
    have e4 : min (le16 data 6) 4095 / 256 % 256 = min (le16 data 6) 4095 / 256 := by omega
    rw [set_position_packet_eq, e1, e2, e3, e4]
    rfl
  · rw [set_position_packet_eq, checksum_append _ _ 12 (by rfl)]
    exact getD_concat_length _ _ 12 (by rfl)

/-- C8 at the buffer 01 02 8813 E803 2823: joint 2, position 5000, 1000 ms, speed 9000. -/
theorem C8_set_joint_dispatch_witness :
    (8 ≤ ([0x01, 0x02, 0x88, 0x13, 0xE8, 0x03, 0x28, 0x23] : List Nat).length ∧ ([0x01, 0x02, 0x88, 0x13, 0xE8, 0x03, 0x28, 0x23] : List Nat).getD 0 0 = CMD_SET_JOINT ∧ is_bytes ([0x01, 0x02, 0x88, 0x13, 0xE8, 0x03, 0x28, 0x23] : List Nat) ∧ ([0x01, 0x02, 0x88, 0x13, 0xE8, 0x03, 0x28, 0x23] : List Nat).getD 1 0 < 6)
    ∧ (
    (([0x01, 0x02, 0x88, 0x13, 0xE8, 0x03, 0x28, 0x23] : List Nat).getD 1 0 < 6 →
        ble_process_command Env.silent World.init ([0x01, 0x02, 0x88, 0x13, 0xE8, 0x03, 0x28, 0x23] : List Nat) ([0x01, 0x02, 0x88, 0x13, 0xE8, 0x03, 0x28, 0x23] : List Nat).length
          = { World.init with bus := World.init.bus ++ [sts_servo_set_position_packet (1 + ([0x01, 0x02, 0x88, 0x13, 0xE8, 0x03, 0x28, 0x23] : List Nat).getD 1 0)
                (le16 ([0x01, 0x02, 0x88, 0x13, 0xE8, 0x03, 0x28, 0x23] : List Nat) 2) (le16 ([0x01, 0x02, 0x88, 0x13, 0xE8, 0x03, 0x28, 0x23] : List Nat) 4) (le16 ([0x01, 0x02, 0x88, 0x13, 0xE8, 0x03, 0x28, 0x23] : List Nat) 6)] }
        ∧ (sts_servo_set_position_packet (1 + ([0x01, 0x02, 0x88, 0x13, 0xE8, 0x03, 0x28, 0x23] : List Nat).getD 1 0)
              (le16 ([0x01, 0x02, 0x88, 0x13, 0xE8, 0x03, 0x28, 0x23] : List Nat) 2) (le16 ([0x01, 0x02, 0x88, 0x13, 0xE8, 0x03, 0x28, 0x23] : List Nat) 4) (le16 ([0x01, 0x02, 0x88, 0x13, 0xE8, 0x03, 0x28, 0x23] : List Nat) 6)).length = 13
        ∧ (sts_servo_set_position_packet (1 + ([0x01, 0x02, 0x88, 0x13, 0xE8, 0x03, 0x28, 0x23] : List Nat).getD 1 0)
              (le16 ([0x01, 0x02, 0x88, 0x13, 0xE8, 0x03, 0x28, 0x23] : List Nat) 2) (le16 ([0x01, 0x02, 0x88, 0x13, 0xE8, 0x03, 0x28, 0x23] : List Nat) 4) (le16 ([0x01, 0x02, 0x88, 0x13, 0xE8, 0x03, 0x28, 0x23] : List Nat) 6)).take 12
            = [0xFF, 0xFF, 1 + ([0x01, 0x02, 0x88, 0x13, 0xE8, 0x03, 0x28, 0x23] : List Nat).getD 1 0, 9, 0x03, 0x2A,
               min (le16 ([0x01, 0x02, 0x88, 0x13, 0xE8, 0x03, 0x28, 0x23] : List Nat) 2) 4095 % 256, min (le16 ([0x01, 0x02, 0x88, 0x13, 0xE8, 0x03, 0x28, 0x23] : List Nat) 2) 4095 / 256,
               ([0x01, 0x02, 0x88, 0x13, 0xE8, 0x03, 0x28, 0x23] : List Nat).getD 4 0, ([0x01, 0x02, 0x88, 0x13, 0xE8, 0x03, 0x28, 0x23] : List Nat).getD 5 0,
               min (le16 ([0x01, 0x02, 0x88, 0x13, 0xE8, 0x03, 0x28, 0x23] : List Nat) 6) 4095 % 256, min (le16 ([0x01, 0x02, 0x88, 0x13, 0xE8, 0x03, 0x28, 0x23] : List Nat) 6) 4095 / 256]
        ∧ (sts_servo_set_position_packet (1 + ([0x01, 0x02, 0x88, 0x13, 0xE8, 0x03, 0x28, 0x23] : List Nat).getD 1 0)
              (le16 ([0x01, 0x02, 0x88, 0x13, 0xE8, 0x03, 0x28, 0x23] : List Nat) 2) (le16 ([0x01, 0x02, 0x88, 0x13, 0xE8, 0x03, 0x28, 0x23] : List Nat) 4) (le16 ([0x01, 0x02, 0x88, 0x13, 0xE8, 0x03, 0x28, 0x23] : List Nat) 6)).getD 12 0
            = sts_calculate_checksum (sts_servo_set_position_packet (1 + ([0x01, 0x02, 0x88, 0x13, 0xE8, 0x03, 0x28, 0x23] : List Nat).getD 1 0)
                (le16 ([0x01, 0x02, 0x88, 0x13, 0xE8, 0x03, 0x28, 0x23] : List Nat) 2) (le16 ([0x01, 0x02, 0x88, 0x13, 0xE8, 0x03, 0x28, 0x23] : List Nat) 4) (le16 ([0x01, 0x02, 0x88, 0x13, 0xE8, 0x03, 0x28, 0x23] : List Nat) 6)) 12)
    ∧ (6 ≤ ([0x01, 0x02, 0x88, 0x13, 0xE8, 0x03, 0x28, 0x23] : List Nat).getD 1 0 → ble_process_command Env.silent World.init ([0x01, 0x02, 0x88, 0x13, 0xE8, 0x03, 0x28, 0x23] : List Nat) ([0x01, 0x02, 0x88, 0x13, 0xE8, 0x03, 0x28, 0x23] : List Nat).length = World.init)) :=
  ⟨by decide, C8_set_joint_dispatch Env.silent World.init ([0x01, 0x02, 0x88, 0x13, 0xE8, 0x03, 0x28, 0x23] : List Nat) (by decide) (by decide) (by decide)⟩

/-- C9 fails as stated: the 7-byte SET_JOINT buffer 01 00 0008 E803 E8 (joint 0)
is dropped; the bus stays empty and the state is the initial one. -/
theorem C9_seven_byte_set_joint_is_dropped :
    (([0x01, 0x00, 0x00, 0x08, 0xE8, 0x03, 0xE8] : List Nat).length = 7 ∧ ([0x01, 0x00, 0x00, 0x08, 0xE8, 0x03, 0xE8] : List Nat).getD 0 0 = CMD_SET_JOINT ∧ ([0x01, 0x00, 0x00, 0x08, 0xE8, 0x03, 0xE8] : List Nat).getD 1 0 < 6)
    ∧ World.init.bus = []
    ∧ (ble_process_command Env.silent World.init ([0x01, 0x00, 0x00, 0x08, 0xE8, 0x03, 0xE8] : List Nat) ([0x01, 0x00, 0x00, 0x08, 0xE8, 0x03, 0xE8] : List Nat).length).bus = [] := by
  decide

/-- C9 amended: the minimum accepted length of a SET_JOINT command is 8, the
size of the packed command struct: every buffer with op-code 0x01 and fewer
than 8 bytes is dropped with no effect, and every buffer with op-code 0x01,
exactly 8 bytes and joint_id < 6 is processed (one single-register write is
issued to device 1 + joint_id). -/
theorem C9_set_joint_min_length_is_8 (env : Env) (w : World) (data : List Nat)
    (hop : data.getD 0 0 = CMD_SET_JOINT) :
    (data.length < 8 → ble_process_command env w data data.length = w)
    ∧ (data.length = 8 → data.getD 1 0 < 6 →
        (ble_process_command env w data data.length).bus
          = w.bus ++ [sts_servo_set_position_packet (1 + data.getD 1 0)
              (le16 data 2) (le16 data 4) (le16 data 6)]
        ∧ (sts_servo_set_position_packet (1 + data.getD 1 0)
              (le16 data 2) (le16 data 4) (le16 data 6)).getD 2 0 = 1 + data.getD 1 0
        ∧ (sts_servo_set_position_packet (1 + data.getD 1 0)
              (le16 data 2) (le16 data 4) (le16 data 6)).getD 4 0 = STS_CMD_WRITE) := by
  refine ⟨fun hl => set_joint_short env w data hop hl, fun hl hj => ⟨?_, rfl, rfl⟩⟩
  rw [set_joint_accepted env w data (Nat.le_of_eq hl.symm) hop hj]

/-- C9 amended, at the 7-byte buffer 01 00 0008 E803 E8. -/
theorem C9_set_joint_min_length_is_8_witness :
    (([0x01, 0x00, 0x00, 0x08, 0xE8, 0x03, 0xE8] : List Nat).getD 0 0 = CMD_SET_JOINT ∧ ([0x01, 0x00, 0x00, 0x08, 0xE8, 0x03, 0xE8] : List Nat).length < 8)
    ∧ (
    (([0x01, 0x00, 0x00, 0x08, 0xE8, 0x03, 0xE8] : List Nat).length < 8 → ble_process_command Env.silent World.init ([0x01, 0x00, 0x00, 0x08, 0xE8, 0x03, 0xE8] : List Nat) ([0x01, 0x00, 0x00, 0x08, 0xE8, 0x03, 0xE8] : List Nat).length = World.init)
    ∧ (([0x01, 0x00, 0x00, 0x08, 0xE8, 0x03, 0xE8] : List Nat).length = 8 → ([0x01, 0x00, 0x00, 0x08, 0xE8, 0x03, 0xE8] : List Nat).getD 1 0 < 6 →
        (ble_process_command Env.silent World.init ([0x01, 0x00, 0x00, 0x08, 0xE8, 0x03, 0xE8] : List Nat) ([0x01, 0x00, 0x00, 0x08, 0xE8, 0x03, 0xE8] : List Nat).length).bus
          = World.init.bus ++ [sts_servo_set_position_packet (1 + ([0x01, 0x00, 0x00, 0x08, 0xE8, 0x03, 0xE8] : List Nat).getD 1 0)
              (le16 ([0x01, 0x00, 0x00, 0x08, 0xE8, 0x03, 0xE8] : List Nat) 2) (le16 ([0x01, 0x00, 0x00, 0x08, 0xE8, 0x03, 0xE8] : List Nat) 4) (le16 ([0x01, 0x00, 0x00, 0x08, 0xE8, 0x03, 0xE8] : List Nat) 6)]
        ∧ (sts_servo_set_position_packet (1 + ([0x01, 0x00, 0x00, 0x08, 0xE8, 0x03, 0xE8] : List Nat).getD 1 0)
              (le16 ([0x01, 0x00, 0x00, 0x08, 0xE8, 0x03, 0xE8] : List Nat) 2) (le16 ([0x01, 0x00, 0x00, 0x08, 0xE8, 0x03, 0xE8] : List Nat) 4) (le16 ([0x01, 0x00, 0x00, 0x08, 0xE8, 0x03, 0xE8] : List Nat) 6)).getD 2 0 = 1 + ([0x01, 0x00, 0x00, 0x08, 0xE8, 0x03, 0xE8] : List Nat).getD 1 0
        ∧ (sts_servo_set_position_packet (1 + ([0x01, 0x00, 0x00, 0x08, 0xE8, 0x03, 0xE8] : List Nat).getD 1 0)
              (le16 ([0x01, 0x00, 0x00, 0x08, 0xE8, 0x03, 0xE8] : List Nat) 2) (le16 ([0x01, 0x00, 0x00, 0x08, 0xE8, 0x03, 0xE8] : List Nat) 4) (le16 ([0x01, 0x00, 0x00, 0x08, 0xE8, 0x03, 0xE8] : List Nat) 6)).getD 4 0 = STS_CMD_WRITE)) :=
  ⟨by decide, C9_set_joint_min_length_is_8 Env.silent World.init ([0x01, 0x00, 0x00, 0x08, 0xE8, 0x03, 0xE8] : List Nat) (by decide)⟩

theorem sync_write_world (env : Env) (w : World) (arm_pos : arm_position_t) :
    (sts_servo_set_arm_position env w arm_pos).1
      = { w with bus := w.bus ++ [sts_servo_sync_write_packet arm_pos] } := by
  unfold sts_servo_set_arm_position sts_servo_sync_write_position uart_write_bytes
  simp only [List.take_length]
  split <;> rfl

theorem all_joints_pose_eq (data : List Nat) :
    all_joints_pose data
      = { joints := fun i =>
            joint_position_t.mk (le16 data (1 + 2 * i.val)) (le16 data 13) (le16 data 15),
          delay_after_ms := 0 } := by
  have hj : (all_joints_pose data).joints = fun i =>
      joint_position_t.mk (le16 data (1 + 2 * i.val)) (le16 data 13) (le16 data 15) := by
    funext i
    fin_cases i <;> rfl
  have hd : (all_joints_pose data).delay_after_ms = 0 := rfl
  calc all_joints_pose data
      = ⟨(all_joints_pose data).joints, (all_joints_pose data).delay_after_ms⟩ := rfl
    _ = _ := by rw [hj, hd]

theorem getD_of_take_eq (a b : List Nat) (n k : Nat) (h : a.take n = b.take n) (hk : k < n) :
    a.getD k 0 = b.getD k 0 := by
  have ha : (a.take n).getD k 0 = a.getD k 0 := by
    simp [List.getD_eq_getElem?_getD, List.getElem?_take, hk]
  have hb : (b.take n).getD k 0 = b.getD k 0 := by
    simp [List.getD_eq_getElem?_getD, List.getElem?_take, hk]
  rw [← ha, ← hb, h]

theorem le16_of_take_eq (a b : List Nat) (n k : Nat) (h : a.take n = b.take n) (hk : k + 1 < n) :
    le16 a k = le16 b k := by
  unfold le16
  rw [getD_of_take_eq a b n k h (by omega), getD_of_take_eq a b n (k + 1) h hk]

theorem set_all_joints_accepted (env : Env) (w : World) (data : List Nat)
    (hlen : 17 ≤ data.length) (hop : data.getD 0 0 = CMD_SET_ALL_JOINTS) :
    ble_process_command env w data data.length
      = { w with bus := w.bus ++ [sts_servo_sync_write_packet (all_joints_pose data)] } := by
  unfold ble_process_command
  simp only []
  rw [if_neg (by omega), hop, if_neg (by decide), if_pos rfl,
    if_pos (show data.length ≥ sizeof_ble_all_joints_cmd_t from hlen), sync_write_world]

/-- C10: for every SET_ALL_JOINTS buffer with op-code 0x02 and at least 17
bytes, the dispatcher appends exactly one sync-write packet to the bus and
changes nothing else; its pose has for joint `i` the position decoded at offset
1 + 2i, and for all joints the duration decoded at offset 13 and the speed
decoded at offset 15 (little-endian); buffers that agree on their first 17
bytes have the same effect. -/
theorem C10_set_all_joints_dispatch (env : Env) (w : World) (data : List Nat)
    (hlen : 17 ≤ data.length) (hop : data.getD 0 0 = CMD_SET_ALL_JOINTS) :
    (∀ i : Fin ARM_NUM_JOINTS,
        (all_joints_pose data).joints i
          = joint_position_t.mk (le16 data (1 + 2 * i.val)) (le16 data 13) (le16 data 15))
    ∧ ble_process_command env w data data.length
        = { w with bus := w.bus ++ [sts_servo_sync_write_packet (all_joints_pose data)] }
    ∧ (∀ other : List Nat, 17 ≤ other.length → other.take 17 = data.take 17 →
        ble_process_command env w other other.length
          = ble_process_command env w data data.length) := by
  refine ⟨fun i => ?_, set_all_joints_accepted env w data hlen hop, ?_⟩
  · rw [all_joints_pose_eq]
  · intro other hol htake
    have hop2 : other.getD 0 0 = CMD_SET_ALL_JOINTS := by
      rw [getD_of_take_eq other data 17 0 htake (by decide)]; exact hop
    have hpose : all_joints_pose other = all_joints_pose data := by
      rw [all_joints_pose_eq, all_joints_pose_eq]
      have h13 := le16_of_take_eq other data 17 13 htake (by decide)
      have h15 := le16_of_take_eq other data 17 15 htake (by decide)
      have hpos : ∀ i : Fin ARM_NUM_JOINTS,
          le16 other (1 + 2 * i.val) = le16 data (1 + 2 * i.val) := by
        intro i
        have hi : i.val < 6 := i.isLt
        exact le16_of_take_eq other data 17 _ htake (by omega)
      simp only [h13, h15, hpos]
    rw [set_all_joints_accepted env w other hol hop2,
      set_all_joints_accepted env w data hlen hop, hpose]

/-- C10 at the 17-byte buffer with positions 5000, 2048 x 5, time 1000 ms, speed 9000. -/
theorem C10_set_all_joints_dispatch_witness :
    (17 ≤ ([0x02, 0x88, 0x13, 0x00, 0x08, 0x00, 0x08, 0x00, 0x08, 0x00, 0x08, 0x00, 0x08, 0xE8, 0x03, 0x28, 0x23] : List Nat).length ∧ ([0x02, 0x88, 0x13, 0x00, 0x08, 0x00, 0x08, 0x00, 0x08, 0x00, 0x08, 0x00, 0x08, 0xE8, 0x03, 0x28, 0x23] : List Nat).getD 0 0 = CMD_SET_ALL_JOINTS)
    ∧ (
    (∀ i : Fin ARM_NUM_JOINTS,
        (all_joints_pose ([0x02, 0x88, 0x13, 0x00, 0x08, 0x00, 0x08, 0x00, 0x08, 0x00, 0x08, 0x00, 0x08, 0xE8, 0x03, 0x28, 0x23] : List Nat)).joints i
          = joint_position_t.mk (le16 ([0x02, 0x88, 0x13, 0x00, 0x08, 0x00, 0x08, 0x00, 0x08, 0x00, 0x08, 0x00, 0x08, 0xE8, 0x03, 0x28, 0x23] : List Nat) (1 + 2 * i.val)) (le16 ([0x02, 0x88, 0x13, 0x00, 0x08, 0x00, 0x08, 0x00, 0x08, 0x00, 0x08, 0x00, 0x08, 0xE8, 0x03, 0x28, 0x23] : List Nat) 13) (le16 ([0x02, 0x88, 0x13, 0x00, 0x08, 0x00, 0x08, 0x00, 0x08, 0x00, 0x08, 0x00, 0x08, 0xE8, 0x03, 0x28, 0x23] : List Nat) 15))
    ∧ ble_process_command Env.silent World.init ([0x02, 0x88, 0x13, 0x00, 0x08, 0x00, 0x08, 0x00, 0x08, 0x00, 0x08, 0x00, 0x08, 0xE8, 0x03, 0x28, 0x23] : List Nat) ([0x02, 0x88, 0x13, 0x00, 0x08, 0x00, 0x08, 0x00, 0x08, 0x00, 0x08, 0x00, 0x08, 0xE8, 0x03, 0x28, 0x23] : List Nat).length
        = { World.init with bus := World.init.bus ++ [sts_servo_sync_write_packet (all_joints_pose ([0x02, 0x88, 0x13, 0x00, 0x08, 0x00, 0x08, 0x00, 0x08, 0x00, 0x08, 0x00, 0x08, 0xE8, 0x03, 0x28, 0x23] : List Nat))] }
    ∧ (∀ other : List Nat, 17 ≤ other.length → other.take 17 = ([0x02, 0x88, 0x13, 0x00, 0x08, 0x00, 0x08, 0x00, 0x08, 0x00, 0x08, 0x00, 0x08, 0xE8, 0x03, 0x28, 0x23] : List Nat).take 17 →
        ble_process_command Env.silent World.init other other.length
          = ble_process_command Env.silent World.init ([0x02, 0x88, 0x13, 0x00, 0x08, 0x00, 0x08, 0x00, 0x08, 0x00, 0x08, 0x00, 0x08, 0xE8, 0x03, 0x28, 0x23] : List Nat) ([0x02, 0x88, 0x13, 0x00, 0x08, 0x00, 0x08, 0x00, 0x08, 0x00, 0x08, 0x00, 0x08, 0xE8, 0x03, 0x28, 0x23] : List Nat).length)) :=
  ⟨by decide, C10_set_all_joints_dispatch Env.silent World.init ([0x02, 0x88, 0x13, 0x00, 0x08, 0x00, 0x08, 0x00, 0x08, 0x00, 0x08, 0x00, 0x08, 0xE8, 0x03, 0x28, 0x23] : List Nat) (by decide) (by decide)⟩

/-- C11: with a peer connected, the one-byte buffer 07 (GET_STATUS) leaves the
state as it was: no notification is handed to the BLE stack and no position is
read on the bus, whereas `ble_send_status` in the same state sends the six read
requests and hands over the 14-byte payload is_moving, current_slot,
current_positions[6]. -/
theorem C11_get_status_is_not_dispatched :
    (ble_process_command Env.silent { World.init with peer_connected := true } [0x07] 1).notifications
      = []
    ∧ (ble_process_command Env.silent { World.init with peer_connected := true } [0x07] 1).bus = []
    ∧ (ble_send_status Env.silent { World.init with peer_connected := true }).notifications
      = [[0, 0, 0x00, 0x08, 0x00, 0x08, 0x00, 0x08, 0x00, 0x08, 0x00, 0x08, 0x00, 0x08]]
    ∧ (ble_send_status Env.silent { World.init with peer_connected := true }).bus.length = 6 := by
  decide

/-- C12: on the SAVE_POSITION buffer 03 00 E8030000 (slot 0, settle delay 1000),
when only the servo of joint 0 answers (position 1234), the pose stored in slot
0 has settle delay 1000, joint 0 at position 1234 with time 1000 and speed
1000, and every joint whose read timed out at position 0, time 0, speed 0. -/
theorem C12_failed_reads_are_saved_as_zero :
    ((ble_process_command
        { Env.silent with
            uart_rx := fun k => if k = 0 then [0xFF, 0xFF, 1, 4, 0, 0xD2, 0x04, 0x24] else [] }
        World.init [0x03, 0x00, 0xE8, 0x03, 0x00, 0x00] 6).store 0).map
      (fun p => (List.ofFn p.joints, p.delay_after_ms))
      = some ([⟨1234, 1000, 1000⟩, ⟨0, 0, 0⟩, ⟨0, 0, 0⟩, ⟨0, 0, 0⟩, ⟨0, 0, 0⟩, ⟨0, 0, 0⟩], 1000) := by
  decide

/-! ## Reads on the bus -/

theorem read_position_world (env : Env) (w : World) (servo_id : Nat) :
    (sts_servo_read_position env w servo_id).1
      = { w with bus := w.bus ++ [sts_servo_read_position_packet servo_id],
                 uart_reads := w.uart_reads + 1 } := by
  have hl : (sts_servo_read_position_packet servo_id).take 8
      = sts_servo_read_position_packet servo_id :=
    List.take_of_length_le (Nat.le_of_eq rfl)
  unfold sts_servo_read_position uart_write_bytes uart_read_bytes
  simp only [hl]
  split <;> rfl

theorem save_read_fold_world (env : Env) (l : List (Fin ARM_NUM_JOINTS)) (w : World)
    (p : arm_position_t) :
    (l.foldl
      (fun (s : World × arm_position_t) i =>
        let (w, ret, position) :=
          sts_servo_read_position env s.1 ((ARM_SERVO_ID_BASE + i.val) % 256)
        if ret = esp_err_t.ESP_OK then
          (w, { s.2 with joints := Function.update s.2.joints i ⟨position, 1000, 1000⟩ })
        else (w, s.2))
      (w, p)).1
      = { w with
          bus := w.bus ++ l.map (fun i =>
            sts_servo_read_position_packet ((ARM_SERVO_ID_BASE + i.val) % 256)),
          uart_reads := w.uart_reads + l.length } := by
  induction l generalizing w p with
  | nil => simp
  | cons i rest ih =>
    simp only [List.foldl_cons, List.map_cons, List.length_cons]
    have hw := read_position_world env w ((ARM_SERVO_ID_BASE + i.val) % 256)
    by_cases hret : (sts_servo_read_position env w ((ARM_SERVO_ID_BASE + i.val) % 256)).2.1
        = esp_err_t.ESP_OK
    · simp only [hret, if_true]
      rw [ih, hw]
      simp [Nat.add_assoc, Nat.add_comm 1]
    · simp only [hret, if_false]
      rw [ih, hw]
      simp [Nat.add_assoc, Nat.add_comm 1]

theorem save_read_loop_world (env : Env) (w : World) (p : arm_position_t) :
    (save_read_loop env w p).1
      = { w with
          bus := w.bus ++ [sts_servo_read_position_packet 1, sts_servo_read_position_packet 2,
            sts_servo_read_position_packet 3, sts_servo_read_position_packet 4,
            sts_servo_read_position_packet 5, sts_servo_read_position_packet 6],
          uart_reads := w.uart_reads + 6 } := by
  unfold save_read_loop
  rw [save_read_fold_world]
  rfl

/-- C13 fails as stated: the SAVE_POSITION buffer 03 10 00000000 (slot 16) puts
six position-read requests on the bus before the slot is rejected. -/
theorem C13_save_with_bad_slot_reads_the_bus :
    (6 ≤ ([0x03, 0x10, 0x00, 0x00, 0x00, 0x00] : List Nat).length ∧ ([0x03, 0x10, 0x00, 0x00, 0x00, 0x00] : List Nat).getD 0 0 = CMD_SAVE_POSITION ∧ 16 ≤ ([0x03, 0x10, 0x00, 0x00, 0x00, 0x00] : List Nat).getD 1 0)
    ∧ World.init.bus = []
    ∧ (ble_process_command Env.silent World.init ([0x03, 0x10, 0x00, 0x00, 0x00, 0x00] : List Nat) ([0x03, 0x10, 0x00, 0x00, 0x00, 0x00] : List Nat).length).bus
      = [[0xFF, 0xFF, 1, 4, 0x02, 0x38, 2, 0xBE], [0xFF, 0xFF, 2, 4, 0x02, 0x38, 2, 0xBD],
         [0xFF, 0xFF, 3, 4, 0x02, 0x38, 2, 0xBC], [0xFF, 0xFF, 4, 4, 0x02, 0x38, 2, 0xBB],
         [0xFF, 0xFF, 5, 4, 0x02, 0x38, 2, 0xBA], [0xFF, 0xFF, 6, 4, 0x02, 0x38, 2, 0xB9]] := by
  decide

theorem save_bad_slot (env : Env) (w : World) (slot_id : Nat) (pose : arm_position_t)
    (h : 16 ≤ slot_id) :
    position_storage_save env w slot_id pose = (w, esp_err_t.ESP_ERR_INVALID_ARG) := by
  unfold position_storage_save
  rw [if_pos (show slot_id ≥ MAX_STORAGE_SLOTS from h)]

theorem load_bad_slot (env : Env) (w : World) (slot_id : Nat) (h : 16 ≤ slot_id) :
    position_storage_load env w slot_id = (w, esp_err_t.ESP_ERR_INVALID_ARG, none) := by
  unfold position_storage_load
  rw [if_pos (show slot_id ≥ MAX_STORAGE_SLOTS from h)]

theorem save_position_bad_slot (env : Env) (w : World) (data : List Nat)
    (hlen : 6 ≤ data.length) (hop : data.getD 0 0 = CMD_SAVE_POSITION)
    (hslot : 16 ≤ data.getD 1 0) :
    ble_process_command env w data data.length
      = { w with
          bus := w.bus ++ [sts_servo_read_position_packet 1, sts_servo_read_position_packet 2,
            sts_servo_read_position_packet 3, sts_servo_read_position_packet 4,
            sts_servo_read_position_packet 5, sts_servo_read_position_packet 6],
          uart_reads := w.uart_reads + 6 } := by
  unfold ble_process_command
  simp only []
  rw [if_neg (by omega), hop, if_neg (by decide), if_neg (by decide), if_pos rfl,
    if_pos (show data.length ≥ sizeof_ble_storage_cmd_t from hlen), save_bad_slot _ _ _ _ hslot,
    save_read_loop_world]

theorem load_position_bad_slot (env : Env) (w : World) (data : List Nat)
    (hlen : 6 ≤ data.length) (hop : data.getD 0 0 = CMD_LOAD_POSITION)
    (hslot : 16 ≤ data.getD 1 0) :
    ble_process_command env w data data.length = w := by
  unfold ble_process_command
  simp only []
  rw [if_neg (by omega), hop, if_neg (by decide), if_neg (by decide), if_neg (by decide),
    if_pos rfl, if_pos (show data.length ≥ sizeof_ble_storage_cmd_t from hlen),
    load_bad_slot _ _ _ hslot]

/-- C13 amended: for every SAVE_POSITION or LOAD_POSITION buffer of at least 6
bytes with slot_id >= 16, no Position Store slot is created or changed and the
NVS driver is not called (`position_storage_save` and `position_storage_load`
return the invalid-argument error with the state untouched); LOAD_POSITION
changes nothing at all and sends no packet; SAVE_POSITION sends its six
position-read requests, one per joint, and no other packet. -/
theorem C13_out_of_range_slot (env : Env) (w : World) (data : List Nat)
    (hlen : 6 ≤ data.length) (hslot : 16 ≤ data.getD 1 0) :
    (data.getD 0 0 = CMD_SAVE_POSITION →
        (ble_process_command env w data data.length)
          = { w with
              bus := w.bus ++ [sts_servo_read_position_packet 1,
                sts_servo_read_position_packet 2, sts_servo_read_position_packet 3,
                sts_servo_read_position_packet 4, sts_servo_read_position_packet 5,
                sts_servo_read_position_packet 6],
              uart_reads := w.uart_reads + 6 }
        ∧ (ble_process_command env w data data.length).store = w.store
        ∧ (ble_process_command env w data data.length).nvs_ops = w.nvs_ops)
    ∧ (data.getD 0 0 = CMD_LOAD_POSITION →
        ble_process_command env w data data.length = w)
    ∧ (∀ (w1 : World) (pose : arm_position_t),
        position_storage_save env w1 (data.getD 1 0) pose = (w1, esp_err_t.ESP_ERR_INVALID_ARG))
    ∧ (∀ w1 : World,
        position_storage_load env w1 (data.getD 1 0) = (w1, esp_err_t.ESP_ERR_INVALID_ARG, none)) := by
  refine ⟨fun hop => ?_, fun hop => load_position_bad_slot env w data hlen hop hslot,
    fun w1 pose => save_bad_slot env w1 _ pose hslot, fun w1 => load_bad_slot env w1 _ hslot⟩
  rw [save_position_bad_slot env w data hlen hop hslot]
  exact ⟨rfl, rfl, rfl⟩

/-- C13 amended, at the SAVE_POSITION buffer 03 10 00000000 (slot 16). -/
theorem C13_out_of_range_slot_witness :
    (6 ≤ ([0x03, 0x10, 0x00, 0x00, 0x00, 0x00] : List Nat).length ∧ 16 ≤ ([0x03, 0x10, 0x00, 0x00, 0x00, 0x00] : List Nat).getD 1 0 ∧ ([0x03, 0x10, 0x00, 0x00, 0x00, 0x00] : List Nat).getD 0 0 = CMD_SAVE_POSITION)
    ∧ (
    (([0x03, 0x10, 0x00, 0x00, 0x00, 0x00] : List Nat).getD 0 0 = CMD_SAVE_POSITION →
        (ble_process_command Env.silent World.init ([0x03, 0x10, 0x00, 0x00, 0x00, 0x00] : List Nat) ([0x03, 0x10, 0x00, 0x00, 0x00, 0x00] : List Nat).length)
          = { World.init with
              bus := World.init.bus ++ [sts_servo_read_position_packet 1,
                sts_servo_read_position_packet 2, sts_servo_read_position_packet 3,
                sts_servo_read_position_packet 4, sts_servo_read_position_packet 5,
                sts_servo_read_position_packet 6],
              uart_reads := World.init.uart_reads + 6 }
        ∧ (ble_process_command Env.silent World.init ([0x03, 0x10, 0x00, 0x00, 0x00, 0x00] : List Nat) ([0x03, 0x10, 0x00, 0x00, 0x00, 0x00] : List Nat).length).store = World.init.store
        ∧ (ble_process_command Env.silent World.init ([0x03, 0x10, 0x00, 0x00, 0x00, 0x00] : List Nat) ([0x03, 0x10, 0x00, 0x00, 0x00, 0x00] : List Nat).length).nvs_ops = World.init.nvs_ops)
    ∧ (([0x03, 0x10, 0x00, 0x00, 0x00, 0x00] : List Nat).getD 0 0 = CMD_LOAD_POSITION →
        ble_process_command Env.silent World.init ([0x03, 0x10, 0x00, 0x00, 0x00, 0x00] : List Nat) ([0x03, 0x10, 0x00, 0x00, 0x00, 0x00] : List Nat).length = World.init)
    ∧ (∀ (w1 : World) (pose : arm_position_t),
        position_storage_save Env.silent w1 (([0x03, 0x10, 0x00, 0x00, 0x00, 0x00] : List Nat).getD 1 0) pose = (w1, esp_err_t.ESP_ERR_INVALID_ARG))
    ∧ (∀ w1 : World,
        position_storage_load Env.silent w1 (([0x03, 0x10, 0x00, 0x00, 0x00, 0x00] : List Nat).getD 1 0) = (w1, esp_err_t.ESP_ERR_INVALID_ARG, none))) :=
  ⟨by decide, C13_out_of_range_slot Env.silent World.init ([0x03, 0x10, 0x00, 0x00, 0x00, 0x00] : List Nat) (by decide) (by decide)⟩

theorem or_shl8 (a b : Nat) (ha : a < 256) : a ||| (b <<< 8) = a + 256 * b := by
  have h := Nat.mul_add_lt_is_or (show a < 2 ^ 8 from ha) b
  rw [Nat.shiftLeft_eq, Nat.lor_comm, Nat.mul_comm b (2 ^ 8), ← h]
  omega

theorem read_position_result (env : Env) (w : World) (servo_id : Nat) :
    (sts_servo_read_position env w servo_id).2
      = if 8 ≤ (env.uart_rx w.uart_reads).length then
          (esp_err_t.ESP_OK,
            (((env.uart_rx w.uart_reads).take 8).getD 5 0
              ||| (((env.uart_rx w.uart_reads).take 8).getD 6 0 <<< 8)) % 65536)
        else (esp_err_t.ESP_FAIL, 0xFFFF) := by
  unfold sts_servo_read_position uart_write_bytes uart_read_bytes
  simp only [List.length_take]
  by_cases h : 8 ≤ (env.uart_rx w.uart_reads).length
  · rw [if_pos (show min 8 (env.uart_rx w.uart_reads).length ≥ 8 by omega), if_pos h]
  · rw [if_neg (show ¬ min 8 (env.uart_rx w.uart_reads).length ≥ 8 by omega), if_neg h]

/-- C14: `sts_servo_read_position` hands exactly one packet to the bus, the
8-byte request 0xFF, 0xFF, id, 4, 0x02, 0x38, 2, checksum, and makes one read;
it returns ESP_OK exactly when at least 8 response bytes arrive before the
timeout; then the position is response[5] + 256 * response[6] for a response
made of bytes, whatever the other bytes are; otherwise it returns ESP_FAIL with
the position left at 0xFFFF. -/
theorem C14_read_position (env : Env) (w : World) (servo_id : Nat) :
    (sts_servo_read_position env w servo_id).1
      = { w with bus := w.bus ++ [[0xFF, 0xFF, servo_id, 4, 0x02, 0x38, 2,
                    sts_calculate_checksum [0xFF, 0xFF, servo_id, 4, 0x02, 0x38, 2] 7]],
                 uart_reads := w.uart_reads + 1 }
    ∧ ((sts_servo_read_position env w servo_id).2.1 = esp_err_t.ESP_OK
        ↔ 8 ≤ (env.uart_rx w.uart_reads).length)
    ∧ (8 ≤ (env.uart_rx w.uart_reads).length → is_bytes (env.uart_rx w.uart_reads) →
        (sts_servo_read_position env w servo_id).2
          = (esp_err_t.ESP_OK,
              (env.uart_rx w.uart_reads).getD 5 0 + 256 * (env.uart_rx w.uart_reads).getD 6 0))
    ∧ ((env.uart_rx w.uart_reads).length < 8 →
        (sts_servo_read_position env w servo_id).2 = (esp_err_t.ESP_FAIL, 0xFFFF)) := by
  refine ⟨read_position_world env w servo_id, ?_, ?_, ?_⟩
  · rw [read_position_result]
    by_cases h : 8 ≤ (env.uart_rx w.uart_reads).length
    · simp [h]
    · simp [h]
  · intro h hb
    rw [read_position_result, if_pos h]
    have e5 := getD_of_take_eq ((env.uart_rx w.uart_reads).take 8) (env.uart_rx w.uart_reads) 8 5
      (by rw [List.take_take]; rfl) (by decide)
    have e6 := getD_of_take_eq ((env.uart_rx w.uart_reads).take 8) (env.uart_rx w.uart_reads) 8 6
      (by rw [List.take_take]; rfl) (by decide)
    have b5 := is_bytes_getD _ hb 5
    have b6 := is_bytes_getD _ hb 6
    rw [e5, e6, or_shl8 _ _ b5]
    congr 1
    omega
  · intro h
    rw [read_position_result, if_neg (by omega)]

/-- C14 at servo 1 answering FF FF 01 04 00 D2 04 24: the position read is 1234. -/
theorem C14_read_position_witness :
    (sts_servo_read_position
        { Env.silent with uart_rx := fun _ => [0xFF, 0xFF, 1, 4, 0, 0xD2, 0x04, 0x24] }
        World.init 1).2 = (esp_err_t.ESP_OK, 1234)
    ∧ (sts_servo_read_position Env.silent World.init 1).2 = (esp_err_t.ESP_FAIL, 0xFFFF) := by
  have h := C14_read_position
    { Env.silent with uart_rx := fun _ => [0xFF, 0xFF, 1, 4, 0, 0xD2, 0x04, 0x24] } World.init 1
  have h2 := C14_read_position Env.silent World.init 1
  exact ⟨h.2.2.1 (by decide) (by decide), h2.2.2.2 (by decide)⟩

/-! ## The player: control calls -/

/-- C15: `sequence_player_start` returns the invalid-argument error exactly
when start_slot > end_slot or end_slot >= 16, and then leaves the state as it
was; otherwise, from any player state (Idle, Running or Paused), it returns
ESP_OK, sets the state to Running and stores exactly start_slot, end_slot and
loop, changing nothing else. -/
theorem C15_start_validates_range (w : World) (start_slot end_slot : Nat) (loop : Bool) :
    ((sequence_player_start w start_slot end_slot loop).2 = esp_err_t.ESP_ERR_INVALID_ARG
        ↔ (start_slot > end_slot ∨ end_slot ≥ 16))
    ∧ ((start_slot > end_slot ∨ end_slot ≥ 16) →
        sequence_player_start w start_slot end_slot loop = (w, esp_err_t.ESP_ERR_INVALID_ARG))
    ∧ (¬ (start_slot > end_slot ∨ end_slot ≥ 16) →
        sequence_player_start w start_slot end_slot loop
          = ({ w with player_state := player_state_t.PLAYER_RUNNING,
                      current_start_slot := start_slot, current_end_slot := end_slot,
                      current_loop := loop }, esp_err_t.ESP_OK)) := by
  unfold sequence_player_start
  by_cases h : start_slot > end_slot ∨ end_slot ≥ 16
  · rw [if_pos (show start_slot > end_slot ∨ end_slot ≥ MAX_STORAGE_SLOTS from h)]
    exact ⟨⟨fun _ => h, fun _ => rfl⟩, fun _ => rfl, fun hn => absurd h hn⟩
  · rw [if_neg (show ¬ (start_slot > end_slot ∨ end_slot ≥ MAX_STORAGE_SLOTS) from h)]
    refine ⟨⟨fun hc => ?_, fun hc => absurd hc h⟩, fun hc => absurd hc h, fun _ => rfl⟩
    simp at hc

/-- C15 evaluated: start(5, 7, true) while Running over 0..3 is accepted,
start(3, 2, false) and start(0, 16, false) are rejected. -/
theorem C15_start_validates_range_witness :
    sequence_player_start World.init 3 2 false = (World.init, esp_err_t.ESP_ERR_INVALID_ARG)
    ∧ sequence_player_start World.init 0 16 false = (World.init, esp_err_t.ESP_ERR_INVALID_ARG)
    ∧ (sequence_player_start (sequence_player_start World.init 0 3 false).1 5 7 true).2
        = esp_err_t.ESP_OK :=
  ⟨(C15_start_validates_range World.init 3 2 false).2.1 (by decide),
   (C15_start_validates_range World.init 0 16 false).2.1 (by decide),
   by
    have h := (C15_start_validates_range (sequence_player_start World.init 0 3 false).1
      5 7 true).2.2 (by decide)
    rw [h]⟩

/-- C16: `sequence_player_pause` turns Running into Paused and changes nothing
in Idle and Paused; `sequence_player_resume` turns Paused into Running and
changes nothing in Idle and Running; `sequence_player_stop` makes the state
Idle from any state; the three change no other field, in particular not the
stored start slot, end slot and loop flag. -/
theorem C16_control_transitions (w : World) :
    (sequence_player_pause w
        = if w.player_state = player_state_t.PLAYER_RUNNING then
            { w with player_state := player_state_t.PLAYER_PAUSED }
          else w)
    ∧ ((sequence_player_pause w).player_state = player_state_t.PLAYER_PAUSED
        ↔ (w.player_state = player_state_t.PLAYER_RUNNING
            ∨ w.player_state = player_state_t.PLAYER_PAUSED))
    ∧ (w.player_state ≠ player_state_t.PLAYER_RUNNING → sequence_player_pause w = w)
    ∧ (sequence_player_resume w
        = if w.player_state = player_state_t.PLAYER_PAUSED then
            { w with player_state := player_state_t.PLAYER_RUNNING }
          else w)
    ∧ ((sequence_player_resume w).player_state = player_state_t.PLAYER_RUNNING
        ↔ (w.player_state = player_state_t.PLAYER_PAUSED
            ∨ w.player_state = player_state_t.PLAYER_RUNNING))
    ∧ (w.player_state ≠ player_state_t.PLAYER_PAUSED → sequence_player_resume w = w)
    ∧ sequence_player_stop w = { w with player_state := player_state_t.PLAYER_IDLE }
    ∧ (w.player_state = player_state_t.PLAYER_IDLE → sequence_player_stop w = w)
    ∧ ((sequence_player_pause w).current_start_slot = w.current_start_slot
        ∧ (sequence_player_pause w).current_end_slot = w.current_end_slot
        ∧ (sequence_player_pause w).current_loop = w.current_loop)
    ∧ ((sequence_player_resume w).current_start_slot = w.current_start_slot
        ∧ (sequence_player_resume w).current_end_slot = w.current_end_slot
        ∧ (sequence_player_resume w).current_loop = w.current_loop)
    ∧ ((sequence_player_stop w).current_start_slot = w.current_start_slot
        ∧ (sequence_player_stop w).current_end_slot = w.current_end_slot
        ∧ (sequence_player_stop w).current_loop = w.current_loop) := by
  obtain ⟨bus, reads, ops, store, state, s, e, l, peer, notes⟩ := w
  cases state <;> simp [sequence_player_pause, sequence_player_resume, sequence_player_stop]

/-! ## The player: the worker task -/

theorem foldl_max_eq (l : List Nat) (a : Nat) :
    l.foldl (fun m x => if x > m then x else m) a = max a (l.foldr max 0) := by
  induction l generalizing a with
  | nil => simp
  | cons x xs ih =>
    simp only [List.foldl_cons, List.foldr_cons]
    rw [ih]
    split <;> omega

theorem max_time_loop_eq (p : arm_position_t) : max_time_loop p = max_duration p := by
  unfold max_time_loop max_duration
  rw [← Nat.zero_max (List.foldr max 0 _), ← foldl_max_eq, List.foldl_map]

theorem le_foldr_max (l : List Nat) : ∀ x ∈ l, x ≤ l.foldr max 0 := by
  induction l with
  | nil => intro x hx; cases hx
  | cons y ys ih =>
    intro x hx
    simp only [List.foldr_cons]
    rcases List.mem_cons.mp hx with h | h
    · subst h; exact Nat.le_max_left _ _
    · exact Nat.le_trans (ih x h) (Nat.le_max_right _ _)

theorem foldr_max_mem (l : List Nat) (h : l ≠ []) : l.foldr max 0 ∈ l := by
  induction l with
  | nil => exact absurd rfl h
  | cons y ys ih =>
    simp only [List.foldr_cons]
    by_cases hys : ys = []
    · subst hys
      simp
    · have hm := ih hys
      rcases Nat.le_total y (ys.foldr max 0) with hle | hle
      · rw [Nat.max_eq_right hle]; exact List.mem_cons_of_mem _ hm
      · rw [Nat.max_eq_left hle]; exact List.mem_cons_self _ _

/-- The wait after a sync-write is at least the duration of every joint and is
the duration of one of them. -/
theorem max_duration_spec (p : arm_position_t) :
    (∀ i, (p.joints i).time_ms ≤ max_duration p)
    ∧ ∃ i, (p.joints i).time_ms = max_duration p := by
  unfold max_duration
  constructor
  · intro i
    apply le_foldr_max
    exact List.mem_map.mpr ⟨i, List.mem_finRange i, rfl⟩
  · have hne : (List.finRange ARM_NUM_JOINTS).map (fun i => (p.joints i).time_ms) ≠ [] := by
      intro h
      have := congrArg List.length h
      simp at this
    obtain ⟨i, _, hi⟩ := List.mem_map.mp (foldr_max_mem _ hne)
    exact ⟨i, hi⟩

theorem task_run_zero (env : Env) (c : Player) : task_run env c 0 = c := rfl

/-- A worker step is blocked only at a point where it takes the mutex, and only
while a call of `sequence_player_start` holds it. -/
theorem task_run_succ (env : Env) (c : Player) (n : Nat) :
    task_run env c (n + 1)
      = task_run env (if takes_mutex c.pc && c.caller.isSome then c else task_step env c) n := by
  simp [task_run, player_run, List.replicate_succ, player_step]

theorem task_step_caller (env : Env) (c : Player) : (task_step env c).caller = c.caller := by
  obtain ⟨w, pc, slot, pos, mt, evs, it, cl⟩ := c
  cases pc <;> simp only [task_step] <;> repeat (first | rfl | split)

theorem worker_step_free (env : Env) (c : Player) (h : c.caller = none) :
    player_step env c player_action.worker = task_step env c := by
  simp [player_step, h]

theorem task_run_succ_free (env : Env) (c : Player) (n : Nat) (h : c.caller = none) :
    task_run env c (n + 1) = task_run env (task_step env c) n := by
  rw [task_run_succ]; simp [h]

theorem task_run_caller (env : Env) (n : Nat) :
    ∀ c : Player, c.caller = none → (task_run env c n).caller = none := by
  induction n with
  | zero => intro c h; exact h
  | succ n ih =>
    intro c h
    rw [task_run_succ_free env c n h]
    exact ih _ ((task_step_caller env c).trans h)

theorem task_run_add (env : Env) (c : Player) (n m : Nat) :
    task_run env c (n + m) = task_run env (task_run env c n) m := by
  induction n generalizing c with
  | zero => rw [Nat.zero_add, task_run_zero]
  | succ n ih => rw [Nat.succ_add, task_run_succ, task_run_succ, ih]

theorem slot_exists_ok (env : Env) (hfault : ∀ k, env.nvs_fault k = false) (w : World)
    (slot : Nat) (h : slot < 16) :
    position_storage_slot_exists env w slot
      = ({ w with nvs_ops := w.nvs_ops + 1 }, (w.store slot).isSome) := by
  unfold position_storage_slot_exists nvs_call
  rw [if_neg (show ¬ slot ≥ MAX_STORAGE_SLOTS from Nat.not_le.mpr h)]
  simp [hfault]

theorem load_ok (env : Env) (hfault : ∀ k, env.nvs_fault k = false) (w : World)
    (slot : Nat) (h : slot < 16) (p : arm_position_t) (hp : w.store slot = some p) :
    position_storage_load env w slot
      = ({ w with nvs_ops := w.nvs_ops + 1 }, esp_err_t.ESP_OK, some p) := by
  unfold position_storage_load nvs_call
  rw [if_neg (show ¬ slot ≥ MAX_STORAGE_SLOTS from Nat.not_le.mpr h)]
  simp [hfault, hp]

theorem pass_runs (env : Env) (hfault : ∀ k, env.nvs_fault k = false) :
    ∀ (k : Nat) (c : Player), c.pc = task_pc.for_cond →
      c.w.player_state = player_state_t.PLAYER_RUNNING →
      c.caller = none →
      c.w.current_end_slot < 16 → k = c.w.current_end_slot + 1 - c.slot →
      ∃ n ops, n ≤ 9 * k + 1
        ∧ (task_run env c n).pc = task_pc.loop_cond_loop
        ∧ (task_run env c n).events = c.events ++ pass_events c.w.store c.slot k
        ∧ (task_run env c n).w
            = { c.w with bus := c.w.bus ++ sync_writes (pass_events c.w.store c.slot k),
                         nvs_ops := ops }
        ∧ (task_run env c n).pass_iters = c.pass_iters + k := by
  intro k
  induction k with
  | zero =>
    intro c hpc hrun hfree hend hk
    obtain ⟨w, pc, slot, pos, mt, evs, it, cl⟩ := c
    obtain ⟨bus, reads, nops, store, st, s, e, l, peer, notes⟩ := w
    simp only at hpc hrun hend hk hfree
    subst hpc hrun hfree
    refine ⟨1, nops, by omega, ?_⟩
    have hgt : ¬ slot ≤ e := by omega
    simp [task_run_succ, task_run_zero, task_step, hgt, pass_events, sync_writes]
  | succ k ih =>
    intro c hpc hrun hfree hend hk
    obtain ⟨w, pc, slot, pos, mt, evs, it, cl⟩ := c
    obtain ⟨bus, reads, nops, store, st, s, e, l, peer, notes⟩ := w
    simp only at hpc hrun hend hk hfree
    subst hpc hrun hfree
    have hle : slot ≤ e := by omega
    have h16 : slot < 16 := by omega
    have hmod : (slot + 1) % 256 = slot + 1 := by omega
    cases hst : store slot with
    | none =>
      have h4 : task_run env
          { w := ⟨bus, reads, nops, store, player_state_t.PLAYER_RUNNING, s, e, l, peer, notes⟩,
            pc := task_pc.for_cond, slot := slot, position := pos, max_time := mt,
            events := evs, pass_iters := it, caller := none } 4
          = { w := ⟨bus, reads, nops + 1, store, player_state_t.PLAYER_RUNNING, s, e, l, peer,
                notes⟩,
              pc := task_pc.for_cond, slot := slot + 1, position := pos, max_time := mt,
              events := evs ++ [player_event.visit slot], pass_iters := it + 1, caller := none } := by
        simp [task_run_succ, task_run_zero, task_step, hle, slot_exists_ok env hfault _ _ h16,
          hst, hmod]
      obtain ⟨n, ops, hn, h1, h2, h3, h5⟩ := ih
        { w := ⟨bus, reads, nops + 1, store, player_state_t.PLAYER_RUNNING, s, e, l, peer, notes⟩,
          pc := task_pc.for_cond, slot := slot + 1, position := pos, max_time := mt,
          events := evs ++ [player_event.visit slot], pass_iters := it + 1, caller := none }
        rfl rfl rfl hend (by show k = e + 1 - (slot + 1); omega)
      refine ⟨4 + n, ops, by omega, ?_⟩
      rw [task_run_add, h4]
      refine ⟨h1, ?_, ?_, ?_⟩
      · rw [h2]; simp [pass_events, slot_events, hst]
      · rw [h3]; simp [pass_events, slot_events, hst, sync_writes]
      · rw [h5]; simp only; omega
    | some p =>
      by_cases hd : p.delay_after_ms = 0
      · have hrun : task_run env
            { w := ⟨bus, reads, nops, store, player_state_t.PLAYER_RUNNING, s, e, l, peer, notes⟩,
              pc := task_pc.for_cond, slot := slot, position := pos, max_time := mt,
              events := evs, pass_iters := it, caller := none } 8
            = { w := ⟨bus ++ [sts_servo_sync_write_packet p], reads, nops + 1 + 1, store,
                  player_state_t.PLAYER_RUNNING, s, e, l, peer, notes⟩,
                pc := task_pc.for_cond, slot := slot + 1, position := p,
                max_time := max_time_loop p,
                events := evs ++ [player_event.visit slot,
                  player_event.sync_write (sts_servo_sync_write_packet p),
                  player_event.delay (max_time_loop p)],
                pass_iters := it + 1, caller := none } := by
          simp [task_run_succ, task_run_zero, task_step, hle, slot_exists_ok env hfault _ _ h16,
            load_ok env hfault _ _ h16 p, hst, hmod, sync_write_world, hd]
        obtain ⟨n, ops, hn, h1, h2, h3, h5⟩ := ih
          { w := ⟨bus ++ [sts_servo_sync_write_packet p], reads, nops + 1 + 1, store,
                player_state_t.PLAYER_RUNNING, s, e, l, peer, notes⟩,
            pc := task_pc.for_cond, slot := slot + 1, position := p,
            max_time := max_time_loop p,
            events := evs ++ [player_event.visit slot,
              player_event.sync_write (sts_servo_sync_write_packet p),
              player_event.delay (max_time_loop p)],
            pass_iters := it + 1, caller := none }
          rfl rfl rfl hend (by show k = e + 1 - (slot + 1); omega)
        refine ⟨8 + n, ops, by omega, ?_⟩
        rw [task_run_add, hrun]
        refine ⟨h1, ?_, ?_, ?_⟩
        · rw [h2]; simp [pass_events, slot_events, hst, hd, max_time_loop_eq]
        · rw [h3]; simp [pass_events, slot_events, hst, sync_writes, hd]
        · rw [h5]; simp only; omega
      · have hrun : task_run env
            { w := ⟨bus, reads, nops, store, player_state_t.PLAYER_RUNNING, s, e, l, peer, notes⟩,
              pc := task_pc.for_cond, slot := slot, position := pos, max_time := mt,
              events := evs, pass_iters := it, caller := none } 9
            = { w := ⟨bus ++ [sts_servo_sync_write_packet p], reads, nops + 1 + 1, store,
                  player_state_t.PLAYER_RUNNING, s, e, l, peer, notes⟩,
                pc := task_pc.for_cond, slot := slot + 1, position := p,
                max_time := max_time_loop p,
                events := evs ++ [player_event.visit slot,
                  player_event.sync_write (sts_servo_sync_write_packet p),
                  player_event.delay (max_time_loop p)] ++ [player_event.delay p.delay_after_ms],
                pass_iters := it + 1, caller := none } := by
          simp [task_run_succ, task_run_zero, task_step, hle, slot_exists_ok env hfault _ _ h16,
            load_ok env hfault _ _ h16 p, hst, hmod, sync_write_world, hd, Nat.pos_of_ne_zero hd]
        obtain ⟨n, ops, hn, h1, h2, h3, h5⟩ := ih
          { w := ⟨bus ++ [sts_servo_sync_write_packet p], reads, nops + 1 + 1, store,
                player_state_t.PLAYER_RUNNING, s, e, l, peer, notes⟩,
            pc := task_pc.for_cond, slot := slot + 1, position := p,
            max_time := max_time_loop p,
            events := evs ++ [player_event.visit slot,
              player_event.sync_write (sts_servo_sync_write_packet p),
              player_event.delay (max_time_loop p)] ++ [player_event.delay p.delay_after_ms],
            pass_iters := it + 1, caller := none }
          rfl rfl rfl hend (by show k = e + 1 - (slot + 1); omega)
        refine ⟨9 + n, ops, by omega, ?_⟩
        rw [task_run_add, hrun]
        refine ⟨h1, ?_, ?_, ?_⟩
        · rw [h2]; simp [pass_events, slot_events, hst, hd, Nat.pos_of_ne_zero hd, max_time_loop_eq]
        · rw [h3]; simp [pass_events, slot_events, hst, sync_writes, hd, Nat.pos_of_ne_zero hd]
        · rw [h5]; simp only; omega

theorem visited_append (a b : List player_event) : visited (a ++ b) = visited a ++ visited b := by
  simp [visited, List.filterMap_append]

theorem visited_slot_events (store : Nat → Option arm_position_t) (slot : Nat) :
    visited (slot_events store slot) = [slot] := by
  unfold slot_events
  cases store slot with
  | none => rfl
  | some p =>
    by_cases hd : p.delay_after_ms = 0
    · simp [visited, hd]
    · simp [visited, hd]

theorem visited_pass_events (store : Nat → Option arm_position_t) (slot k : Nat) :
    visited (pass_events store slot k) = List.range' slot k := by
  induction k generalizing slot with
  | zero => rfl
  | succ k ih =>
    rw [pass_events, visited_append, visited_slot_events, ih, List.range'_succ]
    rfl

theorem start_store_pc (c : Player) : (start_store c).pc = c.pc := by
  obtain ⟨w, pc, slot, pos, mt, evs, it, cl⟩ := c
  cases cl with
  | none => rfl
  | some call =>
    obtain ⟨s, e, l, next⟩ := call
    cases next <;> rfl

theorem start_store_caller (c : Player) (s e : Nat) (l : Bool) (next : start_pc)
    (hc : c.caller = some ⟨s, e, l, next⟩) (hnext : next ≠ start_pc.store_state) :
    ∃ next2, (start_store c).caller = some ⟨s, e, l, next2⟩
      ∧ stores_left next2 + 1 = stores_left next := by
  obtain ⟨w, pc, slot, pos, mt, evs, it, cl⟩ := c
  simp only at hc
  subst hc
  cases next
  case store_state => exact absurd rfl hnext
  case store_start_slot => exact ⟨start_pc.store_end_slot, rfl, rfl⟩
  case store_end_slot => exact ⟨start_pc.store_loop, rfl, rfl⟩
  case store_loop => exact ⟨start_pc.store_state, rfl, rfl⟩

/-- While a call of `sequence_player_start` holds the mutex and the worker waits
for it, the schedule of the call amounts to the stores still to be made. -/
theorem call_tail_blocked (env : Env) (rest : List player_action) :
    ∀ (c : Player) (call : start_call), c.caller = some call → takes_mutex c.pc = true →
      (∀ a ∈ rest, a = player_action.worker ∨ a = player_action.store) →
      rest.count player_action.store = stores_left call.next →
      player_run env c (rest ++ [player_action.store])
        = start_store^[stores_left call.next + 1] c := by
  induction rest with
  | nil =>
    intro c call hc _ _ hcount
    have h0 : stores_left call.next = 0 := by simpa using hcount.symm
    rw [h0]
    rfl
  | cons a rest ih =>
    intro c call hc hpc hs hcount
    have hrest : ∀ b ∈ rest, b = player_action.worker ∨ b = player_action.store :=
      fun b hb => hs b (List.mem_cons_of_mem _ hb)
    rcases hs a (List.mem_cons_self _ _) with h | h
    · subst h
      have hstep : player_step env c player_action.worker = c := by
        simp [player_step, hpc, hc]
      have hcount2 : rest.count player_action.store = stores_left call.next := by
        rw [← hcount]; simp [List.count_cons]
      show player_run env (player_step env c player_action.worker) (rest ++ [player_action.store])
        = _
      rw [hstep]
      exact ih c call hc hpc hrest hcount2
    · subst h
      have hcount2 : rest.count player_action.store + 1 = stores_left call.next := by
        rw [← hcount]; simp [List.count_cons]
      show player_run env (start_store c) (rest ++ [player_action.store]) = _
      obtain ⟨s, e, l, next⟩ := call
      have hnext : next ≠ start_pc.store_state := by
        intro h
        subst h
        simp [stores_left] at hcount2
      obtain ⟨next2, hc2, hleft⟩ := start_store_caller c s e l next hc hnext
      have h := ih (start_store c) _ hc2 (by rw [start_store_pc]; exact hpc) hrest
        (by show _ = stores_left next2; simp only at hcount2; omega)
      rw [h]
      show start_store^[stores_left next2 + 1] (start_store c) = start_store^[stores_left next + 1] c
      rw [← hleft, ← Function.iterate_succ_apply]

/-- A call of `sequence_player_start` made while the worker is at a point where
it takes the mutex: whatever the interleaving, when the call returns the state
is the one that `sequence_player_start` produces in one go. -/
theorem call_blocked (env : Env) (c : Player) (s e : Nat) (loop : Bool)
    (between : List player_action) (hfree : c.caller = none) (hpc : takes_mutex c.pc = true)
    (hrange : s ≤ e ∧ e < 16) (hcall : during_call between) :
    player_run env c (call_schedule s e loop between)
      = { c with w := (sequence_player_start c.w s e loop).1 } := by
  obtain ⟨w, pc, slot, pos, mt, evs, it, cl⟩ := c
  simp only at hfree hpc
  subst hfree
  have hvalid : ¬ (s > e ∨ e ≥ MAX_STORAGE_SLOTS) := by
    show ¬ (s > e ∨ e ≥ 16); omega
  have h := call_tail_blocked env between
    ⟨w, pc, slot, pos, mt, evs, it, some ⟨s, e, loop, start_pc.store_start_slot⟩⟩
    ⟨s, e, loop, start_pc.store_start_slot⟩ rfl hpc hcall.2 hcall.1
  show player_run env (player_step env _ (player_action.start s e loop))
    (between ++ [player_action.store]) = _
  have hstep : player_step env ⟨w, pc, slot, pos, mt, evs, it, none⟩ (player_action.start s e loop)
      = ⟨w, pc, slot, pos, mt, evs, it, some ⟨s, e, loop, start_pc.store_start_slot⟩⟩ := by
    simp [player_step, hvalid]
  rw [hstep, h]
  simp [stores_left, Function.iterate_succ_apply, start_store, sequence_player_start, hvalid]

theorem uninterrupted_pass (env : Env) (c : Player) (s e : Nat) (between : List player_action)
    (hfault : ∀ k, env.nvs_fault k = false) (hrange : s ≤ e ∧ e < 16)
    (hpc : c.pc = task_pc.idle_check) (hfree : c.caller = none)
    (hcall : during_call between) :
    ∃ n, n ≤ 9 * (e + 1 - s) + 5
      ∧ (task_run env (player_run env c (call_schedule s e false between)) n).pc
          = task_pc.end_delay
      ∧ (task_run env (player_run env c (call_schedule s e false between)) n).w.player_state
          = player_state_t.PLAYER_IDLE
      ∧ (task_run env (player_run env c (call_schedule s e false between)) n).events
          = c.events ++ pass_events c.w.store s (e + 1 - s)
      ∧ visited (pass_events c.w.store s (e + 1 - s)) = List.range' s (e + 1 - s)
      ∧ (task_run env (player_run env c (call_schedule s e false between)) n).w.bus
          = c.w.bus ++ sync_writes (pass_events c.w.store s (e + 1 - s))
      ∧ (task_run env (player_run env c (call_schedule s e false between)) n).w.store
          = c.w.store := by
  rw [call_blocked env c s e false between hfree (by rw [hpc]; rfl) hrange hcall]
  obtain ⟨w, pc, slot, pos, mt, evs, it, cl⟩ := c
  obtain ⟨bus, reads, nops, store, st, s0, e0, l, peer, notes⟩ := w
  simp only at hpc hfree
  subst hpc hfree
  have hvalid : ¬ (s > e ∨ e ≥ 16) := by omega
  have h2 : task_run env
      { ({ w := ⟨bus, reads, nops, store, st, s0, e0, l, peer, notes⟩, pc := task_pc.idle_check,
           slot := slot, position := pos, max_time := mt, events := evs, pass_iters := it,
           caller := none } : Player) with
        w := (sequence_player_start ⟨bus, reads, nops, store, st, s0, e0, l, peer, notes⟩
                s e false).1 } 2
      = { w := ⟨bus, reads, nops, store, player_state_t.PLAYER_RUNNING, s, e, false, peer, notes⟩,
          pc := task_pc.for_cond, slot := s, position := pos, max_time := mt, events := evs,
          pass_iters := 0, caller := none } := by
    simp [task_run_succ, task_run_zero, task_step, sequence_player_start, hvalid, takes_mutex]
  obtain ⟨n, ops, hn, h1, hev, hw, _⟩ := pass_runs env hfault (e + 1 - s)
    { w := ⟨bus, reads, nops, store, player_state_t.PLAYER_RUNNING, s, e, false, peer, notes⟩,
      pc := task_pc.for_cond, slot := s, position := pos, max_time := mt, events := evs,
      pass_iters := 0, caller := none }
    rfl rfl rfl hrange.2 rfl
  have hcl := task_run_caller env n
    { w := ⟨bus, reads, nops, store, player_state_t.PLAYER_RUNNING, s, e, false, peer, notes⟩,
      pc := task_pc.for_cond, slot := s, position := pos, max_time := mt, events := evs,
      pass_iters := 0, caller := none } rfl
  refine ⟨2 + n + 2, by omega, ?_⟩
  rw [task_run_add, task_run_add, h2]
  generalize hc' : task_run env _ n = c' at h1 hev hw hcl
  obtain ⟨w', pc', slot', pos', mt', evs', it', cl'⟩ := c'
  simp only at h1 hev hw hcl
  subst h1 hev hw hcl
  simp [task_run_succ, task_run_zero, task_step, visited_pass_events, takes_mutex]

/-- C17: for every valid range, every content of the store and an NVS driver
that does not fail: after a call start(s, e, false) made while the worker is at
the top of its loop (whatever the worker attempts between the stores of the
call) and no further control call, the worker reaches the end of the pass
within a bounded number of steps; its events are, for the slots s..=e in
ascending order, the visit alone for an absent slot and, for a present slot, the
visit, one sync-write of the stored pose, a wait of the largest joint duration
and a wait of the settle delay if that is nonzero; the bus received exactly
those sync-writes and the state is Idle. -/
theorem C17_uninterrupted_pass (env : Env) (c : Player) (s e : Nat)
    (between : List player_action)
    (hfault : ∀ k, env.nvs_fault k = false) (hrange : s ≤ e ∧ e < 16)
    (hpc : c.pc = task_pc.idle_check) (hfree : c.caller = none)
    (hcall : during_call between) :
    ∃ n, n ≤ 9 * (e + 1 - s) + 5
      ∧ (task_run env (player_run env c (call_schedule s e false between)) n).pc
          = task_pc.end_delay
      ∧ (task_run env (player_run env c (call_schedule s e false between)) n).w.player_state
          = player_state_t.PLAYER_IDLE
      ∧ (task_run env (player_run env c (call_schedule s e false between)) n).events
          = c.events ++ pass_events c.w.store s (e + 1 - s)
      ∧ visited (pass_events c.w.store s (e + 1 - s)) = List.range' s (e + 1 - s)
      ∧ (task_run env (player_run env c (call_schedule s e false between)) n).w.bus
          = c.w.bus ++ sync_writes (pass_events c.w.store s (e + 1 - s))
      ∧ (task_run env (player_run env c (call_schedule s e false between)) n).w.store
          = c.w.store :=
  uninterrupted_pass env c s e between hfault hrange hpc hfree hcall

/-- C17 at start(0, 3, false) with slots 0, 2 and 3 present, the worker trying
to take the mutex between the stores of the call: slots 0, 1, 2, 3 are visited
in this order, three poses are written (slots 0, 2, 3), the waits are 105 and
250 ms, 305 ms, 405 and 250 ms, and the player ends Idle. -/
theorem C17_uninterrupted_pass_witness :
    ((∀ k, Env.silent.nvs_fault k = false) ∧ ((0 : Nat) ≤ 3 ∧ (3 : Nat) < 16)
      ∧ example_player.pc = task_pc.idle_check ∧ example_player.caller = none
      ∧ during_call [player_action.store, player_action.worker, player_action.store,
          player_action.worker, player_action.store])
    ∧ visited (pass_events example_player.w.store 0 (3 + 1 - 0)) = [0, 1, 2, 3]
    ∧ waits (pass_events example_player.w.store 0 (3 + 1 - 0)) = [105, 250, 305, 405, 250]
    ∧ (sync_writes (pass_events example_player.w.store 0 (3 + 1 - 0))).length = 3
    ∧ (
    ∃ n, n ≤ 9 * (3 + 1 - 0) + 5
      ∧ (task_run Env.silent (player_run Env.silent example_player (call_schedule 0 3 false [player_action.store, player_action.worker, player_action.store,
          player_action.worker, player_action.store])) n).pc
          = task_pc.end_delay
      ∧ (task_run Env.silent (player_run Env.silent example_player (call_schedule 0 3 false [player_action.store, player_action.worker, player_action.store,
          player_action.worker, player_action.store])) n).w.player_state
          = player_state_t.PLAYER_IDLE
      ∧ (task_run Env.silent (player_run Env.silent example_player (call_schedule 0 3 false [player_action.store, player_action.worker, player_action.store,
          player_action.worker, player_action.store])) n).events
          = example_player.events ++ pass_events example_player.w.store 0 (3 + 1 - 0)
      ∧ visited (pass_events example_player.w.store 0 (3 + 1 - 0)) = List.range' 0 (3 + 1 - 0)
      ∧ (task_run Env.silent (player_run Env.silent example_player (call_schedule 0 3 false [player_action.store, player_action.worker, player_action.store,
          player_action.worker, player_action.store])) n).w.bus
          = example_player.w.bus ++ sync_writes (pass_events example_player.w.store 0 (3 + 1 - 0))
      ∧ (task_run Env.silent (player_run Env.silent example_player (call_schedule 0 3 false [player_action.store, player_action.worker, player_action.store,
          player_action.worker, player_action.store])) n).w.store
          = example_player.w.store) :=
  ⟨⟨fun _ => rfl, by decide, rfl, rfl, by decide⟩, by decide, by decide, by decide,
    C17_uninterrupted_pass Env.silent example_player 0 3 _ (fun _ => rfl) (by decide) rfl rfl
      (by decide)⟩

/-! ## The player: stop -/

theorem sync_writes_append_delays (evs : List player_event) (ws : List Nat) :
    sync_writes (evs ++ ws.map player_event.delay) = sync_writes evs := by
  induction ws generalizing evs with
  | nil => simp
  | cons x xs ih =>
    have h : evs ++ (x :: xs).map player_event.delay
        = (evs ++ [player_event.delay x]) ++ xs.map player_event.delay := by simp
    rw [h, ih]
    simp [sync_writes, List.filterMap_append]

theorem visited_append_delays (evs : List player_event) (ws : List Nat) :
    visited (evs ++ ws.map player_event.delay) = visited evs := by
  induction ws generalizing evs with
  | nil => simp
  | cons x xs ih =>
    have h : evs ++ (x :: xs).map player_event.delay
        = (evs ++ [player_event.delay x]) ++ xs.map player_event.delay := by simp
    rw [h, ih]
    simp [visited, List.filterMap_append]

/-- One step of a stopped player at a point behind the stop check keeps it
stopped, behind the check, writes nothing and at most waits. -/
theorem quiet_step (env : Env) (c : Player) (a : player_action)
    (hidle : c.w.player_state = player_state_t.PLAYER_IDLE) (hpc : behind_check c.pc = true)
    (hfree : c.caller = none)
    (ha : a = player_action.worker ∨ a = player_action.stop ∨ a = player_action.pause) :
    (player_step env c a).w.player_state = player_state_t.PLAYER_IDLE
    ∧ behind_check (player_step env c a).pc = true
    ∧ (player_step env c a).caller = none
    ∧ (player_step env c a).w.bus = c.w.bus
    ∧ ∃ ws : List Nat, (player_step env c a).events = c.events ++ ws.map player_event.delay := by
  obtain ⟨w, pc, slot, pos, mt, evs, it, cl⟩ := c
  obtain ⟨bus, reads, nops, store, st, s, e, l, peer, notes⟩ := w
  simp only at hidle hpc hfree
  subst hidle hfree
  rcases ha with h | h | h
  · subst h
    rw [worker_step_free env _ rfl]
    cases pc <;> simp [behind_check] at hpc <;>
      simp only [task_step] <;>
      (try split) <;>
      (refine ⟨?_, ?_, ?_, ?_, ?_⟩ <;>
        first
        | rfl
        | exact ⟨[], (List.append_nil _).symm⟩
        | exact ⟨[_], rfl⟩
        | simp_all)
  · subst h
    exact ⟨rfl, hpc, rfl, rfl, [], by simp [player_step, sequence_player_stop]⟩
  · subst h
    exact ⟨rfl, hpc, rfl, rfl, [], by simp [player_step, sequence_player_pause]⟩

theorem quiet_run (env : Env) (schedule : List player_action) :
    ∀ c : Player, c.w.player_state = player_state_t.PLAYER_IDLE → behind_check c.pc = true →
      c.caller = none →
      (∀ a ∈ schedule,
        a = player_action.worker ∨ a = player_action.stop ∨ a = player_action.pause) →
      (player_run env c schedule).w.player_state = player_state_t.PLAYER_IDLE
      ∧ behind_check (player_run env c schedule).pc = true
      ∧ (player_run env c schedule).w.bus = c.w.bus
      ∧ ∃ ws : List Nat,
          (player_run env c schedule).events = c.events ++ ws.map player_event.delay := by
  induction schedule with
  | nil => intro c hidle hpc _ _; exact ⟨hidle, hpc, rfl, [], by simp [player_run]⟩
  | cons a rest ih =>
    intro c hidle hpc hfree hs
    obtain ⟨h1, h2, hf, h3, ws1, h4⟩ :=
      quiet_step env c a hidle hpc hfree (hs a (List.mem_cons_self _ _))
    obtain ⟨k1, k2, k3, ws2, k4⟩ :=
      ih (player_step env c a) h1 h2 hf (fun b hb => hs b (List.mem_cons_of_mem _ hb))
    refine ⟨k1, k2, k3.trans h3, ws1 ++ ws2, ?_⟩
    show (player_run env (player_step env c a) rest).events = _
    rw [k4, h4]
    simp

theorem quiet_wait_run (env : Env) (schedule : List player_action) :
    ∀ c : Player, c.w.player_state = player_state_t.PLAYER_IDLE →
      (c.pc = task_pc.move_wait ∨ c.pc = task_pc.settle_wait) →
      c.caller = none →
      (∀ a ∈ schedule,
        a = player_action.worker ∨ a = player_action.stop ∨ a = player_action.pause) →
      player_action.worker ∈ schedule →
      ∃ ws : List Nat, (player_run env c schedule).events
        = c.events ++ player_event.delay (pending_wait c) :: ws.map player_event.delay := by
  induction schedule with
  | nil => intro c _ _ _ _ hw; cases hw
  | cons a rest ih =>
    intro c hidle hpc hfree hs hw
    have hrest : ∀ b ∈ rest,
        b = player_action.worker ∨ b = player_action.stop ∨ b = player_action.pause :=
      fun b hb => hs b (List.mem_cons_of_mem _ hb)
    obtain ⟨w, pc, slot, pos, mt, evs, it, cl⟩ := c
    obtain ⟨bus, reads, nops, store, st, s, e, l, peer, notes⟩ := w
    simp only at hidle hpc hfree
    subst hidle hfree
    rcases hs a (List.mem_cons_self _ _) with h | h | h
    · subst h
      rcases hpc with hpc | hpc
      · subst hpc
        obtain ⟨_, _, _, ws, k4⟩ := quiet_run env rest
          (player_step env ⟨⟨bus, reads, nops, store, player_state_t.PLAYER_IDLE, s, e, l, peer,
            notes⟩, task_pc.move_wait, slot, pos, mt, evs, it, none⟩ player_action.worker)
          rfl rfl rfl hrest
        refine ⟨ws, ?_⟩
        show (player_run env (player_step env _ player_action.worker) rest).events = _
        rw [k4]
        simp [player_step, task_step, pending_wait]
      · subst hpc
        obtain ⟨_, _, _, ws, k4⟩ := quiet_run env rest
          (player_step env ⟨⟨bus, reads, nops, store, player_state_t.PLAYER_IDLE, s, e, l, peer,
            notes⟩, task_pc.settle_wait, slot, pos, mt, evs, it, none⟩ player_action.worker)
          rfl rfl rfl hrest
        refine ⟨ws, ?_⟩
        show (player_run env (player_step env _ player_action.worker) rest).events = _
        rw [k4]
        simp [player_step, task_step, pending_wait]
    · subst h
      have hw2 : player_action.worker ∈ rest := by
        rcases List.mem_cons.mp hw with h | h
        · cases h
        · exact h
      exact ih ⟨⟨bus, reads, nops, store, player_state_t.PLAYER_IDLE, s, e, l, peer, notes⟩,
        pc, slot, pos, mt, evs, it, none⟩ rfl hpc rfl hrest hw2
    · subst h
      have hw2 : player_action.worker ∈ rest := by
        rcases List.mem_cons.mp hw with h | h
        · cases h
        · exact h
      exact ih ⟨⟨bus, reads, nops, store, player_state_t.PLAYER_IDLE, s, e, l, peer, notes⟩,
        pc, slot, pos, mt, evs, it, none⟩ rfl hpc rfl hrest hw2

/-- C18: when stop() is issued while the worker is in the motion wait or the
settle wait of a slot (no call of start being in progress), then in every continuation made of worker steps, stop
and pause calls (no start, no resume) the state is Idle, nothing more is handed
to the bus, the worker records no further sync-write and visits no further
slot: all it does is wait, and its first step completes the pending wait. -/
theorem C18_stop_at_slot_boundary (env : Env) (c : Player) (schedule : List player_action)
    (hpc : c.pc = task_pc.move_wait ∨ c.pc = task_pc.settle_wait) (hfree : c.caller = none)
    (hsched : ∀ a ∈ schedule,
      a = player_action.worker ∨ a = player_action.stop ∨ a = player_action.pause) :
    (player_run env (player_step env c player_action.stop) schedule).w.player_state
        = player_state_t.PLAYER_IDLE
    ∧ (player_run env (player_step env c player_action.stop) schedule).w.bus = c.w.bus
    ∧ sync_writes (player_run env (player_step env c player_action.stop) schedule).events
        = sync_writes c.events
    ∧ visited (player_run env (player_step env c player_action.stop) schedule).events
        = visited c.events
    ∧ (∃ ws : List Nat,
        (player_run env (player_step env c player_action.stop) schedule).events
          = c.events ++ ws.map player_event.delay)
    ∧ (player_action.worker ∈ schedule → ∃ ws : List Nat,
        (player_run env (player_step env c player_action.stop) schedule).events
          = c.events ++ player_event.delay (pending_wait c) :: ws.map player_event.delay) := by
  have hstop : player_step env c player_action.stop = { c with w := sequence_player_stop c.w } := by
    simp [player_step, hfree]
  rw [hstop]
  have hb : behind_check ({ c with w := sequence_player_stop c.w } : Player).pc = true := by
    rcases hpc with h | h <;> simp [h, behind_check]
  obtain ⟨h1, _, h3, ws, h4⟩ :=
    quiet_run env schedule { c with w := sequence_player_stop c.w } rfl hb hfree hsched
  have h4' : (player_run env { c with w := sequence_player_stop c.w } schedule).events
      = c.events ++ ws.map player_event.delay := h4
  refine ⟨h1, h3, ?_, ?_, ⟨ws, h4'⟩, fun hw => ?_⟩
  · rw [h4', sync_writes_append_delays]
  · rw [h4', visited_append_delays]
  · exact quiet_wait_run env schedule { c with w := sequence_player_stop c.w } rfl hpc hfree
      hsched hw

/-- C18 at looping playback: start(0, 1, true), the worker reaches the motion
wait of slot 0, then stop() and thirty worker steps. -/
theorem C18_stop_at_slot_boundary_witness :
    (example_looping_in_slot_0.pc = task_pc.move_wait
      ∧ example_looping_in_slot_0.caller = none
      ∧ example_looping_in_slot_0.w.current_loop = true
      ∧ (∀ a ∈ (List.replicate 30 player_action.worker),
          a = player_action.worker ∨ a = player_action.stop ∨ a = player_action.pause)
      ∧ player_action.worker ∈ (List.replicate 30 player_action.worker)
      ∧ pending_wait example_looping_in_slot_0 = 105)
    ∧ (
    (player_run Env.silent (player_step Env.silent example_looping_in_slot_0 player_action.stop) (List.replicate 30 player_action.worker)).w.player_state
        = player_state_t.PLAYER_IDLE
    ∧ (player_run Env.silent (player_step Env.silent example_looping_in_slot_0 player_action.stop) (List.replicate 30 player_action.worker)).w.bus = example_looping_in_slot_0.w.bus
    ∧ sync_writes (player_run Env.silent (player_step Env.silent example_looping_in_slot_0 player_action.stop) (List.replicate 30 player_action.worker)).events
        = sync_writes example_looping_in_slot_0.events
    ∧ visited (player_run Env.silent (player_step Env.silent example_looping_in_slot_0 player_action.stop) (List.replicate 30 player_action.worker)).events
        = visited example_looping_in_slot_0.events
    ∧ (∃ ws : List Nat,
        (player_run Env.silent (player_step Env.silent example_looping_in_slot_0 player_action.stop) (List.replicate 30 player_action.worker)).events
          = example_looping_in_slot_0.events ++ ws.map player_event.delay)
    ∧ (player_action.worker ∈ (List.replicate 30 player_action.worker) → ∃ ws : List Nat,
        (player_run Env.silent (player_step Env.silent example_looping_in_slot_0 player_action.stop) (List.replicate 30 player_action.worker)).events
          = example_looping_in_slot_0.events ++ player_event.delay (pending_wait example_looping_in_slot_0) :: ws.map player_event.delay)) :=
  ⟨by decide, C18_stop_at_slot_boundary Env.silent example_looping_in_slot_0 (List.replicate 30 player_action.worker)
      (Or.inl (by decide)) (by decide) (by decide)⟩

/-! ## The player: what the steps preserve -/

theorem slot_exists_world (env : Env) (w : World) (slot : Nat) :
    ∃ ops, (position_storage_slot_exists env w slot).1 = { w with nvs_ops := ops } := by
  unfold position_storage_slot_exists nvs_call
  split
  · exact ⟨w.nvs_ops, rfl⟩
  · exact ⟨w.nvs_ops + 1, rfl⟩

theorem load_world (env : Env) (w : World) (slot : Nat) :
    ∃ ops, (position_storage_load env w slot).1 = { w with nvs_ops := ops } := by
  unfold position_storage_load nvs_call
  split
  · exact ⟨w.nvs_ops, rfl⟩
  · simp only []
    split
    · exact ⟨w.nvs_ops + 1, rfl⟩
    · split <;> exact ⟨w.nvs_ops + 1, rfl⟩

/-- A worker step leaves the stored range, the loop flag and the store alone. -/
theorem task_step_frame (env : Env) (c : Player) :
    (task_step env c).w.current_start_slot = c.w.current_start_slot
    ∧ (task_step env c).w.current_end_slot = c.w.current_end_slot
    ∧ (task_step env c).w.current_loop = c.w.current_loop
    ∧ (task_step env c).w.store = c.w.store := by
  obtain ⟨w, pc, slot, pos, mt, evs, it, cl⟩ := c
  cases pc
  case slot_exists =>
    obtain ⟨ops, hw⟩ := slot_exists_world env w slot
    simp only [task_step, hw]
    split <;> exact ⟨rfl, rfl, rfl, rfl⟩
  case load =>
    obtain ⟨ops, hw⟩ := load_world env w slot
    simp only [task_step]
    split
    next w1 p heq =>
      rw [heq] at hw
      simp only at hw
      subst hw
      exact ⟨rfl, rfl, rfl, rfl⟩
    next w1 r o _ heq =>
      rw [heq] at hw
      simp only at hw
      subst hw
      exact ⟨rfl, rfl, rfl, rfl⟩
  case send =>
    simp [task_step, sync_write_world]
  all_goals
    simp only [task_step]
    (try split) <;> simp

theorem worker_step_frame (env : Env) (c : Player) :
    (player_step env c player_action.worker).w.current_start_slot = c.w.current_start_slot
    ∧ (player_step env c player_action.worker).w.current_end_slot = c.w.current_end_slot
    ∧ (player_step env c player_action.worker).w.current_loop = c.w.current_loop
    ∧ (player_step env c player_action.worker).w.store = c.w.store
    ∧ (player_step env c player_action.worker).caller = c.caller := by
  simp only [player_step]
  split
  · exact ⟨rfl, rfl, rfl, rfl, rfl⟩
  · obtain ⟨h1, h2, h3, h4⟩ := task_step_frame env c
    exact ⟨h1, h2, h3, h4, task_step_caller env c⟩

theorem call_inv_congr (w w2 : World) (caller : Option start_call)
    (hs : w2.current_start_slot = w.current_start_slot)
    (he : w2.current_end_slot = w.current_end_slot) (h : call_inv w caller) :
    call_inv w2 caller := by
  cases caller with
  | none =>
    simp only [call_inv] at h ⊢
    omega
  | some call =>
    simp only [call_inv] at h ⊢
    rw [hs, he]
    exact h

/-- The part of the invariant about the worker's counters is kept by a worker step. -/
theorem inv_counters_step (env : Env) (c : Player) (hstart : c.w.current_start_slot < 16)
    (hend : c.w.current_end_slot < 16)
    (h : c.slot ≤ 16 ∧ c.pass_iters ≤ 16
      ∧ (c.pc = task_pc.for_cond → c.pass_iters ≤ c.slot)
      ∧ (in_body c.pc = true → c.slot ≤ 15 ∧ c.pass_iters ≤ c.slot + 1)) :
    (task_step env c).slot ≤ 16 ∧ (task_step env c).pass_iters ≤ 16
      ∧ ((task_step env c).pc = task_pc.for_cond
          → (task_step env c).pass_iters ≤ (task_step env c).slot)
      ∧ (in_body (task_step env c).pc = true
          → (task_step env c).slot ≤ 15
            ∧ (task_step env c).pass_iters ≤ (task_step env c).slot + 1) := by
  obtain ⟨w, pc, slot, pos, mt, evs, it, cl⟩ := c
  simp only at hstart hend
  cases pc
  case slot_exists =>
    simp only [task_step]
    split <;> (simp [in_body, in_pass] at h ⊢; omega)
  case load =>
    simp only [task_step]
    split <;> (simp [in_body, in_pass] at h ⊢; omega)
  case send =>
    simp only [task_step]
    simp [in_body, in_pass] at h ⊢; omega
  all_goals
    simp only [task_step]
    (try split) <;> (simp [in_body, in_pass] at h ⊢; omega)

theorem inv_task_step (env : Env) (c : Player) (h : player_inv c) :
    player_inv (task_step env c) := by
  obtain ⟨h1, h2, h3, h4⟩ := h
  obtain ⟨f1, f2, _, _⟩ := task_step_frame env c
  refine ⟨by rw [f1]; exact h1, by rw [f2]; exact h2, ?_, inv_counters_step env c h1 h2 h4⟩
  rw [task_step_caller]
  exact call_inv_congr c.w _ c.caller f1 f2 h3

theorem inv_start_store (c : Player) (h : player_inv c) : player_inv (start_store c) := by
  obtain ⟨w, pc, slot, pos, mt, evs, it, cl⟩ := c
  cases cl with
  | none => exact h
  | some call =>
    obtain ⟨s, e, l, next⟩ := call
    obtain ⟨h1, h2, h3, h4⟩ := h
    have h1' : w.current_start_slot < 16 := h1
    have h2' : w.current_end_slot < 16 := h2
    cases next
    case store_start_slot =>
      have h3' : s ≤ e ∧ e < 16 := ⟨h3.1, h3.2.1⟩
      refine ⟨by show s < 16; omega, h2, ?_, h4⟩
      exact ⟨h3'.1, h3'.2, fun hn => (by cases hn), fun _ => rfl,
        fun hn => (by rcases hn with hn | hn <;> cases hn)⟩
    case store_end_slot =>
      have h3' : s ≤ e ∧ e < 16 := ⟨h3.1, h3.2.1⟩
      have hs : w.current_start_slot = s := h3.2.2.2.1 (by simp)
      refine ⟨h1, by show e < 16; omega, ?_, h4⟩
      exact ⟨h3'.1, h3'.2, fun hn => (by cases hn), fun _ => hs, fun _ => rfl⟩
    case store_loop =>
      have h3' : s ≤ e ∧ e < 16 := ⟨h3.1, h3.2.1⟩
      have hs : w.current_start_slot = s := h3.2.2.2.1 (by simp)
      have he : w.current_end_slot = e := h3.2.2.2.2 (Or.inl rfl)
      refine ⟨h1, h2, ?_, h4⟩
      exact ⟨h3'.1, h3'.2, fun hn => (by cases hn), fun _ => hs, fun _ => he⟩
    case store_state =>
      have h3' : s ≤ e ∧ e < 16 := ⟨h3.1, h3.2.1⟩
      have hs : w.current_start_slot = s := h3.2.2.2.1 (by simp)
      have he : w.current_end_slot = e := h3.2.2.2.2 (Or.inr rfl)
      refine ⟨h1, h2, ?_, h4⟩
      show w.current_start_slot ≤ w.current_end_slot
      omega

theorem inv_player_step (env : Env) (c : Player) (a : player_action) (h : player_inv c) :
    player_inv (player_step env c a) := by
  cases a with
  | worker =>
    simp only [player_step]
    split
    · exact h
    · exact inv_task_step env c h
  | store => exact inv_start_store c h
  | start s e l =>
    simp only [player_step]
    split
    · exact h
    · next hfree =>
      split
      · exact h
      · next hv =>
        simp only [MAX_STORAGE_SLOTS] at hv
        obtain ⟨h1, h2, h3, h4⟩ := h
        have hnone : c.caller = none := by
          cases hc : c.caller with
          | none => rfl
          | some call => simp [hc] at hfree
        rw [hnone] at h3
        simp only [call_inv] at h3
        refine ⟨h1, h2, ?_, h4⟩
        simp [call_inv]
        omega
  | stop =>
    simp only [player_step]
    split
    · exact h
    · exact ⟨h.1, h.2.1, call_inv_congr c.w _ c.caller rfl rfl h.2.2.1, h.2.2.2⟩
  | pause =>
    simp only [player_step, sequence_player_pause]
    split
    · exact h
    · split
      · exact ⟨h.1, h.2.1, call_inv_congr c.w _ c.caller rfl rfl h.2.2.1, h.2.2.2⟩
      · exact h
  | resume =>
    simp only [player_step, sequence_player_resume]
    split
    · exact h
    · split
      · exact ⟨h.1, h.2.1, call_inv_congr c.w _ c.caller rfl rfl h.2.2.1, h.2.2.2⟩
      · exact h

theorem inv_initial (c : Player) (h : Player.initial c) : player_inv c := by
  obtain ⟨_, h2, h3, _, h5, h6, h7, h8⟩ := h
  refine ⟨by omega, by omega, ?_, by omega, by omega, fun _ => by omega, ?_⟩
  · rw [h6]
    simp only [call_inv]
    omega
  · rw [h5]
    intro hb
    simp [in_body, in_pass] at hb

theorem inv_run (env : Env) (schedule : List player_action) :
    ∀ c : Player, player_inv c → player_inv (player_run env c schedule) := by
  induction schedule with
  | nil => intro c h; exact h
  | cons a rest ih => intro c h; exact ih _ (inv_player_step env c a h)

theorem start_store_measure (c : Player) : pass_measure (start_store c) = pass_measure c := by
  obtain ⟨w, pc, slot, pos, mt, evs, it, cl⟩ := c
  cases cl with
  | none => rfl
  | some call =>
    obtain ⟨s, e, l, next⟩ := call
    cases next <;> rfl

theorem measure_task_step (env : Env) (c : Player) (h : player_inv c)
    (hin : in_pass c.pc = true) (hin2 : in_pass (task_step env c).pc = true) :
    pass_measure (task_step env c) < pass_measure c := by
  obtain ⟨w, pc, slot, pos, mt, evs, it, cl⟩ := c
  obtain ⟨h1, h2, h3, h4⟩ := h
  cases pc <;> simp [in_pass] at hin
  case load =>
    simp only [task_step] at hin2 ⊢
    split <;> simp [pass_measure, pc_rank]
  all_goals
    simp only [task_step] at hin2 ⊢
    (try split at hin2) <;> (try split) <;>
      (simp [pass_measure, pc_rank, in_pass, in_body] at h4 hin2 ⊢ <;> omega)

/-- Inside a pass every worker step that is taken and stays inside the pass
brings the next loop exit closer; a worker that waits for the mutex, the
control calls and the stores of a call do not move the worker. -/
theorem measure_step (env : Env) (c : Player) (a : player_action) (h : player_inv c)
    (hin : in_pass c.pc = true) (hin2 : in_pass (player_step env c a).pc = true) :
    (a = player_action.worker → ¬ (takes_mutex c.pc = true ∧ c.caller.isSome = true) →
      pass_measure (player_step env c a) < pass_measure c)
    ∧ (a ≠ player_action.worker ∨ (takes_mutex c.pc = true ∧ c.caller.isSome = true) →
      pass_measure (player_step env c a) = pass_measure c) := by
  cases a with
  | worker =>
    by_cases hb : takes_mutex c.pc = true ∧ c.caller.isSome = true
    · refine ⟨fun _ hnb => absurd hb hnb, fun _ => ?_⟩
      simp [player_step, hb.1, hb.2]
    · refine ⟨fun _ _ => ?_, fun hor => ?_⟩
      · have hstep : player_step env c player_action.worker = task_step env c := by
          simp only [player_step]
          rw [if_neg]
          simpa using hb
        rw [hstep] at hin2 ⊢
        exact measure_task_step env c h hin hin2
      · rcases hor with hne | hb2
        · exact absurd rfl hne
        · exact absurd hb2 hb
  | store =>
    exact ⟨fun hw => (by cases hw), fun _ => start_store_measure c⟩
  | start s e l =>
    refine ⟨fun hw => (by cases hw), fun _ => ?_⟩
    simp only [player_step]
    split
    · rfl
    · split <;> rfl
  | stop =>
    refine ⟨fun hw => (by cases hw), fun _ => ?_⟩
    simp only [player_step]
    split <;> rfl
  | pause =>
    refine ⟨fun hw => (by cases hw), fun _ => ?_⟩
    simp only [player_step]
    split <;> rfl
  | resume =>
    refine ⟨fun hw => (by cases hw), fun _ => ?_⟩
    simp only [player_step]
    split <;> rfl

theorem task_run_frame (env : Env) (n : Nat) :
    ∀ c : Player, c.caller = none →
      (task_run env c n).w.current_start_slot = c.w.current_start_slot
      ∧ (task_run env c n).w.current_end_slot = c.w.current_end_slot
      ∧ (task_run env c n).w.current_loop = c.w.current_loop
      ∧ (task_run env c n).w.store = c.w.store := by
  induction n with
  | zero => intro c _; exact ⟨rfl, rfl, rfl, rfl⟩
  | succ n ih =>
    intro c hfree
    obtain ⟨f1, f2, f3, f4⟩ := task_step_frame env c
    obtain ⟨k1, k2, k3, k4⟩ := ih (task_step env c) ((task_step_caller env c).trans hfree)
    rw [task_run_succ_free env c n hfree]
    exact ⟨k1.trans f1, k2.trans f2, k3.trans f3, k4.trans f4⟩

/-! ## The player: start while a pass is in progress -/

theorem load_none (env : Env) (w : World) (slot : Nat) (h : slot < 16)
    (hp : w.store slot = none) :
    position_storage_load env w slot
      = ({ w with nvs_ops := w.nvs_ops + 1 }, esp_err_t.ESP_ERR_NVS_NOT_FOUND, none) := by
  unfold position_storage_load nvs_call
  rw [if_neg (show ¬ slot ≥ MAX_STORAGE_SLOTS from Nat.not_le.mpr h)]
  simp [hp]

theorem sync_writes_append (a b : List player_event) :
    sync_writes (a ++ b) = sync_writes a ++ sync_writes b := by
  simp [sync_writes, List.filterMap_append]

theorem sync_writes_settle (p : arm_position_t) : sync_writes (settle_events p) = [] := by
  unfold settle_events
  split <;> rfl

theorem visited_settle (p : arm_position_t) : visited (settle_events p) = [] := by
  unfold settle_events
  split <;> rfl

theorem sync_writes_cons_delay (ms : Nat) (evs : List player_event) :
    sync_writes (player_event.delay ms :: evs) = sync_writes evs := rfl

theorem sync_writes_cons_sync_write (packet : List Nat) (evs : List player_event) :
    sync_writes (player_event.sync_write packet :: evs) = packet :: sync_writes evs := rfl

/-- One worker step inside the body of the `for` loop, state Running, NVS driver
sound: the step stays in the body or reaches the next loop test, and what it
records is the head of what was still expected for the slot. -/
theorem body_step (env : Env) (hfault : ∀ k, env.nvs_fault k = false) (c : Player)
    (hbody : in_body c.pc = true)
    (hrun : c.w.player_state = player_state_t.PLAYER_RUNNING) (hslot : c.slot ≤ 15) :
    ((task_step env c).pc = task_pc.for_cond
      ∨ (in_body (task_step env c).pc = true ∧ pc_rank (task_step env c).pc < pc_rank c.pc))
    ∧ (task_step env c).events ++ remaining_slot_events (task_step env c)
        = c.events ++ remaining_slot_events c
    ∧ (task_step env c).w.bus ++ sync_writes (remaining_slot_events (task_step env c))
        = c.w.bus ++ sync_writes (remaining_slot_events c)
    ∧ next_test_slot (task_step env c) = c.slot + 1
    ∧ (in_body (task_step env c).pc = true → (task_step env c).slot = c.slot)
    ∧ (task_step env c).w
        = { c.w with bus := (task_step env c).w.bus, nvs_ops := (task_step env c).w.nvs_ops } := by
  obtain ⟨w, pc, slot, pos, mt, evs, it, cl⟩ := c
  obtain ⟨bus, reads, nops, store, st, s, e, l, peer, notes⟩ := w
  simp only at hrun hslot
  subst hrun
  have h16 : slot < 16 := by omega
  have hmod : (slot + 1) % 256 = slot + 1 := by omega
  cases pc <;> simp [in_body, in_pass] at hbody
  case stop_check =>
    simp [task_step, in_body, in_pass, pc_rank, remaining_slot_events, next_test_slot]
  case slot_exists =>
    cases hst : store slot with
    | none =>
      simp [task_step, slot_exists_ok env hfault _ _ h16, hst, in_body, in_pass, pc_rank,
        remaining_slot_events, next_test_slot, slot_events, sync_writes]
    | some p =>
      simp [task_step, slot_exists_ok env hfault _ _ h16, hst, in_body, in_pass, pc_rank,
        remaining_slot_events, next_test_slot, slot_events, sync_writes, settle_events]
  case load =>
    cases hst : store slot with
    | none =>
      simp [task_step, load_none env _ _ h16, hst, in_body, in_pass, pc_rank,
        remaining_slot_events, next_test_slot, sync_writes]
    | some p =>
      simp [task_step, load_ok env hfault _ _ h16 p, hst, in_body, in_pass, pc_rank,
        remaining_slot_events, next_test_slot, sync_writes]
  case send =>
    simp [task_step, sync_write_world, in_body, in_pass, pc_rank, remaining_slot_events,
      next_test_slot, max_time_loop_eq, sync_writes_append, sync_writes_settle,
      sync_writes_cons_delay, sync_writes_cons_sync_write]
  case move_wait =>
    simp [task_step, in_body, in_pass, pc_rank, remaining_slot_events, next_test_slot,
      sync_writes_settle, sync_writes_cons_delay]
  case settle_check =>
    by_cases hd : pos.delay_after_ms = 0
    · simp [task_step, hd, in_body, in_pass, pc_rank, remaining_slot_events, next_test_slot,
        settle_events, sync_writes]
    · simp [task_step, hd, Nat.pos_of_ne_zero hd, in_body, in_pass, pc_rank,
        remaining_slot_events, next_test_slot, settle_events, sync_writes]
  case settle_wait =>
    simp [task_step, in_body, in_pass, pc_rank, remaining_slot_events, next_test_slot,
      sync_writes]
  case for_incr =>
    simp [task_step, in_body, in_pass, pc_rank, remaining_slot_events, next_test_slot, hmod]

theorem frame_trans (w0 w1 w2 : World)
    (h1 : w1 = { w0 with bus := w1.bus, nvs_ops := w1.nvs_ops })
    (h2 : w2 = { w1 with bus := w2.bus, nvs_ops := w2.nvs_ops }) :
    w2 = { w0 with bus := w2.bus, nvs_ops := w2.nvs_ops } := by
  rw [h1] at h2
  exact h2

/-- From a point inside the body of the `for` loop the worker, left alone with
the state Running, finishes the slot in hand and reaches the next loop test,
recording what was still expected for the slot. -/
theorem finish_slot (env : Env) (hfault : ∀ k, env.nvs_fault k = false) :
    ∀ (r : Nat) (c : Player), pc_rank c.pc ≤ r → in_body c.pc = true →
      c.w.player_state = player_state_t.PLAYER_RUNNING → c.caller = none → c.slot ≤ 15 →
      ∃ n, n ≤ r
        ∧ (task_run env c n).pc = task_pc.for_cond
        ∧ (task_run env c n).slot = c.slot + 1
        ∧ (task_run env c n).events = c.events ++ remaining_slot_events c
        ∧ (task_run env c n).w.bus = c.w.bus ++ sync_writes (remaining_slot_events c)
        ∧ (task_run env c n).w
            = { c.w with bus := (task_run env c n).w.bus,
                         nvs_ops := (task_run env c n).w.nvs_ops }
        ∧ (task_run env c n).caller = none := by
  intro r
  induction r with
  | zero =>
    intro c hr hb _ _ _
    cases hpc : c.pc <;> simp [hpc, in_body, in_pass, pc_rank] at hb hr
  | succ r ih =>
    intro c hr hb hrun hfree hslot
    obtain ⟨h1, h2, h3, h4, h5, h6⟩ := body_step env hfault c hb hrun hslot
    have hcl : (task_step env c).caller = none := (task_step_caller env c).trans hfree
    rcases h1 with hfor | ⟨hb1, hrank⟩
    · refine ⟨1, by omega, ?_⟩
      rw [task_run_succ_free env c 0 hfree, task_run_zero]
      have hrem : remaining_slot_events (task_step env c) = [] := by
        simp [remaining_slot_events, hfor]
      rw [hrem] at h2 h3
      simp only [List.append_nil, sync_writes] at h2
      have h3' : (task_step env c).w.bus = c.w.bus ++ sync_writes (remaining_slot_events c) := by
        rw [← h3]; simp [sync_writes]
      have hs : (task_step env c).slot = c.slot + 1 := by
        rw [← h4]; simp [next_test_slot, hfor]
      exact ⟨hfor, hs, h2, h3', h6, hcl⟩
    · have hrun1 : (task_step env c).w.player_state = player_state_t.PLAYER_RUNNING := by
        rw [h6]; exact hrun
      have hslot1 : (task_step env c).slot ≤ 15 := by rw [h5 hb1]; exact hslot
      obtain ⟨n, hn, k1, k2, k3, k4, k5, k6⟩ :=
        ih (task_step env c) (by omega) hb1 hrun1 hcl hslot1
      refine ⟨n + 1, by omega, ?_⟩
      rw [task_run_succ_free env c n hfree]
      exact ⟨k1, by rw [k2, h5 hb1], by rw [k3, h2], by rw [k4, h3],
        frame_trans _ _ _ h6 k5, k6⟩

/-- From a point of the `for` loop the worker, left alone with the state
Running, runs the pass on to the stored end slot: it finishes the slot in hand,
visits the slots from the next loop test up to `current_end_slot` and leaves
the loop. -/
theorem pass_continues (env : Env) (hfault : ∀ k, env.nvs_fault k = false) (c : Player)
    (hpass : in_pass c.pc = true)
    (hrun : c.w.player_state = player_state_t.PLAYER_RUNNING) (hfree : c.caller = none)
    (hend : c.w.current_end_slot < 16) (hslot : in_body c.pc = true → c.slot ≤ 15) :
    ∃ n, n ≤ 9 * (c.w.current_end_slot + 1 - next_test_slot c) + 10
      ∧ (task_run env c n).pc = task_pc.loop_cond_loop
      ∧ (task_run env c n).events = c.events ++ remaining_events c
      ∧ (task_run env c n).w.bus = c.w.bus ++ sync_writes (remaining_events c)
      ∧ (task_run env c n).w
          = { c.w with bus := (task_run env c n).w.bus,
                       nvs_ops := (task_run env c n).w.nvs_ops }
      ∧ (task_run env c n).caller = none := by
  by_cases hfor : c.pc = task_pc.for_cond
  · obtain ⟨n, ops, hn, h1, h2, h3, _⟩ := pass_runs env hfault
      (c.w.current_end_slot + 1 - c.slot) c hfor hrun hfree hend rfl
    have hnt : next_test_slot c = c.slot := by simp [next_test_slot, hfor]
    have hrem : remaining_events c
        = pass_events c.w.store c.slot (c.w.current_end_slot + 1 - c.slot) := by
      simp [remaining_events, remaining_slot_events, hfor, hnt]
    refine ⟨n, by rw [hnt]; omega, h1, by rw [h2, hrem], by rw [h3, hrem], ?_,
      task_run_caller env n c hfree⟩
    rw [h3]
  · have hb : in_body c.pc = true := by simp [in_body, hpass, hfor]
    have hnt : next_test_slot c = c.slot + 1 := by simp [next_test_slot, hfor]
    have hr : pc_rank c.pc ≤ 9 := by cases c.pc <;> simp [pc_rank]
    obtain ⟨n, hn, k1, k2, k3, k4, k5, k6⟩ :=
      finish_slot env hfault 9 c hr hb hrun hfree (hslot hb)
    have hrun1 : (task_run env c n).w.player_state = player_state_t.PLAYER_RUNNING := by
      rw [k5]; exact hrun
    have hend1 : (task_run env c n).w.current_end_slot = c.w.current_end_slot := by
      rw [k5]
    have hstore1 : (task_run env c n).w.store = c.w.store := by
      rw [k5]
    obtain ⟨m, ops, hm, h1, h2, h3, _⟩ := pass_runs env hfault
      ((task_run env c n).w.current_end_slot + 1 - (task_run env c n).slot) (task_run env c n)
      k1 hrun1 k6 (by rw [hend1]; exact hend) rfl
    rw [hend1, k2, hstore1] at h2 h3
    rw [hend1, k2] at hm
    refine ⟨n + m, by rw [hnt]; omega, ?_⟩
    rw [task_run_add]
    refine ⟨h1, ?_, ?_, ?_, task_run_caller env m _ k6⟩
    · rw [h2, k3, remaining_events, hnt, List.append_assoc]
    · rw [h3]
      simp only [k4, remaining_events, hnt, sync_writes_append, List.append_assoc]
    · refine frame_trans _ _ _ k5 ?_
      rw [h3]

/-- At the end of a pass with the loop flag set and the state Running the worker
begins a pass at the stored start slot and runs it to the stored end slot. -/
theorem next_pass (env : Env) (hfault : ∀ k, env.nvs_fault k = false) (d : Player)
    (hpc : d.pc = task_pc.loop_cond_loop)
    (hrun : d.w.player_state = player_state_t.PLAYER_RUNNING) (hfree : d.caller = none)
    (hloop : d.w.current_loop = true) (hend : d.w.current_end_slot < 16) :
    ∃ m, (task_run env d m).pc = task_pc.loop_cond_loop
      ∧ (task_run env d m).events = d.events
          ++ pass_events d.w.store d.w.current_start_slot
              (d.w.current_end_slot + 1 - d.w.current_start_slot)
      ∧ (task_run env d m).pass_iters = d.w.current_end_slot + 1 - d.w.current_start_slot := by
  obtain ⟨w, pc, slot, pos, mt, evs, it, cl⟩ := d
  obtain ⟨bus, reads, nops, store, st, s, e, l, peer, notes⟩ := w
  simp only at hpc hrun hfree hloop hend
  subst hpc hrun hfree hloop
  have h3 : task_run env
      { w := ⟨bus, reads, nops, store, player_state_t.PLAYER_RUNNING, s, e, true, peer, notes⟩,
        pc := task_pc.loop_cond_loop, slot := slot, position := pos, max_time := mt,
        events := evs, pass_iters := it, caller := none } 3
      = { w := ⟨bus, reads, nops, store, player_state_t.PLAYER_RUNNING, s, e, true, peer, notes⟩,
          pc := task_pc.for_cond, slot := s, position := pos, max_time := mt, events := evs,
          pass_iters := 0, caller := none } := by
    simp [task_run_succ, task_run_zero, task_step, takes_mutex]
  obtain ⟨n, ops, _, h1, hev, _, hit⟩ := pass_runs env hfault (e + 1 - s)
    { w := ⟨bus, reads, nops, store, player_state_t.PLAYER_RUNNING, s, e, true, peer, notes⟩,
      pc := task_pc.for_cond, slot := s, position := pos, max_time := mt, events := evs,
      pass_iters := 0, caller := none }
    rfl rfl rfl hend rfl
  refine ⟨3 + n, ?_⟩
  rw [task_run_add, h3]
  exact ⟨h1, hev, by rw [hit]; simp⟩

/-- At the end of a pass with the loop flag clear and the state Running the
worker makes the player Idle, and from then on it visits nothing and writes
nothing as long as no control call arrives. -/
theorem no_next_pass (env : Env) (d : Player) (m : Nat)
    (hpc : d.pc = task_pc.loop_cond_loop)
    (hrun : d.w.player_state = player_state_t.PLAYER_RUNNING) (hfree : d.caller = none)
    (hloop : d.w.current_loop = false) :
    (task_run env d (2 + m)).w.player_state = player_state_t.PLAYER_IDLE
    ∧ visited (task_run env d (2 + m)).events = visited d.events
    ∧ (task_run env d (2 + m)).w.bus = d.w.bus := by
  obtain ⟨w, pc, slot, pos, mt, evs, it, cl⟩ := d
  obtain ⟨bus, reads, nops, store, st, s, e, l, peer, notes⟩ := w
  simp only at hpc hrun hfree hloop
  subst hpc hrun hfree hloop
  have h2 : task_run env
      { w := ⟨bus, reads, nops, store, player_state_t.PLAYER_RUNNING, s, e, false, peer, notes⟩,
        pc := task_pc.loop_cond_loop, slot := slot, position := pos, max_time := mt,
        events := evs, pass_iters := it, caller := none } 2
      = { w := ⟨bus, reads, nops, store, player_state_t.PLAYER_IDLE, s, e, false, peer, notes⟩,
          pc := task_pc.end_delay, slot := slot, position := pos, max_time := mt, events := evs,
          pass_iters := it, caller := none } := by
    simp [task_run_succ, task_run_zero, task_step, takes_mutex]
  rw [task_run_add, h2]
  obtain ⟨k1, _, k3, ws, k4⟩ := quiet_run env (List.replicate m player_action.worker)
    { w := ⟨bus, reads, nops, store, player_state_t.PLAYER_IDLE, s, e, false, peer, notes⟩,
      pc := task_pc.end_delay, slot := slot, position := pos, max_time := mt, events := evs,
      pass_iters := it, caller := none }
    rfl rfl rfl (fun a ha => Or.inl (List.eq_of_mem_replicate ha))
  refine ⟨k1, ?_, k3⟩
  show visited (player_run env _ (List.replicate m player_action.worker)).events = _
  rw [k4, visited_append_delays]

/-- The rest of a call of `sequence_player_start`, the worker stepping between
its stores: when the last store is made the range and the loop flag are those
of the call, the state is Running and the mutex is free. -/
theorem call_tail (env : Env) (rest : List player_action) :
    ∀ (c : Player) (call : start_call), c.caller = some call →
      (∀ a ∈ rest, a = player_action.worker ∨ a = player_action.store) →
      rest.count player_action.store = stores_left call.next →
      (call.next ≠ start_pc.store_start_slot → c.w.current_start_slot = call.start_slot) →
      (call.next = start_pc.store_loop ∨ call.next = start_pc.store_state →
        c.w.current_end_slot = call.end_slot) →
      (call.next = start_pc.store_state → c.w.current_loop = call.loop) →
      (player_run env c (rest ++ [player_action.store])).caller = none
      ∧ (player_run env c (rest ++ [player_action.store])).w.current_start_slot = call.start_slot
      ∧ (player_run env c (rest ++ [player_action.store])).w.current_end_slot = call.end_slot
      ∧ (player_run env c (rest ++ [player_action.store])).w.current_loop = call.loop
      ∧ (player_run env c (rest ++ [player_action.store])).w.player_state
          = player_state_t.PLAYER_RUNNING
      ∧ (player_run env c (rest ++ [player_action.store])).w.store = c.w.store := by
  induction rest with
  | nil =>
    intro c call hc _ hcount hs he hl
    obtain ⟨w, pc, slot, pos, mt, evs, it, cl⟩ := c
    obtain ⟨s2, e2, l2, next⟩ := call
    simp only at hc
    subst hc
    cases next <;> simp [stores_left] at hcount
    exact ⟨rfl, hs (by simp), he (Or.inr rfl), hl rfl, rfl, rfl⟩
  | cons a rest ih =>
    intro c call hc hsched hcount hs he hl
    have hrest : ∀ b ∈ rest, b = player_action.worker ∨ b = player_action.store :=
      fun b hb => hsched b (List.mem_cons_of_mem _ hb)
    rcases hsched a (List.mem_cons_self _ _) with h | h
    · subst h
      obtain ⟨f1, f2, f3, f4, f5⟩ := worker_step_frame env c
      have hcount2 : rest.count player_action.store = stores_left call.next := by
        rw [← hcount]; simp [List.count_cons]
      have := ih (player_step env c player_action.worker) call (f5.trans hc) hrest hcount2
        (fun hn => f1.trans (hs hn)) (fun hn => f2.trans (he hn)) (fun hn => f3.trans (hl hn))
      rw [f4] at this
      exact this
    · subst h
      have hcount2 : rest.count player_action.store + 1 = stores_left call.next := by
        rw [← hcount]; simp [List.count_cons]
      obtain ⟨w, pc, slot, pos, mt, evs, it, cl⟩ := c
      obtain ⟨s2, e2, l2, next⟩ := call
      simp only at hc
      subst hc
      cases next
      case store_state => simp [stores_left] at hcount2
      case store_start_slot =>
        exact ih _ ⟨s2, e2, l2, start_pc.store_end_slot⟩ rfl hrest
          (by simp only [stores_left] at hcount2 ⊢; omega)
          (fun _ => rfl) (fun hn => by rcases hn with hn | hn <;> cases hn)
          (fun hn => by cases hn)
      case store_end_slot =>
        exact ih _ ⟨s2, e2, l2, start_pc.store_loop⟩ rfl hrest
          (by simp only [stores_left] at hcount2 ⊢; omega)
          (fun _ => hs (by simp)) (fun _ => rfl) (fun hn => by cases hn)
      case store_loop =>
        exact ih _ ⟨s2, e2, l2, start_pc.store_state⟩ rfl hrest
          (by simp only [stores_left] at hcount2 ⊢; omega)
          (fun _ => hs (by simp)) (fun _ => he (Or.inl rfl)) (fun _ => rfl)

/-- A call start(s, e, loop) with a valid range, the worker stepping between its
stores wherever it does not need the mutex: when the call returns the stored
range and loop flag are those of the call and the state is Running. -/
theorem call_returns (env : Env) (c : Player) (s e : Nat) (loop : Bool)
    (between : List player_action) (hfree : c.caller = none)
    (hrange : s ≤ e ∧ e < 16) (hcall : during_call between) :
    (player_run env c (call_schedule s e loop between)).caller = none
    ∧ (player_run env c (call_schedule s e loop between)).w.current_start_slot = s
    ∧ (player_run env c (call_schedule s e loop between)).w.current_end_slot = e
    ∧ (player_run env c (call_schedule s e loop between)).w.current_loop = loop
    ∧ (player_run env c (call_schedule s e loop between)).w.player_state
        = player_state_t.PLAYER_RUNNING
    ∧ (player_run env c (call_schedule s e loop between)).w.store = c.w.store := by
  have hvalid : ¬ (s > e ∨ e ≥ MAX_STORAGE_SLOTS) := by
    show ¬ (s > e ∨ e ≥ 16); omega
  have hstep : player_step env c (player_action.start s e loop)
      = { c with caller := some ⟨s, e, loop, start_pc.store_start_slot⟩ } := by
    simp [player_step, hvalid, hfree]
  have hrun : player_run env c (call_schedule s e loop between)
      = player_run env { c with caller := some ⟨s, e, loop, start_pc.store_start_slot⟩ }
          (between ++ [player_action.store]) := by
    show player_run env (player_step env c (player_action.start s e loop))
      (between ++ [player_action.store]) = _
    rw [hstep]
  rw [hrun]
  exact call_tail env between { c with caller := some ⟨s, e, loop, start_pc.store_start_slot⟩ }
    ⟨s, e, loop, start_pc.store_start_slot⟩ rfl hcall.2 hcall.1
    (fun hn => absurd rfl hn) (fun hn => by rcases hn with hn | hn <;> cases hn)
    (fun hn => by cases hn)

theorem visited_nil : visited [] = [] := rfl

theorem visited_cons_delay (ms : Nat) (evs : List player_event) :
    visited (player_event.delay ms :: evs) = visited evs := rfl

theorem visited_cons_sync_write (packet : List Nat) (evs : List player_event) :
    visited (player_event.sync_write packet :: evs) = visited evs := rfl

theorem visited_remaining_slot (c : Player) :
    visited (remaining_slot_events c)
      = if c.pc = task_pc.stop_check ∨ c.pc = task_pc.slot_exists then [c.slot] else [] := by
  obtain ⟨w, pc, slot, pos, mt, evs, it, cl⟩ := c
  cases pc
  case load =>
    simp only [remaining_slot_events]
    cases w.store slot <;>
      simp [visited_nil, visited_cons_delay, visited_cons_sync_write, visited_settle]
  all_goals
    simp [remaining_slot_events, visited_slot_events, visited_settle, visited_nil,
      visited_cons_delay, visited_cons_sync_write]

theorem visited_remaining (c : Player) :
    visited (remaining_events c)
      = (if c.pc = task_pc.stop_check ∨ c.pc = task_pc.slot_exists then [c.slot] else [])
          ++ List.range' (next_test_slot c) (c.w.current_end_slot + 1 - next_test_slot c) := by
  rw [remaining_events, visited_append, visited_remaining_slot, visited_pass_events]

/-- A call of `sequence_player_start` during which the worker takes no step
amounts to `sequence_player_start` in one go: the worker keeps its place. -/
theorem call_alone (env : Env) (c : Player) (s e : Nat) (loop : Bool)
    (hfree : c.caller = none) (hrange : s ≤ e ∧ e < 16) :
    player_run env c (call_schedule s e loop no_worker_step)
      = { c with w := (sequence_player_start c.w s e loop).1 } := by
  obtain ⟨w, pc, slot, pos, mt, evs, it, cl⟩ := c
  simp only at hfree
  subst hfree
  have hvalid : ¬ (s > e ∨ e ≥ MAX_STORAGE_SLOTS) := by
    show ¬ (s > e ∨ e ≥ 16); omega
  simp [player_run, call_schedule, no_worker_step, player_step, start_store,
    sequence_player_start, hvalid]

theorem ordered_outside_range_stores (c : Player) (h : player_inv c)
    (hb : between_range_stores c = false) :
    c.w.current_start_slot ≤ c.w.current_end_slot := by
  obtain ⟨w, pc, slot, pos, mt, evs, it, cl⟩ := c
  obtain ⟨_, _, h3, _⟩ := h
  cases cl with
  | none => exact h3
  | some call =>
    obtain ⟨s, e, l, next⟩ := call
    obtain ⟨k1, k2, k3, k4, k5⟩ := h3
    cases next
    case store_start_slot => exact k3 rfl
    case store_end_slot => simp [between_range_stores] at hb
    case store_loop =>
      have hs : w.current_start_slot = s := k4 (by simp)
      have he : w.current_end_slot = e := k5 (Or.inl rfl)
      have hse : s ≤ e := k1
      show w.current_start_slot ≤ w.current_end_slot
      omega
    case store_state =>
      have hs : w.current_start_slot = s := k4 (by simp)
      have he : w.current_end_slot = e := k5 (Or.inr rfl)
      have hse : s ≤ e := k1
      show w.current_start_slot ≤ w.current_end_slot
      omega

theorem visited_append_delay (evs : List player_event) (ms : Nat) :
    visited (evs ++ [player_event.delay ms]) = visited evs := by
  simp [visited, List.filterMap_append]

theorem visited_append_sync_write (evs : List player_event) (packet : List Nat) :
    visited (evs ++ [player_event.sync_write packet]) = visited evs := by
  simp [visited, List.filterMap_append]

theorem visited_append_visit (evs : List player_event) (slot : Nat) :
    visited (evs ++ [player_event.visit slot]) = visited evs ++ [slot] := by
  simp [visited, List.filterMap_append]

/-- One worker step of a paused player on its way out of a pass: the state
stays Paused, the worker gets closer to the delay after `sequence_end`, and the
only slot it can still record is the one whose look-up was in progress.  A step
that reads `player_state` leaves the pass; a step that does not stays on the
way. -/
theorem paused_step (env : Env) (c : Player)
    (hp : c.w.player_state = player_state_t.PLAYER_PAUSED)
    (h1 : 1 ≤ abandon_rank c.pc) (h2 : abandon_rank c.pc ≤ 11) :
    (task_step env c).w.player_state = player_state_t.PLAYER_PAUSED
    ∧ abandon_rank (task_step env c).pc < abandon_rank c.pc
    ∧ visited (task_step env c).events
        = visited c.events ++ (if c.pc = task_pc.slot_exists then [c.slot] else [])
    ∧ (reads_state c.pc = false → 1 ≤ abandon_rank (task_step env c).pc)
    ∧ (reads_state c.pc = true →
        (task_step env c).pc = task_pc.sequence_end ∨ polling (task_step env c).pc = true) := by
  obtain ⟨w, pc, slot, pos, mt, evs, it, cl⟩ := c
  simp only at hp
  cases pc
  case slot_exists =>
    obtain ⟨ops, hw⟩ := slot_exists_world env w slot
    simp only [task_step, hw]
    split <;> simp [abandon_rank, hp, visited_append_visit, reads_state]
  case load =>
    obtain ⟨ops, hw⟩ := load_world env w slot
    simp only [task_step]
    split
    next w1 p heq =>
      rw [heq] at hw
      simp only at hw
      subst hw
      simp [abandon_rank, hp, reads_state]
    next w1 r o _ heq =>
      rw [heq] at hw
      simp only at hw
      subst hw
      simp [abandon_rank, hp, reads_state]
  case send =>
    simp only [task_step, sync_write_world]
    simp [abandon_rank, hp, visited_append_sync_write, reads_state]
  all_goals
    simp only [task_step]
    (try split) <;>
      simp_all [abandon_rank, visited_append_delay, reads_state, polling]

theorem paused_poll_step (env : Env) (c : Player)
    (hp : c.w.player_state = player_state_t.PLAYER_PAUSED)
    (hpoll : c.pc = task_pc.sequence_end ∨ polling c.pc = true) :
    (task_step env c).w.player_state = player_state_t.PLAYER_PAUSED
    ∧ polling (task_step env c).pc = true
    ∧ visited (task_step env c).events = visited c.events := by
  obtain ⟨w, pc, slot, pos, mt, evs, it, cl⟩ := c
  simp only at hp
  cases pc <;> simp [polling] at hpoll <;>
    simp only [task_step] <;> (try split) <;>
    simp_all [polling, visited_append_delay]

/-- A paused worker that has left the pass polls: it stays Paused, outside the
pass, and visits nothing. -/
theorem paused_polls (env : Env) :
    ∀ (m : Nat) (c : Player), c.w.player_state = player_state_t.PLAYER_PAUSED →
      c.caller = none → (c.pc = task_pc.sequence_end ∨ polling c.pc = true) →
      (task_run env c m).w.player_state = player_state_t.PLAYER_PAUSED
      ∧ ((task_run env c m).pc = task_pc.sequence_end ∨ polling (task_run env c m).pc = true)
      ∧ visited (task_run env c m).events = visited c.events := by
  intro m
  induction m with
  | zero => intro c hp _ hpoll; exact ⟨hp, hpoll, rfl⟩
  | succ m ih =>
    intro c hp hfree hpoll
    obtain ⟨s1, s2, s5⟩ := paused_poll_step env c hp hpoll
    obtain ⟨k1, k2, k5⟩ :=
      ih (task_step env c) s1 ((task_step_caller env c).trans hfree) (Or.inr s2)
    rw [task_run_succ_free env c m hfree]
    exact ⟨k1, k2, k5.trans s5⟩

/-- A paused worker on its way out of a pass, past the look-up of the slot:
once one of its steps has read `player_state` it is outside the pass, at
`sequence_end` or polling; all along the state stays Paused and no slot is
visited. -/
theorem paused_abandons (env : Env) :
    ∀ (j : Nat) (c : Player), c.w.player_state = player_state_t.PLAYER_PAUSED →
      c.caller = none → 1 ≤ abandon_rank c.pc → abandon_rank c.pc ≤ 10 →
      (task_run env c j).w.player_state = player_state_t.PLAYER_PAUSED
      ∧ visited (task_run env c j).events = visited c.events
      ∧ (unseen env c j = true → j < abandon_rank c.pc)
      ∧ (unseen env c j = false →
          (task_run env c j).pc = task_pc.sequence_end
          ∨ polling (task_run env c j).pc = true) := by
  intro j
  induction j with
  | zero =>
    intro c hp _ h1 _
    exact ⟨hp, rfl, fun _ => h1, fun h => by simp [unseen] at h⟩
  | succ j ih =>
    intro c hp hfree h1 h2
    obtain ⟨s1, s2, s3, s4, s5⟩ := paused_step env c hp h1 (by omega)
    have hcl : (task_step env c).caller = none := (task_step_caller env c).trans hfree
    have hne : c.pc ≠ task_pc.slot_exists := by
      intro h
      rw [h] at h2
      simp [abandon_rank] at h2
    rw [if_neg hne, List.append_nil] at s3
    rw [task_run_succ_free env c j hfree]
    cases hr : reads_state c.pc with
    | true =>
      obtain ⟨k1, k2, k3⟩ := paused_polls env j (task_step env c) s1 hcl (s5 hr)
      exact ⟨k1, k3.trans s3, fun h => by simp [unseen, hr] at h, fun _ => k2⟩
    | false =>
      obtain ⟨k1, k2, k3, k4⟩ := ih (task_step env c) s1 hcl (s4 hr) (by omega)
      refine ⟨k1, k2.trans s3, fun h => ?_, fun h => ?_⟩
      · have h' : unseen env (task_step env c) j = true := by simpa [unseen, hr] using h
        have := k3 h'
        omega
      · have h' : unseen env (task_step env c) j = false := by simpa [unseen, hr] using h
        exact k4 h'

/-- The same from any point at which a slot is being played: the look-up of the
slot, if it is still to come, records the visit of that slot. -/
theorem playing_abandons (env : Env) (j : Nat) (c : Player)
    (hp : c.w.player_state = player_state_t.PLAYER_PAUSED) (hfree : c.caller = none)
    (hplay : playing c.pc = true) :
    (task_run env c j).w.player_state = player_state_t.PLAYER_PAUSED
    ∧ (1 ≤ j → visited (task_run env c j).events
        = visited c.events ++ (if c.pc = task_pc.slot_exists then [c.slot] else []))
    ∧ (unseen env c j = true → j < 11)
    ∧ (unseen env c j = false →
        (task_run env c j).pc = task_pc.sequence_end
        ∨ polling (task_run env c j).pc = true) := by
  have hr : 1 ≤ abandon_rank c.pc ∧ abandon_rank c.pc ≤ 11 ∧ reads_state c.pc = false := by
    cases hpc : c.pc <;> simp [hpc, playing, abandon_rank, reads_state] at hplay ⊢
  cases j with
  | zero =>
    exact ⟨hp, fun h => absurd h (by omega), fun _ => by omega, fun h => by simp [unseen] at h⟩
  | succ j =>
    obtain ⟨s1, s2, s3, s4, _⟩ := paused_step env c hp hr.1 hr.2.1
    have hcl : (task_step env c).caller = none := (task_step_caller env c).trans hfree
    obtain ⟨k1, k2, k3, k4⟩ :=
      paused_abandons env j (task_step env c) s1 hcl (s4 hr.2.2) (by omega)
    rw [task_run_succ_free env c j hfree]
    refine ⟨k1, fun _ => k2.trans s3, fun h => ?_, fun h => ?_⟩
    · have h' : unseen env (task_step env c) j = true := by simpa [unseen, hr.2.2] using h
      have := k3 h'
      omega
    · have h' : unseen env (task_step env c) j = false := by simpa [unseen, hr.2.2] using h
      exact k4 h'

theorem task_step_slot_exists (env : Env) (c : Player) (h : c.pc = task_pc.slot_exists) :
    (task_step env c).events = c.events ++ [player_event.visit c.slot]
    ∧ (task_step env c).slot = c.slot := by
  obtain ⟨w, pc, slot, pos, mt, evs, it, cl⟩ := c
  simp only at h
  subst h
  simp only [task_step]
  split <;> exact ⟨rfl, rfl⟩

theorem slot_exists_state (env : Env) (w : World) (slot : Nat) (st : player_state_t) :
    position_storage_slot_exists env { w with player_state := st } slot
      = ({ (position_storage_slot_exists env w slot).1 with player_state := st },
          (position_storage_slot_exists env w slot).2) := by
  unfold position_storage_slot_exists nvs_call
  split <;> rfl

theorem load_state (env : Env) (w : World) (slot : Nat) (st : player_state_t) :
    position_storage_load env { w with player_state := st } slot
      = ({ (position_storage_load env w slot).1 with player_state := st },
          (position_storage_load env w slot).2) := by
  unfold position_storage_load nvs_call
  split
  · rfl
  · simp only []
    split
    · rfl
    · split <;> rfl

/-- A worker step that does not read `player_state` neither depends on it nor
changes it. -/
theorem task_step_state (env : Env) (c : Player) (st : player_state_t)
    (h : reads_state c.pc = false) :
    task_step env { c with w := { c.w with player_state := st } }
      = { task_step env c with w := { (task_step env c).w with player_state := st } } := by
  obtain ⟨w, pc, slot, pos, mt, evs, it, cl⟩ := c
  cases pc <;> simp [reads_state] at h
  case slot_exists =>
    simp only [task_step, slot_exists_state]
    split <;> rfl
  case load =>
    simp only [task_step, load_state]
    generalize position_storage_load env w slot = r
    obtain ⟨w1, r1, o1⟩ := r
    cases r1 <;> cases o1 <;> rfl
  case send =>
    simp only [task_step, sync_write_world]
  all_goals
    simp only [task_step]
    try (split <;> rfl)

/-- As long as no step of the worker reads `player_state`, the run does not
depend on it: with another state in its place the worker does the same. -/
theorem unseen_run (env : Env) (st : player_state_t) :
    ∀ (j : Nat) (c : Player), c.caller = none → unseen env c j = true →
      task_run env { c with w := { c.w with player_state := st } } j
        = { task_run env c j with w := { (task_run env c j).w with player_state := st } } := by
  intro j
  induction j with
  | zero => intro c _ _; rfl
  | succ j ih =>
    intro c hfree hu
    have hr : reads_state c.pc = false := by
      cases h : reads_state c.pc with
      | false => rfl
      | true => simp [unseen, h] at hu
    have hu' : unseen env (task_step env c) j = true := by simpa [unseen, hr] using hu
    rw [task_run_succ_free env c j hfree,
      task_run_succ_free env { c with w := { c.w with player_state := st } } j hfree,
      task_step_state env c st hr]
    exact ih (task_step env c) ((task_step_caller env c).trans hfree) hu'

/-- A pause() that no step of the worker has read is undone by resume(): the
execution is the one without the pause. -/
theorem unseen_pause (env : Env) (c : Player) (j : Nat)
    (hrun : c.w.player_state = player_state_t.PLAYER_RUNNING) (hfree : c.caller = none)
    (hu : unseen env (player_step env c player_action.pause) j = true) :
    player_step env (task_run env (player_step env c player_action.pause) j)
      player_action.resume = task_run env c j := by
  obtain ⟨w, pc, slot, pos, mt, evs, it, cl⟩ := c
  obtain ⟨bus, reads, nops, store, st, s, e, l, peer, notes⟩ := w
  simp only at hrun hfree
  subst hrun hfree
  have hp : player_step env
      ⟨⟨bus, reads, nops, store, player_state_t.PLAYER_RUNNING, s, e, l, peer, notes⟩,
        pc, slot, pos, mt, evs, it, none⟩ player_action.pause
      = ⟨⟨bus, reads, nops, store, player_state_t.PLAYER_PAUSED, s, e, l, peer, notes⟩,
        pc, slot, pos, mt, evs, it, none⟩ := by
    simp [player_step, sequence_player_pause]
  rw [hp] at hu ⊢
  have h1 := unseen_run env player_state_t.PLAYER_RUNNING j
    ⟨⟨bus, reads, nops, store, player_state_t.PLAYER_PAUSED, s, e, l, peer, notes⟩,
      pc, slot, pos, mt, evs, it, none⟩ rfl hu
  have h2 := unseen_run env player_state_t.PLAYER_PAUSED j
    ⟨⟨bus, reads, nops, store, player_state_t.PLAYER_PAUSED, s, e, l, peer, notes⟩,
      pc, slot, pos, mt, evs, it, none⟩ rfl hu
  simp only at h1 h2
  rw [h1]
  have hcl := task_run_caller env j
    ⟨⟨bus, reads, nops, store, player_state_t.PLAYER_PAUSED, s, e, l, peer, notes⟩,
      pc, slot, pos, mt, evs, it, none⟩ rfl
  generalize task_run env
    ⟨⟨bus, reads, nops, store, player_state_t.PLAYER_PAUSED, s, e, l, peer, notes⟩,
      pc, slot, pos, mt, evs, it, none⟩ j = d at h2 hcl ⊢
  obtain ⟨w', pc', slot', pos', mt', evs', it', cl'⟩ := d
  obtain ⟨bus', reads', nops', store', st', s', e', l', peer', notes'⟩ := w'
  simp only at hcl
  subst hcl
  simp only [Player.mk.injEq, World.mk.injEq, true_and, and_true] at h2
  subst h2
  simp [player_step, sequence_player_resume]

/-- After resume() a paused worker that polls outside a pass starts a pass:
the next slot it visits is the stored start slot. -/
theorem resume_restarts (env : Env) (c : Player)
    (hp : c.w.player_state = player_state_t.PLAYER_PAUSED) (hfree : c.caller = none)
    (hpoll : polling c.pc = true ∨ (c.pc = task_pc.sequence_end ∧ c.w.current_loop = true))
    (hrange : c.w.current_start_slot ≤ c.w.current_end_slot) :
    ∃ n, n ≤ 7
      ∧ visited (task_run env (player_step env c player_action.resume) n).events
          = visited c.events ++ [c.w.current_start_slot]
      ∧ (task_run env (player_step env c player_action.resume) n).slot
          = c.w.current_start_slot := by
  obtain ⟨w, pc, slot, pos, mt, evs, it, cl⟩ := c
  obtain ⟨bus, reads, nops, store, st, s, e, l, peer, notes⟩ := w
  simp only at hp hrange hfree
  subst hp hfree
  have hvisit : ∀ (evs2 : List player_event) (it2 : Nat),
      visited evs2 = visited evs →
      visited (task_run env
          ⟨⟨bus, reads, nops, store, player_state_t.PLAYER_RUNNING, s, e, l, peer, notes⟩,
            task_pc.slot_exists, s, pos, mt, evs2, it2, none⟩ 1).events = visited evs ++ [s]
      ∧ (task_run env
          ⟨⟨bus, reads, nops, store, player_state_t.PLAYER_RUNNING, s, e, l, peer, notes⟩,
            task_pc.slot_exists, s, pos, mt, evs2, it2, none⟩ 1).slot = s := by
    intro evs2 it2 hv
    rw [task_run_succ_free env _ 0 rfl, task_run_zero]
    obtain ⟨e1, e2⟩ := task_step_slot_exists env
      ⟨⟨bus, reads, nops, store, player_state_t.PLAYER_RUNNING, s, e, l, peer, notes⟩,
        task_pc.slot_exists, s, pos, mt, evs2, it2, none⟩ rfl
    rw [e1, e2, visited_append_visit, hv]
    exact ⟨rfl, rfl⟩
  rcases hpoll with hpoll | ⟨hpc, hl⟩
  · cases pc <;> simp [polling] at hpoll
    case idle_check =>
      refine ⟨4 + 1, by omega, ?_⟩
      rw [task_run_add]
      have h4 : task_run env (player_step env
          ⟨⟨bus, reads, nops, store, player_state_t.PLAYER_PAUSED, s, e, l, peer, notes⟩,
            task_pc.idle_check, slot, pos, mt, evs, it, none⟩ player_action.resume) 4
          = ⟨⟨bus, reads, nops, store, player_state_t.PLAYER_RUNNING, s, e, l, peer, notes⟩,
              task_pc.slot_exists, s, pos, mt, evs, 0 + 1, none⟩ := by
        simp [task_run_succ, task_run_zero, task_step, player_step, sequence_player_resume,
          hrange, takes_mutex]
      rw [h4]
      exact hvisit _ _ rfl
    case idle_delay =>
      refine ⟨5 + 1, by omega, ?_⟩
      rw [task_run_add]
      have h5 : task_run env (player_step env
          ⟨⟨bus, reads, nops, store, player_state_t.PLAYER_PAUSED, s, e, l, peer, notes⟩,
            task_pc.idle_delay, slot, pos, mt, evs, it, none⟩ player_action.resume) 5
          = ⟨⟨bus, reads, nops, store, player_state_t.PLAYER_RUNNING, s, e, l, peer, notes⟩,
              task_pc.slot_exists, s, pos, mt, evs ++ [player_event.delay 100], 0 + 1, none⟩ := by
        simp [task_run_succ, task_run_zero, task_step, player_step, sequence_player_resume,
          hrange, takes_mutex]
      rw [h5]
      exact hvisit _ _ (visited_append_delay _ _)
    case end_delay =>
      refine ⟨5 + 1, by omega, ?_⟩
      rw [task_run_add]
      have h5 : task_run env (player_step env
          ⟨⟨bus, reads, nops, store, player_state_t.PLAYER_PAUSED, s, e, l, peer, notes⟩,
            task_pc.end_delay, slot, pos, mt, evs, it, none⟩ player_action.resume) 5
          = ⟨⟨bus, reads, nops, store, player_state_t.PLAYER_RUNNING, s, e, l, peer, notes⟩,
              task_pc.slot_exists, s, pos, mt, evs ++ [player_event.delay 100], 0 + 1, none⟩ := by
        simp [task_run_succ, task_run_zero, task_step, player_step, sequence_player_resume,
          hrange, takes_mutex]
      rw [h5]
      exact hvisit _ _ (visited_append_delay _ _)
  · simp only at hpc hl
    subst hpc hl
    refine ⟨6 + 1, by omega, ?_⟩
    rw [task_run_add]
    have h6 : task_run env (player_step env
        ⟨⟨bus, reads, nops, store, player_state_t.PLAYER_PAUSED, s, e, true, peer, notes⟩,
          task_pc.sequence_end, slot, pos, mt, evs, it, none⟩ player_action.resume) 6
        = ⟨⟨bus, reads, nops, store, player_state_t.PLAYER_RUNNING, s, e, true, peer, notes⟩,
            task_pc.slot_exists, s, pos, mt, evs ++ [player_event.delay 100], 0 + 1, none⟩ := by
      simp [task_run_succ, task_run_zero, task_step, player_step, sequence_player_resume,
        hrange, takes_mutex]
    rw [h6]
    exact hvisit _ _ (visited_append_delay _ _)

/-- A resume() that reaches a non-looping player between the stop check that saw
the pause and the critical section after `sequence_end`: the worker finds the
state Running with the loop flag clear and makes the player Idle; from then on
it visits nothing and writes nothing. -/
theorem resume_lost (env : Env) (c : Player) (m : Nat)
    (hp : c.w.player_state = player_state_t.PLAYER_PAUSED) (hfree : c.caller = none)
    (hpc : c.pc = task_pc.sequence_end) (hloop : c.w.current_loop = false) :
    (player_step env c player_action.resume).w.player_state = player_state_t.PLAYER_RUNNING
    ∧ (task_run env (player_step env c player_action.resume) (1 + m)).w.player_state
        = player_state_t.PLAYER_IDLE
    ∧ visited (task_run env (player_step env c player_action.resume) (1 + m)).events
        = visited c.events
    ∧ (task_run env (player_step env c player_action.resume) (1 + m)).w.bus = c.w.bus := by
  obtain ⟨w, pc, slot, pos, mt, evs, it, cl⟩ := c
  obtain ⟨bus, reads, nops, store, st, s, e, l, peer, notes⟩ := w
  simp only at hp hfree hpc hloop
  subst hp hfree hpc hloop
  have h1 : task_run env (player_step env
      ⟨⟨bus, reads, nops, store, player_state_t.PLAYER_PAUSED, s, e, false, peer, notes⟩,
        task_pc.sequence_end, slot, pos, mt, evs, it, none⟩ player_action.resume) 1
      = ⟨⟨bus, reads, nops, store, player_state_t.PLAYER_IDLE, s, e, false, peer, notes⟩,
          task_pc.end_delay, slot, pos, mt, evs, it, none⟩ := by
    simp [task_run_succ, task_run_zero, task_step, player_step, sequence_player_resume,
      takes_mutex]
  refine ⟨by simp [player_step, sequence_player_resume], ?_⟩
  rw [task_run_add, h1]
  obtain ⟨k1, _, k3, ws, k4⟩ := quiet_run env (List.replicate m player_action.worker)
    ⟨⟨bus, reads, nops, store, player_state_t.PLAYER_IDLE, s, e, false, peer, notes⟩,
      task_pc.end_delay, slot, pos, mt, evs, it, none⟩
    rfl rfl rfl (fun a ha => Or.inl (List.eq_of_mem_replicate ha))
  refine ⟨k1, ?_, k3⟩
  show visited (player_run env _ (List.replicate m player_action.worker)).events = _
  rw [k4, visited_append_delays]

/-- C21 fails as stated: start(0, 3, false), the worker is in the motion wait
of slot 0, then pause().  If resume() follows before the worker's next step, the
worker never sees the Paused state: it does not abandon the pass, and the first
slot it visits after the resume is slot 1 (k + 1), in the same pass, not the
start slot 0.  If resume() follows after six worker steps, the worker has seen
the pause at the stop check and is at `sequence_end`: it finds the state
Running with the loop flag clear, makes the player Idle, and visits no slot at
all after the resume. -/
theorem C21_resume_does_not_restart :
    (example_in_slot_0.pc = task_pc.move_wait ∧ example_in_slot_0.slot = 0
      ∧ example_in_slot_0.w.player_state = player_state_t.PLAYER_RUNNING
      ∧ example_in_slot_0.w.current_start_slot = 0
      ∧ example_in_slot_0.w.current_loop = false
      ∧ visited example_in_slot_0.events = [0]
      ∧ example_in_slot_0.pass_iters = 1)
    ∧ (player_step Env.silent example_in_slot_0 player_action.pause).w.player_state
        = player_state_t.PLAYER_PAUSED
    ∧ visited (player_run Env.silent example_in_slot_0
          (player_action.pause :: player_action.resume
            :: List.replicate 8 player_action.worker)).events = [0, 1]
    ∧ (player_run Env.silent example_in_slot_0
          (player_action.pause :: player_action.resume
            :: List.replicate 8 player_action.worker)).pass_iters = 2
    ∧ (player_run Env.silent example_in_slot_0
          (player_action.pause :: player_action.resume
            :: List.replicate 8 player_action.worker)).w.player_state
        = player_state_t.PLAYER_RUNNING
    ∧ (player_run Env.silent example_in_slot_0
          (player_action.pause :: List.replicate 6 player_action.worker)).pc
        = task_pc.sequence_end
    ∧ (player_run Env.silent example_in_slot_0
          (player_action.pause :: List.replicate 6 player_action.worker)).w.player_state
        = player_state_t.PLAYER_PAUSED
    ∧ (player_run Env.silent example_in_slot_0
          (player_action.pause :: (List.replicate 6 player_action.worker
            ++ [player_action.resume]))).w.player_state
        = player_state_t.PLAYER_RUNNING
    ∧ (player_run Env.silent example_in_slot_0
          (player_action.pause :: (List.replicate 6 player_action.worker
            ++ player_action.resume :: List.replicate 40 player_action.worker))).w.player_state
        = player_state_t.PLAYER_IDLE
    ∧ visited (player_run Env.silent example_in_slot_0
          (player_action.pause :: (List.replicate 6 player_action.worker
            ++ player_action.resume :: List.replicate 40 player_action.worker))).events
        = [0] := by
  decide

/-- C21 amended: let pause() be issued while slot k is being played (state
Running, no call of start in progress) and resume() after j steps of the
worker, with no other call in between.  Within 11 steps one step of the worker
reads `player_state`.  If resume() comes before that step, the pause is undone
unseen: the execution is the one without the pause, so the pass goes on.  If it
comes after, the worker has abandoned the pass at the next slot boundary: the
state is still Paused, no slot but k has been visited, and the worker is at
`sequence_end` or polls.  Then the first slot visited after the resume is the
stored start slot, the slot counter reset to it, except when the worker is
still at `sequence_end` and the loop flag is clear: then the resume makes the
state Running, the worker turns the player Idle, and nothing is visited or
written any more. -/
theorem C21_resume_restarts_pass (env : Env) (c : Player) (j : Nat)
    (hplay : playing c.pc = true)
    (hrun : c.w.player_state = player_state_t.PLAYER_RUNNING) (hfree : c.caller = none)
    (hrange : c.w.current_start_slot ≤ c.w.current_end_slot) :
    (11 ≤ j → unseen env (player_step env c player_action.pause) j = false)
    ∧ (unseen env (player_step env c player_action.pause) j = true →
        player_step env (task_run env (player_step env c player_action.pause) j) player_action.resume = task_run env c j)
    ∧ (unseen env (player_step env c player_action.pause) j = false →
        (task_run env (player_step env c player_action.pause) j).w.player_state = player_state_t.PLAYER_PAUSED
        ∧ ((task_run env (player_step env c player_action.pause) j).pc = task_pc.sequence_end
            ∨ polling (task_run env (player_step env c player_action.pause) j).pc = true)
        ∧ visited (task_run env (player_step env c player_action.pause) j).events
            = visited c.events ++ (if c.pc = task_pc.slot_exists then [c.slot] else [])
        ∧ (if (task_run env (player_step env c player_action.pause) j).pc = task_pc.sequence_end ∧ c.w.current_loop = false then
            (player_step env (task_run env (player_step env c player_action.pause) j) player_action.resume).w.player_state
                = player_state_t.PLAYER_RUNNING
            ∧ ∀ m,
              (task_run env (player_step env (task_run env (player_step env c player_action.pause) j) player_action.resume)
                  (1 + m)).w.player_state = player_state_t.PLAYER_IDLE
              ∧ visited (task_run env
                    (player_step env (task_run env (player_step env c player_action.pause) j) player_action.resume)
                    (1 + m)).events
                  = visited (task_run env (player_step env c player_action.pause) j).events
              ∧ (task_run env (player_step env (task_run env (player_step env c player_action.pause) j) player_action.resume)
                  (1 + m)).w.bus = (task_run env (player_step env c player_action.pause) j).w.bus
          else
            ∃ n, n ≤ 7
              ∧ visited (task_run env
                    (player_step env (task_run env (player_step env c player_action.pause) j) player_action.resume) n).events
                  = visited (task_run env (player_step env c player_action.pause) j).events ++ [c.w.current_start_slot]
              ∧ (task_run env
                    (player_step env (task_run env (player_step env c player_action.pause) j) player_action.resume) n).slot
                  = c.w.current_start_slot)) := by
  have hpause : player_step env c player_action.pause
      = { c with w := { c.w with player_state := player_state_t.PLAYER_PAUSED } } := by
    simp [player_step, sequence_player_pause, hrun, hfree]
  have hp : (player_step env c player_action.pause).w.player_state
      = player_state_t.PLAYER_PAUSED := by rw [hpause]
  have hcl : (player_step env c player_action.pause).caller = none := by rw [hpause]; exact hfree
  have hpl : playing (player_step env c player_action.pause).pc = true := by
    rw [hpause]; exact hplay
  obtain ⟨a1, a2, a3, a4⟩ :=
    playing_abandons env j (player_step env c player_action.pause) hp hcl hpl
  obtain ⟨f1, f2, f3, _⟩ := task_run_frame env j (player_step env c player_action.pause) hcl
  have hcl2 := task_run_caller env j (player_step env c player_action.pause) hcl
  have e1 : (player_step env c player_action.pause).w.current_start_slot
      = c.w.current_start_slot := by rw [hpause]
  have e2 : (player_step env c player_action.pause).w.current_end_slot
      = c.w.current_end_slot := by rw [hpause]
  have e3 : (player_step env c player_action.pause).w.current_loop = c.w.current_loop := by
    rw [hpause]
  have e4 : (player_step env c player_action.pause).events = c.events := by rw [hpause]
  have e5 : (player_step env c player_action.pause).pc = c.pc := by rw [hpause]
  have e6 : (player_step env c player_action.pause).slot = c.slot := by rw [hpause]
  refine ⟨fun hj => ?_, fun hu => unseen_pause env c j hrun hfree hu, fun hs => ?_⟩
  · cases hu : unseen env (player_step env c player_action.pause) j with
    | false => rfl
    | true =>
      have := a3 hu
      omega
  · have hj : 1 ≤ j := by
      cases j with
      | zero => simp [unseen] at hs
      | succ j => omega
    have hv := a2 hj
    rw [e4, e5, e6] at hv
    refine ⟨a1, a4 hs, hv, ?_⟩
    split
    · next hcond =>
      obtain ⟨r1, r2⟩ : (player_step env (task_run env (player_step env c player_action.pause) j)
            player_action.resume).w.player_state = player_state_t.PLAYER_RUNNING
          ∧ ∀ m, _ :=
        ⟨(resume_lost env _ 0 a1 hcl2 hcond.1 (by rw [f3, e3]; exact hcond.2)).1,
          fun m => (resume_lost env _ m a1 hcl2 hcond.1 (by rw [f3, e3]; exact hcond.2)).2⟩
      exact ⟨r1, r2⟩
    · next hcond =>
      have hpoll : polling (task_run env (player_step env c player_action.pause) j).pc = true
          ∨ ((task_run env (player_step env c player_action.pause) j).pc = task_pc.sequence_end
            ∧ (task_run env (player_step env c player_action.pause) j).w.current_loop = true) := by
        rcases a4 hs with h | h
        · right
          refine ⟨h, ?_⟩
          rw [f3, e3]
          cases hl : c.w.current_loop with
          | true => rfl
          | false => exact absurd ⟨h, hl⟩ hcond
        · left; exact h
      obtain ⟨n, hn, k1, k2⟩ := resume_restarts env _ a1 hcl2 hpoll
        (by rw [f1, f2, e1, e2]; exact hrange)
      rw [f1, e1] at k1 k2
      exact ⟨n, hn, k1, k2⟩

/-- C21 amended, at pause() issued in the motion wait of slot 0 of
start(0, 3, false): a resume() after five worker steps finds the pause unseen
(the worker is about to make the stop check) and the execution is the one
without the pause; after six steps the worker is at `sequence_end` and the
resume ends in Idle with nothing visited; after twenty steps the worker polls
and the resume restarts the pass at slot 0.  With start(0, 1, true) instead, a
resume() after six steps also finds the worker at `sequence_end`, and the
looping player restarts the pass at slot 0. -/
theorem C21_resume_restarts_pass_witness :
    ((playing example_in_slot_0.pc = true
        ∧ example_in_slot_0.w.player_state = player_state_t.PLAYER_RUNNING
        ∧ example_in_slot_0.caller = none
        ∧ example_in_slot_0.w.current_start_slot ≤ example_in_slot_0.w.current_end_slot)
      ∧ (playing example_looping_in_slot_0.pc = true
        ∧ example_looping_in_slot_0.w.player_state = player_state_t.PLAYER_RUNNING
        ∧ example_looping_in_slot_0.caller = none
        ∧ example_looping_in_slot_0.w.current_start_slot
            ≤ example_looping_in_slot_0.w.current_end_slot))
    ∧ (unseen Env.silent (player_step Env.silent example_in_slot_0 player_action.pause) 5 = true
      ∧ (task_run Env.silent (player_step Env.silent example_in_slot_0 player_action.pause) 5).pc
          = task_pc.stop_check
      ∧ unseen Env.silent (player_step Env.silent example_in_slot_0 player_action.pause) 6 = false
      ∧ (task_run Env.silent (player_step Env.silent example_in_slot_0 player_action.pause) 6).pc
          = task_pc.sequence_end
      ∧ example_in_slot_0.w.current_loop = false
      ∧ unseen Env.silent (player_step Env.silent example_in_slot_0 player_action.pause) 20 = false
      ∧ polling
          (task_run Env.silent (player_step Env.silent example_in_slot_0 player_action.pause) 20).pc
          = true
      ∧ visited example_in_slot_0.events = [0]
      ∧ example_in_slot_0.w.current_start_slot = 0
      ∧ unseen Env.silent (player_step Env.silent example_looping_in_slot_0 player_action.pause) 6
          = false
      ∧ (task_run Env.silent
            (player_step Env.silent example_looping_in_slot_0 player_action.pause) 6).pc
          = task_pc.sequence_end
      ∧ example_looping_in_slot_0.w.current_loop = true
      ∧ example_looping_in_slot_0.w.current_start_slot = 0)
    ∧ ((11 ≤ 5 → unseen Env.silent (player_step Env.silent example_in_slot_0 player_action.pause) 5 = false)
    ∧ (unseen Env.silent (player_step Env.silent example_in_slot_0 player_action.pause) 5 = true →
        player_step Env.silent (task_run Env.silent (player_step Env.silent example_in_slot_0 player_action.pause) 5) player_action.resume = task_run Env.silent example_in_slot_0 5)
    ∧ (unseen Env.silent (player_step Env.silent example_in_slot_0 player_action.pause) 5 = false →
        (task_run Env.silent (player_step Env.silent example_in_slot_0 player_action.pause) 5).w.player_state = player_state_t.PLAYER_PAUSED
        ∧ ((task_run Env.silent (player_step Env.silent example_in_slot_0 player_action.pause) 5).pc = task_pc.sequence_end
            ∨ polling (task_run Env.silent (player_step Env.silent example_in_slot_0 player_action.pause) 5).pc = true)
        ∧ visited (task_run Env.silent (player_step Env.silent example_in_slot_0 player_action.pause) 5).events
            = visited example_in_slot_0.events ++ (if example_in_slot_0.pc = task_pc.slot_exists then [example_in_slot_0.slot] else [])
        ∧ (if (task_run Env.silent (player_step Env.silent example_in_slot_0 player_action.pause) 5).pc = task_pc.sequence_end ∧ example_in_slot_0.w.current_loop = false then
            (player_step Env.silent (task_run Env.silent (player_step Env.silent example_in_slot_0 player_action.pause) 5) player_action.resume).w.player_state
                = player_state_t.PLAYER_RUNNING
            ∧ ∀ m,
              (task_run Env.silent (player_step Env.silent (task_run Env.silent (player_step Env.silent example_in_slot_0 player_action.pause) 5) player_action.resume)
                  (1 + m)).w.player_state = player_state_t.PLAYER_IDLE
              ∧ visited (task_run Env.silent
                    (player_step Env.silent (task_run Env.silent (player_step Env.silent example_in_slot_0 player_action.pause) 5) player_action.resume)
                    (1 + m)).events
                  = visited (task_run Env.silent (player_step Env.silent example_in_slot_0 player_action.pause) 5).events
              ∧ (task_run Env.silent (player_step Env.silent (task_run Env.silent (player_step Env.silent example_in_slot_0 player_action.pause) 5) player_action.resume)
                  (1 + m)).w.bus = (task_run Env.silent (player_step Env.silent example_in_slot_0 player_action.pause) 5).w.bus
          else
            ∃ n, n ≤ 7
              ∧ visited (task_run Env.silent
                    (player_step Env.silent (task_run Env.silent (player_step Env.silent example_in_slot_0 player_action.pause) 5) player_action.resume) n).events
                  = visited (task_run Env.silent (player_step Env.silent example_in_slot_0 player_action.pause) 5).events ++ [example_in_slot_0.w.current_start_slot]
              ∧ (task_run Env.silent
                    (player_step Env.silent (task_run Env.silent (player_step Env.silent example_in_slot_0 player_action.pause) 5) player_action.resume) n).slot
                  = example_in_slot_0.w.current_start_slot)))
    ∧ ((11 ≤ 6 → unseen Env.silent (player_step Env.silent example_in_slot_0 player_action.pause) 6 = false)
    ∧ (unseen Env.silent (player_step Env.silent example_in_slot_0 player_action.pause) 6 = true →
        player_step Env.silent (task_run Env.silent (player_step Env.silent example_in_slot_0 player_action.pause) 6) player_action.resume = task_run Env.silent example_in_slot_0 6)
    ∧ (unseen Env.silent (player_step Env.silent example_in_slot_0 player_action.pause) 6 = false →
        (task_run Env.silent (player_step Env.silent example_in_slot_0 player_action.pause) 6).w.player_state = player_state_t.PLAYER_PAUSED
        ∧ ((task_run Env.silent (player_step Env.silent example_in_slot_0 player_action.pause) 6).pc = task_pc.sequence_end
            ∨ polling (task_run Env.silent (player_step Env.silent example_in_slot_0 player_action.pause) 6).pc = true)
        ∧ visited (task_run Env.silent (player_step Env.silent example_in_slot_0 player_action.pause) 6).events
            = visited example_in_slot_0.events ++ (if example_in_slot_0.pc = task_pc.slot_exists then [example_in_slot_0.slot] else [])
        ∧ (if (task_run Env.silent (player_step Env.silent example_in_slot_0 player_action.pause) 6).pc = task_pc.sequence_end ∧ example_in_slot_0.w.current_loop = false then
            (player_step Env.silent (task_run Env.silent (player_step Env.silent example_in_slot_0 player_action.pause) 6) player_action.resume).w.player_state
                = player_state_t.PLAYER_RUNNING
            ∧ ∀ m,
              (task_run Env.silent (player_step Env.silent (task_run Env.silent (player_step Env.silent example_in_slot_0 player_action.pause) 6) player_action.resume)
                  (1 + m)).w.player_state = player_state_t.PLAYER_IDLE
              ∧ visited (task_run Env.silent
                    (player_step Env.silent (task_run Env.silent (player_step Env.silent example_in_slot_0 player_action.pause) 6) player_action.resume)
                    (1 + m)).events
                  = visited (task_run Env.silent (player_step Env.silent example_in_slot_0 player_action.pause) 6).events
              ∧ (task_run Env.silent (player_step Env.silent (task_run Env.silent (player_step Env.silent example_in_slot_0 player_action.pause) 6) player_action.resume)
                  (1 + m)).w.bus = (task_run Env.silent (player_step Env.silent example_in_slot_0 player_action.pause) 6).w.bus
          else
            ∃ n, n ≤ 7
              ∧ visited (task_run Env.silent
                    (player_step Env.silent (task_run Env.silent (player_step Env.silent example_in_slot_0 player_action.pause) 6) player_action.resume) n).events
                  = visited (task_run Env.silent (player_step Env.silent example_in_slot_0 player_action.pause) 6).events ++ [example_in_slot_0.w.current_start_slot]
              ∧ (task_run Env.silent
                    (player_step Env.silent (task_run Env.silent (player_step Env.silent example_in_slot_0 player_action.pause) 6) player_action.resume) n).slot
                  = example_in_slot_0.w.current_start_slot)))
    ∧ ((11 ≤ 20 → unseen Env.silent (player_step Env.silent example_in_slot_0 player_action.pause) 20 = false)
    ∧ (unseen Env.silent (player_step Env.silent example_in_slot_0 player_action.pause) 20 = true →
        player_step Env.silent (task_run Env.silent (player_step Env.silent example_in_slot_0 player_action.pause) 20) player_action.resume = task_run Env.silent example_in_slot_0 20)
    ∧ (unseen Env.silent (player_step Env.silent example_in_slot_0 player_action.pause) 20 = false →
        (task_run Env.silent (player_step Env.silent example_in_slot_0 player_action.pause) 20).w.player_state = player_state_t.PLAYER_PAUSED
        ∧ ((task_run Env.silent (player_step Env.silent example_in_slot_0 player_action.pause) 20).pc = task_pc.sequence_end
            ∨ polling (task_run Env.silent (player_step Env.silent example_in_slot_0 player_action.pause) 20).pc = true)
        ∧ visited (task_run Env.silent (player_step Env.silent example_in_slot_0 player_action.pause) 20).events
            = visited example_in_slot_0.events ++ (if example_in_slot_0.pc = task_pc.slot_exists then [example_in_slot_0.slot] else [])
        ∧ (if (task_run Env.silent (player_step Env.silent example_in_slot_0 player_action.pause) 20).pc = task_pc.sequence_end ∧ example_in_slot_0.w.current_loop = false then
            (player_step Env.silent (task_run Env.silent (player_step Env.silent example_in_slot_0 player_action.pause) 20) player_action.resume).w.player_state
                = player_state_t.PLAYER_RUNNING
            ∧ ∀ m,
              (task_run Env.silent (player_step Env.silent (task_run Env.silent (player_step Env.silent example_in_slot_0 player_action.pause) 20) player_action.resume)
                  (1 + m)).w.player_state = player_state_t.PLAYER_IDLE
              ∧ visited (task_run Env.silent
                    (player_step Env.silent (task_run Env.silent (player_step Env.silent example_in_slot_0 player_action.pause) 20) player_action.resume)
                    (1 + m)).events
                  = visited (task_run Env.silent (player_step Env.silent example_in_slot_0 player_action.pause) 20).events
              ∧ (task_run Env.silent (player_step Env.silent (task_run Env.silent (player_step Env.silent example_in_slot_0 player_action.pause) 20) player_action.resume)
                  (1 + m)).w.bus = (task_run Env.silent (player_step Env.silent example_in_slot_0 player_action.pause) 20).w.bus
          else
            ∃ n, n ≤ 7
              ∧ visited (task_run Env.silent
                    (player_step Env.silent (task_run Env.silent (player_step Env.silent example_in_slot_0 player_action.pause) 20) player_action.resume) n).events
                  = visited (task_run Env.silent (player_step Env.silent example_in_slot_0 player_action.pause) 20).events ++ [example_in_slot_0.w.current_start_slot]
              ∧ (task_run Env.silent
                    (player_step Env.silent (task_run Env.silent (player_step Env.silent example_in_slot_0 player_action.pause) 20) player_action.resume) n).slot
                  = example_in_slot_0.w.current_start_slot)))
    ∧ ((11 ≤ 6 → unseen Env.silent (player_step Env.silent example_looping_in_slot_0 player_action.pause) 6 = false)
    ∧ (unseen Env.silent (player_step Env.silent example_looping_in_slot_0 player_action.pause) 6 = true →
        player_step Env.silent (task_run Env.silent (player_step Env.silent example_looping_in_slot_0 player_action.pause) 6) player_action.resume = task_run Env.silent example_looping_in_slot_0 6)
    ∧ (unseen Env.silent (player_step Env.silent example_looping_in_slot_0 player_action.pause) 6 = false →
        (task_run Env.silent (player_step Env.silent example_looping_in_slot_0 player_action.pause) 6).w.player_state = player_state_t.PLAYER_PAUSED
        ∧ ((task_run Env.silent (player_step Env.silent example_looping_in_slot_0 player_action.pause) 6).pc = task_pc.sequence_end
            ∨ polling (task_run Env.silent (player_step Env.silent example_looping_in_slot_0 player_action.pause) 6).pc = true)
        ∧ visited (task_run Env.silent (player_step Env.silent example_looping_in_slot_0 player_action.pause) 6).events
            = visited example_looping_in_slot_0.events ++ (if example_looping_in_slot_0.pc = task_pc.slot_exists then [example_looping_in_slot_0.slot] else [])
        ∧ (if (task_run Env.silent (player_step Env.silent example_looping_in_slot_0 player_action.pause) 6).pc = task_pc.sequence_end ∧ example_looping_in_slot_0.w.current_loop = false then
            (player_step Env.silent (task_run Env.silent (player_step Env.silent example_looping_in_slot_0 player_action.pause) 6) player_action.resume).w.player_state
                = player_state_t.PLAYER_RUNNING
            ∧ ∀ m,
              (task_run Env.silent (player_step Env.silent (task_run Env.silent (player_step Env.silent example_looping_in_slot_0 player_action.pause) 6) player_action.resume)
                  (1 + m)).w.player_state = player_state_t.PLAYER_IDLE
              ∧ visited (task_run Env.silent
                    (player_step Env.silent (task_run Env.silent (player_step Env.silent example_looping_in_slot_0 player_action.pause) 6) player_action.resume)
                    (1 + m)).events
                  = visited (task_run Env.silent (player_step Env.silent example_looping_in_slot_0 player_action.pause) 6).events
              ∧ (task_run Env.silent (player_step Env.silent (task_run Env.silent (player_step Env.silent example_looping_in_slot_0 player_action.pause) 6) player_action.resume)
                  (1 + m)).w.bus = (task_run Env.silent (player_step Env.silent example_looping_in_slot_0 player_action.pause) 6).w.bus
          else
            ∃ n, n ≤ 7
              ∧ visited (task_run Env.silent
                    (player_step Env.silent (task_run Env.silent (player_step Env.silent example_looping_in_slot_0 player_action.pause) 6) player_action.resume) n).events
                  = visited (task_run Env.silent (player_step Env.silent example_looping_in_slot_0 player_action.pause) 6).events ++ [example_looping_in_slot_0.w.current_start_slot]
              ∧ (task_run Env.silent
                    (player_step Env.silent (task_run Env.silent (player_step Env.silent example_looping_in_slot_0 player_action.pause) 6) player_action.resume) n).slot
                  = example_looping_in_slot_0.w.current_start_slot))) :=
  ⟨by decide, by decide,
    C21_resume_restarts_pass Env.silent example_in_slot_0 5 (by decide) (by decide) (by decide)
      (by decide),
    C21_resume_restarts_pass Env.silent example_in_slot_0 6 (by decide) (by decide) (by decide)
      (by decide),
    C21_resume_restarts_pass Env.silent example_in_slot_0 20 (by decide) (by decide) (by decide)
      (by decide),
    C21_resume_restarts_pass Env.silent example_looping_in_slot_0 6 (by decide) (by decide)
      (by decide) (by decide)⟩

end Barm
